import Mathlib

/-!
Verification of the eqwalizer checked-AST transformation framework
(`crates/types_db/src/eqwalizer/transformer.rs`), the analyses cache
(`crates/eqwalizer/src/analyses/mod.rs`), the undefined-function diagnostic
(`crates/ide/src/diagnostics/undefined_function.rs`) and the glean indexer
location conversion (`crates/elp/src/bin/glean.rs`), via a shallow embedding
in Lean.  Fallible Rust code returning `Result<A, T>` is embedded as
`Except T A`; the `?` operator and `collect::<Result<Vec<_>, _>>` become
monadic bind and an explicit first-error list traversal.
-/

set_option maxHeartbeats 1600000

namespace Eqwalizer

/-- Byte-offset source span attached to AST nodes (the `location` fields of
the eqwalizer AST; §3 of the design: a span `(start, length)`). -/
structure Loc where
  start : Nat
  length : Nat
deriving DecidableEq, Repr

/-! ### Guard-test sublanguage (`guard.rs`), as used by `walk_test` -/

mutual

/-- The guard-test sublanguage `Test` (side-effect-free parallel of `Expr`).
Variants and their walked fields are taken from `walk_test` in
`transformer.rs`; payloads the walk passes through unchanged (atoms,
numbers, identifiers, specifiers, binary literals) are embedded as plain
`String`/`Int` tokens. -/
inductive Test where
  | TestVar (v : String)
  | TestAtom (a : String)
  | TestNumber (n : String)
  | TestTuple (location : Loc) (elems : List Test)
  | TestString (s : String)
  | TestNil (n : String)
  | TestCons (location : Loc) (h : Test) (t : Test)
  | TestCall (location : Loc) (id : String) (args : List Test)
  | TestRecordCreate (location : Loc) (rec_name : String) (fields : List TestRecordField)
  | TestRecordSelect (location : Loc) (rcd : Test) (rec_name : String) (field_name : String)
  | TestRecordIndex (r : String)
  | TestMapCreate (location : Loc) (kvs : List (Test × Test))
  | TestMapUpdate (location : Loc) (map : Test) (kvs : List (Test × Test))
  | TestUnOp (location : Loc) (op : String) (arg : Test)
  | TestBinOp (location : Loc) (op : String) (arg_1 : Test) (arg_2 : Test)
  | TestBinaryLit (b : String)

/-- Record fields inside a guard-test record creation (`TestRecordField`
in `guard.rs`): named fields keep their name, generated fields carry only
a value. -/
inductive TestRecordField where
  | TestRecordFieldNamed (name : String) (value : Test)
  | TestRecordFieldGen (value : Test)

end

/-- A guard: an ordered list of tests, all of which must hold
(`Guard` in `guard.rs`, walked by `walk_guard`). -/
structure Guard where
  tests : List Test
deriving Inhabited

/-! ### Expression / pattern sublanguages (`expr.rs`, `pat.rs`),
as used by `walk_expr`, `walk_pat` and their satellite walks. -/

mutual

/-- The expression sublanguage `Expr` (≈30 variants).  Variants and the
fields the default walk recurses into are taken verbatim from `walk_expr`
in `transformer.rs`; payloads passed through unchanged are `String`/`Int`
tokens. -/
inductive Expr where
  | Var (v : String)
  | AtomLit (a : String)
  | IntLit (i : Int)
  | FloatLit (f : String)
  | Block (location : Loc) (body : Body)
  | Match (location : Loc) (pat : Pat) (expr : Expr)
  | Tuple (location : Loc) (elems : List Expr)
  | StringLit (s : String)
  | NilLit (n : String)
  | Cons (location : Loc) (h : Expr) (t : Expr)
  | Case (location : Loc) (expr : Expr) (clauses : List Clause)
  | If (location : Loc) (clauses : List Clause)
  | LocalCall (location : Loc) (id : String) (args : List Expr)
  | DynCall (location : Loc) (f : Expr) (args : List Expr)
  | RemoteCall (location : Loc) (id : String) (args : List Expr)
  | LocalFun (f : String)
  | RemoteFun (f : String)
  | DynRemoteFun (location : Loc) (module : Expr) (name : Expr)
  | DynRemoteFunArity (location : Loc) (module : Expr) (name : Expr) (arity : Expr)
  | Lambda (location : Loc) (clauses : List Clause) (name : Option String)
  | UnOp (location : Loc) (op : String) (arg : Expr)
  | BinOp (location : Loc) (op : String) (arg_1 : Expr) (arg_2 : Expr)
  | LComprehension (location : Loc) (template : Expr) (qualifiers : List Qualifier)
  | BComprehension (location : Loc) (template : Expr) (qualifiers : List Qualifier)
  | MComprehension (location : Loc) (k_template : Expr) (v_template : Expr)
      (qualifiers : List Qualifier)
  | Binary (location : Loc) (elems : List BinaryElem)
  | Catch (location : Loc) (expr : Expr)
  | TryCatchExpr (location : Loc) (try_body : Body) (catch_clauses : List Clause)
      (after_body : Option Body)
  | TryOfCatchExpr (location : Loc) (try_body : Body) (try_clauses : List Clause)
      (catch_clauses : List Clause) (after_body : Option Body)
  | Receive (location : Loc) (clauses : List Clause)
  | ReceiveWithTimeout (location : Loc) (clauses : List Clause) (timeout : Expr)
      (timeout_body : Body)
  | RecordCreate (location : Loc) (rec_name : String) (fields : List RecordField)
  | RecordUpdate (location : Loc) (rec_name : String) (expr : Expr)
      (fields : List RecordFieldNamed)
  | RecordSelect (location : Loc) (rec_name : String) (field_name : String) (expr : Expr)
  | RecordIndex (r : String)
  | MapCreate (location : Loc) (kvs : List (Expr × Expr))
  | MapUpdate (location : Loc) (map : Expr) (kvs : List (Expr × Expr))
  | Maybe (location : Loc) (body : Body)
  | MaybeElse (location : Loc) (body : Body) (else_clauses : List Clause)
  | MaybeMatch (location : Loc) (pat : Pat) (arg : Expr)

/-- A function body: an ordered sequence of expressions (`Body` in
`expr.rs`, walked by `walk_body`). -/
inductive Body where
  | mk (exprs : List Expr)

/-- One clause of a function / case / lambda / receive: patterns, guards
and a body, plus its location (`Clause` in `expr.rs`, walked by
`walk_clause`). -/
inductive Clause where
  | mk (location : Loc) (pats : List Pat) (guards : List Guard) (body : Body)

/-- One comprehension qualifier: a list/binary/map generator or a boolean
filter (`Qualifier` in `expr.rs`, walked by `walk_qualifier`). -/
inductive Qualifier where
  | LGenerate (pat : Pat) (expr : Expr)
  | BGenerate (pat : Pat) (expr : Expr)
  | MGenerate (k_pat : Pat) (v_pat : Pat) (expr : Expr)
  | Filter (expr : Expr)

/-- One element of a binary construction: a value expression with an
optional size expression and a pass-through specifier (`BinaryElem` in
`expr.rs`, walked by `walk_binary_elem`). -/
inductive BinaryElem where
  | mk (location : Loc) (specifier : String) (expr : Expr) (size : Option Expr)

/-- A record field in a record creation: either named or generated
(`RecordField` in `expr.rs`, walked by `walk_record_field`). -/
inductive RecordField where
  | RecordFieldGen (value : Expr)
  | RecordFieldNamed (name : String) (value : Expr)

/-- A named record field (name plus value expression), as used in record
updates (`RecordFieldNamed` in `expr.rs`). -/
inductive RecordFieldNamed where
  | mk (name : String) (value : Expr)

/-- The pattern sublanguage `Pat`.  Variants and walked fields from
`walk_pat` in `transformer.rs`; map keys are guard tests, binary element
sizes are expressions. -/
inductive Pat where
  | PatWild (p : String)
  | PatMatch (location : Loc) (pat : Pat) (arg : Pat)
  | PatTuple (location : Loc) (elems : List Pat)
  | PatString (s : String)
  | PatNil (n : String)
  | PatCons (location : Loc) (h : Pat) (t : Pat)
  | PatInt (i : Int)
  | PatNumber (n : String)
  | PatAtom (a : String)
  | PatVar (v : String)
  | PatRecord (location : Loc) (rec_name : String) (fields : List PatRecordFieldNamed)
      (gen : Option Pat)
  | PatRecordIndex (r : String)
  | PatUnOp (location : Loc) (op : String) (arg : Pat)
  | PatBinOp (location : Loc) (op : String) (arg_1 : Pat) (arg_2 : Pat)
  | PatBinary (location : Loc) (elems : List PatBinaryElem)
  | PatMap (location : Loc) (kvs : List (Test × Pat))

/-- A named record field inside a record pattern (`PatRecordFieldNamed`
in `pat.rs`). -/
inductive PatRecordFieldNamed where
  | mk (name : String) (pat : Pat)

/-- One element of a binary pattern: a sub-pattern with an optional size
expression (`PatBinaryElem` in `pat.rs`, walked by
`walk_pat_binary_elem`). -/
inductive PatBinaryElem where
  | mk (location : Loc) (specifier : String) (pat : Pat) (size : Option Expr)

end

/-- A default-valued record field of an external record declaration
(`ExternalRecField` in `form.rs`): the default walk rebuilds only the
optional `default_value`, spreading the rest (`..f`). -/
structure ExternalRecField where
  name : String
  tp : String
  default_value : Option Expr

/-- Top-level module forms (`ExternalForm` in `form.rs`).  Variants from
`walk_form`; only `FunDecl` (clauses) and `ExternalRecDecl` (field default
values) are recursed into, every other variant is passed through. -/
inductive ExternalForm where
  | Module (m : String)
  | CompileExportAll (c : String)
  | Export (e : String)
  | Import (i : String)
  | ExportType (e : String)
  | FunDecl (location : Loc) (id : String) (clauses : List Clause)
  | File (f : String)
  | ElpMetadata (m : String)
  | Behaviour (b : String)
  | EqwalizerNowarnFunction (e : String)
  | EqwalizerUnlimitedRefinement (e : String)
  | TypingAttribute (t : String)
  | ExternalTypeDecl (d : String)
  | ExternalOpaqueDecl (d : String)
  | ExternalFunSpec (s : String)
  | ExternalCallback (c : String)
  | ExternalOptionalCallbacks (c : String)
  | ExternalRecDecl (location : Loc) (name : String) (file : Option String)
      (fields : List ExternalRecField)

/-- A whole checked AST: the ordered sequence of forms of one module
(`AST` = `Vec<ExternalForm>`, a type alias). -/
abbrev AST := List ExternalForm

/-! ### The transformation protocol (`Transformer<T>` trait)

The Rust trait has thirteen entry points, each with a default body that
performs the category's structural walk.  A pass overrides a subset of
them; unoverridden ones fall back to the walk, and the walk recurses
through the (possibly overridden) entry points.  We embed a pass as a
record with one optional override per entry point (`none` = use the
default walk), and each `transform_*` function dispatches to the
override when present. -/

/-- A transformation pass over the checked AST, generic in the error type
`T`: one optional override per trait entry point. -/
structure Transformer (T : Type) where
  o_ast : Option (AST → Except T AST)
  o_expr : Option (Expr → Except T Expr)
  o_pat : Option (Pat → Except T Pat)
  o_test : Option (Test → Except T Test)
  o_clause : Option (Clause → Except T Clause)
  o_body : Option (Body → Except T Body)
  o_guard : Option (Guard → Except T Guard)
  o_form : Option (ExternalForm → Except T ExternalForm)
  o_qualifier : Option (Qualifier → Except T Qualifier)
  o_binary_elem : Option (BinaryElem → Except T BinaryElem)
  o_pat_binary_elem : Option (PatBinaryElem → Except T PatBinaryElem)
  o_record_field : Option (RecordField → Except T RecordField)
  o_test_record_field : Option (TestRecordField → Except T TestRecordField)

/-- The pass with no overrides: every entry point keeps its default body
(the structural walk). -/
def default_transformer (T : Type) : Transformer T :=
  ⟨none, none, none, none, none, none, none, none, none, none, none, none, none⟩

@[simp] theorem default_o_ast (T : Type) : (default_transformer T).o_ast = none := rfl
@[simp] theorem default_o_expr (T : Type) : (default_transformer T).o_expr = none := rfl
@[simp] theorem default_o_pat (T : Type) : (default_transformer T).o_pat = none := rfl
@[simp] theorem default_o_test (T : Type) : (default_transformer T).o_test = none := rfl
@[simp] theorem default_o_clause (T : Type) : (default_transformer T).o_clause = none := rfl
@[simp] theorem default_o_body (T : Type) : (default_transformer T).o_body = none := rfl
@[simp] theorem default_o_guard (T : Type) : (default_transformer T).o_guard = none := rfl
@[simp] theorem default_o_form (T : Type) : (default_transformer T).o_form = none := rfl
@[simp] theorem default_o_qualifier (T : Type) :
    (default_transformer T).o_qualifier = none := rfl
@[simp] theorem default_o_binary_elem (T : Type) :
    (default_transformer T).o_binary_elem = none := rfl
@[simp] theorem default_o_pat_binary_elem (T : Type) :
    (default_transformer T).o_pat_binary_elem = none := rfl
@[simp] theorem default_o_record_field (T : Type) :
    (default_transformer T).o_record_field = none := rfl
@[simp] theorem default_o_test_record_field (T : Type) :
    (default_transformer T).o_test_record_field = none := rfl

@[simp] theorem exc_bind_ok {T α β : Type} (a : α) (f : α → Except T β) :
    (Except.ok a >>= f) = f a := rfl

@[simp] theorem exc_bind_error {T α β : Type} (e : T) (f : α → Except T β) :
    ((Except.error e : Except T α) >>= f) = (Except.error e : Except T β) := rfl

@[simp] theorem exc_pure {T α : Type} (a : α) :
    (pure a : Except T α) = Except.ok a := rfl

@[simp] theorem exc_map_ok {T α β : Type} (f : α → β) (a : α) :
    Except.map f (Except.ok a : Except T α) = Except.ok (f a) := rfl

@[simp] theorem exc_map_error {T α β : Type} (f : α → β) (e : T) :
    Except.map f (Except.error e : Except T α) = (Except.error e : Except T β) := rfl

/-! ### Guard-test walks (`walk_test`, `walk_guard`,
`walk_test_record_field`) -/

mutual

/-- Trait entry point `transform_test`: the override if present, else the
default structural walk. -/
def transform_test {T : Type} (tr : Transformer T) (t : Test) : Except T Test :=
  match tr.o_test with
  | some f => f t
  | none => walk_test tr t

/-- Trait entry point `transform_test_record_field`. -/
def transform_test_record_field {T : Type} (tr : Transformer T) (f : TestRecordField) :
    Except T TestRecordField :=
  match tr.o_test_record_field with
  | some g => g f
  | none => walk_test_record_field tr f

/-- `tests.into_iter().map(transform_test).collect::<Result<Vec<_>,_>>()`:
first-error traversal of a list of tests. -/
def transform_test_list {T : Type} (tr : Transformer T) : List Test → Except T (List Test)
  | [] => Except.ok []
  | t :: ts => do
    let t' ← transform_test tr t
    let ts' ← transform_test_list tr ts
    Except.ok (t' :: ts')

/-- Key/value list traversal of `walk_test` map cases: each pair is
transformed key first, then value (`and_then` chain in the source). -/
def transform_test_kv_list {T : Type} (tr : Transformer T) :
    List (Test × Test) → Except T (List (Test × Test))
  | [] => Except.ok []
  | (k, v) :: kvs => do
    let k_trans ← transform_test tr k
    let v_trans ← transform_test tr v
    let kvs' ← transform_test_kv_list tr kvs
    Except.ok ((k_trans, v_trans) :: kvs')

/-- First-error traversal of test record fields. -/
def transform_test_record_field_list {T : Type} (tr : Transformer T) :
    List TestRecordField → Except T (List TestRecordField)
  | [] => Except.ok []
  | f :: fs => do
    let f' ← transform_test_record_field tr f
    let fs' ← transform_test_record_field_list tr fs
    Except.ok (f' :: fs')

/-- `walk_test`: the default exhaustive structural walk over guard tests,
matching the source arm for arm. -/
def walk_test {T : Type} (tr : Transformer T) (t : Test) : Except T Test :=
  match t with
  | .TestVar v => Except.ok (.TestVar v)
  | .TestAtom a => Except.ok (.TestAtom a)
  | .TestNumber n => Except.ok (.TestNumber n)
  | .TestTuple location elems => do
    let elems' ← transform_test_list tr elems
    Except.ok (.TestTuple location elems')
  | .TestString s => Except.ok (.TestString s)
  | .TestNil n => Except.ok (.TestNil n)
  | .TestCons location h t => do
    let h' ← transform_test tr h
    let t' ← transform_test tr t
    Except.ok (.TestCons location h' t')
  | .TestCall location id args => do
    let args' ← transform_test_list tr args
    Except.ok (.TestCall location id args')
  | .TestRecordCreate location rec_name fields => do
    let fields' ← transform_test_record_field_list tr fields
    Except.ok (.TestRecordCreate location rec_name fields')
  | .TestRecordSelect location rcd rec_name field_name => do
    let rcd' ← transform_test tr rcd
    Except.ok (.TestRecordSelect location rcd' rec_name field_name)
  | .TestRecordIndex r => Except.ok (.TestRecordIndex r)
  | .TestMapCreate location kvs => do
    let kvs' ← transform_test_kv_list tr kvs
    Except.ok (.TestMapCreate location kvs')
  | .TestMapUpdate location map kvs => do
    let map' ← transform_test tr map
    let kvs' ← transform_test_kv_list tr kvs
    Except.ok (.TestMapUpdate location map' kvs')
  | .TestUnOp location op arg => do
    let arg' ← transform_test tr arg
    Except.ok (.TestUnOp location op arg')
  | .TestBinOp location op arg_1 arg_2 => do
    let a1 ← transform_test tr arg_1
    let a2 ← transform_test tr arg_2
    Except.ok (.TestBinOp location op a1 a2)
  | .TestBinaryLit b => Except.ok (.TestBinaryLit b)

/-- `walk_test_record_field`: named fields keep their name, only the value
is transformed. -/
def walk_test_record_field {T : Type} (tr : Transformer T) (f : TestRecordField) :
    Except T TestRecordField :=
  match f with
  | .TestRecordFieldNamed name value => do
    let value' ← transform_test tr value
    Except.ok (.TestRecordFieldNamed name value')
  | .TestRecordFieldGen value => do
    let value' ← transform_test tr value
    Except.ok (.TestRecordFieldGen value')

end

/-- Trait entry point `transform_guard` and its default `walk_guard`:
a guard is rebuilt from the first-error traversal of its tests. -/
def walk_guard {T : Type} (tr : Transformer T) (g : Guard) : Except T Guard := do
  let tests' ← transform_test_list tr g.tests
  Except.ok ⟨tests'⟩

/-- Trait entry point `transform_guard`. -/
def transform_guard {T : Type} (tr : Transformer T) (g : Guard) : Except T Guard :=
  match tr.o_guard with
  | some f => f g
  | none => walk_guard tr g

/-- First-error traversal of a clause's guard list
(`guards.into_iter().map(transform_guard).collect()` in `walk_clause`). -/
def transform_guard_list {T : Type} (tr : Transformer T) :
    List Guard → Except T (List Guard)
  | [] => Except.ok []
  | g :: gs => do
    let g' ← transform_guard tr g
    let gs' ← transform_guard_list tr gs
    Except.ok (g' :: gs')

/-- Every expression node has positive size (used for the termination
measure of the iterative cons walk). -/
theorem expr_sizeOf_pos (e : Expr) : 0 < sizeOf e := by
  cases e <;> simp_arith

/-- Every location has positive size (used for the termination measure of
the iterative cons walk). -/
theorem loc_sizeOf_pos (l : Loc) : 0 < sizeOf l := by
  cases l; simp_arith

/-! ### Expression / pattern walks (`walk_expr`, `walk_pat`, `walk_clause`,
`walk_body`, `walk_qualifier`, `walk_binary_elem`, `walk_pat_binary_elem`,
`walk_record_field`, `walk_cons`) -/

mutual

/-- Trait entry point `transform_expr`: the override if present, else
`walk_expr`. -/
def transform_expr {T : Type} (tr : Transformer T) (e : Expr) : Except T Expr :=
  match tr.o_expr with
  | some f => f e
  | none => walk_expr tr e
termination_by 2 * sizeOf e + 1
decreasing_by all_goals simp_wf; all_goals omega

/-- Trait entry point `transform_pat`: the override if present, else
`walk_pat`. -/
def transform_pat {T : Type} (tr : Transformer T) (p : Pat) : Except T Pat :=
  match tr.o_pat with
  | some f => f p
  | none => walk_pat tr p
termination_by 2 * sizeOf p + 1
decreasing_by all_goals simp_wf; all_goals omega

/-- Trait entry point `transform_clause`. -/
def transform_clause {T : Type} (tr : Transformer T) (c : Clause) : Except T Clause :=
  match tr.o_clause with
  | some f => f c
  | none => walk_clause tr c
termination_by 2 * sizeOf c + 1
decreasing_by all_goals simp_wf; all_goals omega

/-- Trait entry point `transform_body`. -/
def transform_body {T : Type} (tr : Transformer T) (b : Body) : Except T Body :=
  match tr.o_body with
  | some f => f b
  | none => walk_body tr b
termination_by 2 * sizeOf b + 1
decreasing_by all_goals simp_wf; all_goals omega

/-- Trait entry point `transform_qualifier`. -/
def transform_qualifier {T : Type} (tr : Transformer T) (q : Qualifier) : Except T Qualifier :=
  match tr.o_qualifier with
  | some f => f q
  | none => walk_qualifier tr q
termination_by 2 * sizeOf q + 1
decreasing_by all_goals simp_wf; all_goals omega

/-- Trait entry point `transform_binary_elem`. -/
def transform_binary_elem {T : Type} (tr : Transformer T) (elem : BinaryElem) :
    Except T BinaryElem :=
  match tr.o_binary_elem with
  | some f => f elem
  | none => walk_binary_elem tr elem
termination_by 2 * sizeOf elem + 1
decreasing_by all_goals simp_wf; all_goals omega

/-- Trait entry point `transform_pat_binary_elem`. -/
def transform_pat_binary_elem {T : Type} (tr : Transformer T) (elem : PatBinaryElem) :
    Except T PatBinaryElem :=
  match tr.o_pat_binary_elem with
  | some f => f elem
  | none => walk_pat_binary_elem tr elem
termination_by 2 * sizeOf elem + 1
decreasing_by all_goals simp_wf; all_goals omega

/-- Trait entry point `transform_record_field`. -/
def transform_record_field {T : Type} (tr : Transformer T) (field : RecordField) :
    Except T RecordField :=
  match tr.o_record_field with
  | some f => f field
  | none => walk_record_field tr field
termination_by 2 * sizeOf field + 1
decreasing_by all_goals simp_wf; all_goals omega

/-- First-error traversal of an expression list
(`.map(transform_expr).collect::<Result<Vec<_>,_>>()`). -/
def transform_expr_list {T : Type} (tr : Transformer T) :
    List Expr → Except T (List Expr)
  | [] => Except.ok []
  | e :: es => do
    let e' ← transform_expr tr e
    let es' ← transform_expr_list tr es
    Except.ok (e' :: es')
termination_by l => 2 * sizeOf l
decreasing_by all_goals simp_wf; all_goals omega

/-- First-error traversal of a pattern list. -/
def transform_pat_list {T : Type} (tr : Transformer T) :
    List Pat → Except T (List Pat)
  | [] => Except.ok []
  | p :: ps => do
    let p' ← transform_pat tr p
    let ps' ← transform_pat_list tr ps
    Except.ok (p' :: ps')
termination_by l => 2 * sizeOf l
decreasing_by all_goals simp_wf; all_goals omega

/-- First-error traversal of a clause list. -/
def transform_clause_list {T : Type} (tr : Transformer T) :
    List Clause → Except T (List Clause)
  | [] => Except.ok []
  | c :: cs => do
    let c' ← transform_clause tr c
    let cs' ← transform_clause_list tr cs
    Except.ok (c' :: cs')
termination_by l => 2 * sizeOf l
decreasing_by all_goals simp_wf; all_goals omega

/-- First-error traversal of a comprehension qualifier list. -/
def transform_qualifier_list {T : Type} (tr : Transformer T) :
    List Qualifier → Except T (List Qualifier)
  | [] => Except.ok []
  | q :: qs => do
    let q' ← transform_qualifier tr q
    let qs' ← transform_qualifier_list tr qs
    Except.ok (q' :: qs')
termination_by l => 2 * sizeOf l
decreasing_by all_goals simp_wf; all_goals omega

/-- First-error traversal of a binary element list. -/
def transform_binary_elem_list {T : Type} (tr : Transformer T) :
    List BinaryElem → Except T (List BinaryElem)
  | [] => Except.ok []
  | e :: es => do
    let e' ← transform_binary_elem tr e
    let es' ← transform_binary_elem_list tr es
    Except.ok (e' :: es')
termination_by l => 2 * sizeOf l
decreasing_by all_goals simp_wf; all_goals omega

/-- First-error traversal of a binary pattern element list. -/
def transform_pat_binary_elem_list {T : Type} (tr : Transformer T) :
    List PatBinaryElem → Except T (List PatBinaryElem)
  | [] => Except.ok []
  | e :: es => do
    let e' ← transform_pat_binary_elem tr e
    let es' ← transform_pat_binary_elem_list tr es
    Except.ok (e' :: es')
termination_by l => 2 * sizeOf l
decreasing_by all_goals simp_wf; all_goals omega

/-- First-error traversal of a record-creation field list. -/
def transform_record_field_list {T : Type} (tr : Transformer T) :
    List RecordField → Except T (List RecordField)
  | [] => Except.ok []
  | f :: fs => do
    let f' ← transform_record_field tr f
    let fs' ← transform_record_field_list tr fs
    Except.ok (f' :: fs')
termination_by l => 2 * sizeOf l
decreasing_by all_goals simp_wf; all_goals omega

/-- Key/value list of `Expr::MapCreate` / `Expr::MapUpdate`: each pair is
transformed key first then value (the `and_then` chain in the source),
keeping the pairing. -/
def transform_expr_kv_list {T : Type} (tr : Transformer T) :
    List (Expr × Expr) → Except T (List (Expr × Expr))
  | [] => Except.ok []
  | (k, v) :: kvs => do
    let k_trans ← transform_expr tr k
    let v_trans ← transform_expr tr v
    let kvs' ← transform_expr_kv_list tr kvs
    Except.ok ((k_trans, v_trans) :: kvs')
termination_by l => 2 * sizeOf l
decreasing_by all_goals simp_wf; all_goals omega

/-- Field list of `Expr::RecordUpdate`: the inline closure of the source
transforms only each field's value, keeping its name. -/
def transform_record_update_field_list {T : Type} (tr : Transformer T) :
    List RecordFieldNamed → Except T (List RecordFieldNamed)
  | [] => Except.ok []
  | .mk name value :: fs => do
    let value' ← transform_expr tr value
    let fs' ← transform_record_update_field_list tr fs
    Except.ok (.mk name value' :: fs')
termination_by l => 2 * sizeOf l
decreasing_by all_goals simp_wf; all_goals omega

/-- Field list of `Pat::PatRecord`: the inline closure transforms each
field's sub-pattern, keeping its name. -/
def transform_pat_record_field_list {T : Type} (tr : Transformer T) :
    List PatRecordFieldNamed → Except T (List PatRecordFieldNamed)
  | [] => Except.ok []
  | .mk name pat :: fs => do
    let pat' ← transform_pat tr pat
    let fs' ← transform_pat_record_field_list tr fs
    Except.ok (.mk name pat' :: fs')
termination_by l => 2 * sizeOf l
decreasing_by all_goals simp_wf; all_goals omega

/-- Key/value list of `Pat::PatMap`: keys are guard tests, values are
sub-patterns; key transformed first, then value. -/
def transform_test_pat_kv_list {T : Type} (tr : Transformer T) :
    List (Test × Pat) → Except T (List (Test × Pat))
  | [] => Except.ok []
  | (k, v) :: kvs => do
    let k_trans ← transform_test tr k
    let v_trans ← transform_pat tr v
    let kvs' ← transform_test_pat_kv_list tr kvs
    Except.ok ((k_trans, v_trans) :: kvs')
termination_by l => 2 * sizeOf l
decreasing_by all_goals simp_wf; all_goals omega

/-- `size.map_or(Ok(None), |s| transform_expr(s).map(Some))`: transform an
optional expression if present, else keep it absent. -/
def transform_option_expr {T : Type} (tr : Transformer T) :
    Option Expr → Except T (Option Expr)
  | none => Except.ok none
  | some s => Except.map some (transform_expr tr s)
termination_by o => 2 * sizeOf o
decreasing_by all_goals simp_wf; all_goals omega

/-- `after_body.map_or(Ok(None), |b| transform_body(b).map(Some))`. -/
def transform_option_body {T : Type} (tr : Transformer T) :
    Option Body → Except T (Option Body)
  | none => Except.ok none
  | some b => Except.map some (transform_body tr b)
termination_by o => 2 * sizeOf o
decreasing_by all_goals simp_wf; all_goals omega

/-- `gen.map_or(Ok(None), |g| transform_pat(*g).map(|pat| Some(..)))`. -/
def transform_option_pat {T : Type} (tr : Transformer T) :
    Option Pat → Except T (Option Pat)
  | none => Except.ok none
  | some g => Except.map some (transform_pat tr g)
termination_by o => 2 * sizeOf o
decreasing_by all_goals simp_wf; all_goals omega

/-- `walk_body`: first-error traversal of a body's expression sequence. -/
def walk_body {T : Type} (tr : Transformer T) (b : Body) : Except T Body :=
  match b with
  | .mk exprs => do
    let exprs' ← transform_expr_list tr exprs
    Except.ok (.mk exprs')
termination_by 2 * sizeOf b
decreasing_by all_goals simp_wf; all_goals omega

/-- `walk_clause`: patterns, then guards, then the body; the location is
kept. -/
def walk_clause {T : Type} (tr : Transformer T) (c : Clause) : Except T Clause :=
  match c with
  | .mk location pats guards body => do
    let pats' ← transform_pat_list tr pats
    let guards' ← transform_guard_list tr guards
    let body' ← transform_body tr body
    Except.ok (.mk location pats' guards' body')
termination_by 2 * sizeOf c
decreasing_by all_goals simp_wf; all_goals omega

/-- `walk_qualifier`: generators transform the pattern(s) then the source
expression; filters transform their expression. -/
def walk_qualifier {T : Type} (tr : Transformer T) (q : Qualifier) : Except T Qualifier :=
  match q with
  | .LGenerate pat expr => do
    let pat' ← transform_pat tr pat
    let expr' ← transform_expr tr expr
    Except.ok (.LGenerate pat' expr')
  | .BGenerate pat expr => do
    let pat' ← transform_pat tr pat
    let expr' ← transform_expr tr expr
    Except.ok (.BGenerate pat' expr')
  | .MGenerate k_pat v_pat expr => do
    let k_pat' ← transform_pat tr k_pat
    let v_pat' ← transform_pat tr v_pat
    let expr' ← transform_expr tr expr
    Except.ok (.MGenerate k_pat' v_pat' expr')
  | .Filter expr => do
    let expr' ← transform_expr tr expr
    Except.ok (.Filter expr')
termination_by 2 * sizeOf q
decreasing_by all_goals simp_wf; all_goals omega

/-- `walk_binary_elem`: the value expression, then the optional size
expression; location and specifier are kept. -/
def walk_binary_elem {T : Type} (tr : Transformer T) (elem : BinaryElem) :
    Except T BinaryElem :=
  match elem with
  | .mk location specifier expr size => do
    let expr' ← transform_expr tr expr
    let size' ← transform_option_expr tr size
    Except.ok (.mk location specifier expr' size')
termination_by 2 * sizeOf elem
decreasing_by all_goals simp_wf; all_goals omega

/-- `walk_record_field`: generated fields transform their value; named
fields keep their name and transform their value. -/
def walk_record_field {T : Type} (tr : Transformer T) (field : RecordField) :
    Except T RecordField :=
  match field with
  | .RecordFieldGen value => do
    let value' ← transform_expr tr value
    Except.ok (.RecordFieldGen value')
  | .RecordFieldNamed name value => do
    let value' ← transform_expr tr value
    Except.ok (.RecordFieldNamed name value')
termination_by 2 * sizeOf field
decreasing_by all_goals simp_wf; all_goals omega

/-- The loop body of `walk_cons`: transform the current head, push the
`(location, transformed head)` pair, and hand the tail to
`walk_cons_tail`. -/
def walk_cons_go {T : Type} (tr : Transformer T) (transformed_elems : List (Loc × Expr))
    (location : Loc) (h : Expr) (t : Expr) : Except T Expr := do
  let h' ← transform_expr tr h
  walk_cons_tail tr (transformed_elems ++ [(location, h')]) t
termination_by 2 * (sizeOf h + sizeOf t) + 2
decreasing_by
  all_goals simp_wf
  all_goals try have h1 := expr_sizeOf_pos h
  all_goals try have h2 := expr_sizeOf_pos t
  all_goals omega

/-- The `match *cons.t` step of the `walk_cons` loop: a nested cons
continues the loop; any other tail is transformed and the accumulated
heads are refolded right-to-left onto it
(`transformed_elems.into_iter().rev().fold(..)`). -/
def walk_cons_tail {T : Type} (tr : Transformer T) (transformed_elems : List (Loc × Expr))
    (t : Expr) : Except T Expr :=
  match t with
  | .Cons l2 h2 t2 => walk_cons_go tr transformed_elems l2 h2 t2
  | exp => do
    let transformed_t ← transform_expr tr exp
    Except.ok (transformed_elems.reverse.foldl
      (fun acc p => Expr.Cons p.1 p.2 acc) transformed_t)
termination_by 2 * sizeOf t + 2
decreasing_by
  all_goals simp_wf
  all_goals try have h1 := expr_sizeOf_pos t
  all_goals try have h2 := expr_sizeOf_pos exp
  all_goals omega

/-- `walk_expr`: the exhaustive default structural walk over expressions,
matching the source arm for arm; leaf variants pass through unchanged. -/
def walk_expr {T : Type} (tr : Transformer T) (e : Expr) : Except T Expr :=
  match e with
  | .Var v => Except.ok (.Var v)
  | .AtomLit a => Except.ok (.AtomLit a)
  | .IntLit i => Except.ok (.IntLit i)
  | .FloatLit f => Except.ok (.FloatLit f)
  | .Block location body => do
    let body' ← transform_body tr body
    Except.ok (.Block location body')
  | .Match location pat expr => do
    let pat' ← transform_pat tr pat
    let expr' ← transform_expr tr expr
    Except.ok (.Match location pat' expr')
  | .Tuple location elems => do
    let elems' ← transform_expr_list tr elems
    Except.ok (.Tuple location elems')
  | .StringLit s => Except.ok (.StringLit s)
  | .NilLit n => Except.ok (.NilLit n)
  | .Cons location h t => walk_cons_go tr [] location h t
  | .Case location expr clauses => do
    let expr' ← transform_expr tr expr
    let clauses' ← transform_clause_list tr clauses
    Except.ok (.Case location expr' clauses')
  | .If location clauses => do
    let clauses' ← transform_clause_list tr clauses
    Except.ok (.If location clauses')
  | .LocalCall location id args => do
    let args' ← transform_expr_list tr args
    Except.ok (.LocalCall location id args')
  | .DynCall location f args => do
    let f' ← transform_expr tr f
    let args' ← transform_expr_list tr args
    Except.ok (.DynCall location f' args')
  | .RemoteCall location id args => do
    let args' ← transform_expr_list tr args
    Except.ok (.RemoteCall location id args')
  | .LocalFun f => Except.ok (.LocalFun f)
  | .RemoteFun f => Except.ok (.RemoteFun f)
  | .DynRemoteFun location module name => do
    let module' ← transform_expr tr module
    let name' ← transform_expr tr name
    Except.ok (.DynRemoteFun location module' name')
  | .DynRemoteFunArity location module name arity => do
    let module' ← transform_expr tr module
    let name' ← transform_expr tr name
    let arity' ← transform_expr tr arity
    Except.ok (.DynRemoteFunArity location module' name' arity')
  | .Lambda location clauses name => do
    let clauses' ← transform_clause_list tr clauses
    Except.ok (.Lambda location clauses' name)
  | .UnOp location op arg => do
    let arg' ← transform_expr tr arg
    Except.ok (.UnOp location op arg')
  | .BinOp location op arg_1 arg_2 => do
    let a1 ← transform_expr tr arg_1
    let a2 ← transform_expr tr arg_2
    Except.ok (.BinOp location op a1 a2)
  | .LComprehension location template qualifiers => do
    let template' ← transform_expr tr template
    let qualifiers' ← transform_qualifier_list tr qualifiers
    Except.ok (.LComprehension location template' qualifiers')
  | .BComprehension location template qualifiers => do
    let template' ← transform_expr tr template
    let qualifiers' ← transform_qualifier_list tr qualifiers
    Except.ok (.BComprehension location template' qualifiers')
  | .MComprehension location k_template v_template qualifiers => do
    let k_template' ← transform_expr tr k_template
    let v_template' ← transform_expr tr v_template
    let qualifiers' ← transform_qualifier_list tr qualifiers
    Except.ok (.MComprehension location k_template' v_template' qualifiers')
  | .Binary location elems => do
    let elems' ← transform_binary_elem_list tr elems
    Except.ok (.Binary location elems')
  | .Catch location expr => do
    let expr' ← transform_expr tr expr
    Except.ok (.Catch location expr')
  | .TryCatchExpr location try_body catch_clauses after_body => do
    let try_body' ← transform_body tr try_body
    let catch_clauses' ← transform_clause_list tr catch_clauses
    let after_body' ← transform_option_body tr after_body
    Except.ok (.TryCatchExpr location try_body' catch_clauses' after_body')
  | .TryOfCatchExpr location try_body try_clauses catch_clauses after_body => do
    let try_body' ← transform_body tr try_body
    let try_clauses' ← transform_clause_list tr try_clauses
    let catch_clauses' ← transform_clause_list tr catch_clauses
    let after_body' ← transform_option_body tr after_body
    Except.ok (.TryOfCatchExpr location try_body' try_clauses' catch_clauses' after_body')
  | .Receive location clauses => do
    let clauses' ← transform_clause_list tr clauses
    Except.ok (.Receive location clauses')
  | .ReceiveWithTimeout location clauses timeout timeout_body => do
    let clauses' ← transform_clause_list tr clauses
    let timeout' ← transform_expr tr timeout
    let timeout_body' ← transform_body tr timeout_body
    Except.ok (.ReceiveWithTimeout location clauses' timeout' timeout_body')
  | .RecordCreate location rec_name fields => do
    let fields' ← transform_record_field_list tr fields
    Except.ok (.RecordCreate location rec_name fields')
  | .RecordUpdate location rec_name expr fields => do
    let expr' ← transform_expr tr expr
    let fields' ← transform_record_update_field_list tr fields
    Except.ok (.RecordUpdate location rec_name expr' fields')
  | .RecordSelect location rec_name field_name expr => do
    let expr' ← transform_expr tr expr
    Except.ok (.RecordSelect location rec_name field_name expr')
  | .RecordIndex r => Except.ok (.RecordIndex r)
  | .MapCreate location kvs => do
    let kvs' ← transform_expr_kv_list tr kvs
    Except.ok (.MapCreate location kvs')
  | .MapUpdate location map kvs => do
    let map' ← transform_expr tr map
    let kvs' ← transform_expr_kv_list tr kvs
    Except.ok (.MapUpdate location map' kvs')
  | .Maybe location body => do
    let body' ← transform_body tr body
    Except.ok (.Maybe location body')
  | .MaybeElse location body else_clauses => do
    let body' ← transform_body tr body
    let else_clauses' ← transform_clause_list tr else_clauses
    Except.ok (.MaybeElse location body' else_clauses')
  | .MaybeMatch location pat arg => do
    let pat' ← transform_pat tr pat
    let arg' ← transform_expr tr arg
    Except.ok (.MaybeMatch location pat' arg')
termination_by 2 * sizeOf e
decreasing_by
  all_goals simp_wf
  all_goals try have h1 := loc_sizeOf_pos location
  all_goals omega

/-- `walk_pat_binary_elem`: the sub-pattern, then the optional size
expression; location and specifier are kept. -/
def walk_pat_binary_elem {T : Type} (tr : Transformer T) (elem : PatBinaryElem) :
    Except T PatBinaryElem :=
  match elem with
  | .mk location specifier pat size => do
    let pat' ← transform_pat tr pat
    let size' ← transform_option_expr tr size
    Except.ok (.mk location specifier pat' size')
termination_by 2 * sizeOf elem
decreasing_by all_goals simp_wf; all_goals omega

/-- `walk_pat`: the exhaustive default structural walk over patterns,
matching the source arm for arm. -/
def walk_pat {T : Type} (tr : Transformer T) (p : Pat) : Except T Pat :=
  match p with
  | .PatWild q => Except.ok (.PatWild q)
  | .PatMatch location pat arg => do
    let pat' ← transform_pat tr pat
    let arg' ← transform_pat tr arg
    Except.ok (.PatMatch location pat' arg')
  | .PatTuple location elems => do
    let elems' ← transform_pat_list tr elems
    Except.ok (.PatTuple location elems')
  | .PatString s => Except.ok (.PatString s)
  | .PatNil n => Except.ok (.PatNil n)
  | .PatCons location h t => do
    let h' ← transform_pat tr h
    let t' ← transform_pat tr t
    Except.ok (.PatCons location h' t')
  | .PatInt i => Except.ok (.PatInt i)
  | .PatNumber n => Except.ok (.PatNumber n)
  | .PatAtom a => Except.ok (.PatAtom a)
  | .PatVar v => Except.ok (.PatVar v)
  | .PatRecord location rec_name fields gen => do
    let fields' ← transform_pat_record_field_list tr fields
    let gen' ← transform_option_pat tr gen
    Except.ok (.PatRecord location rec_name fields' gen')
  | .PatRecordIndex r => Except.ok (.PatRecordIndex r)
  | .PatUnOp location op arg => do
    let arg' ← transform_pat tr arg
    Except.ok (.PatUnOp location op arg')
  | .PatBinOp location op arg_1 arg_2 => do
    let a1 ← transform_pat tr arg_1
    let a2 ← transform_pat tr arg_2
    Except.ok (.PatBinOp location op a1 a2)
  | .PatBinary location elems => do
    let elems' ← transform_pat_binary_elem_list tr elems
    Except.ok (.PatBinary location elems')
  | .PatMap location kvs => do
    let kvs' ← transform_test_pat_kv_list tr kvs
    Except.ok (.PatMap location kvs')
termination_by 2 * sizeOf p
decreasing_by all_goals simp_wf; all_goals omega

end

/-- `walk_cons`: the iterative walk of a cons chain, entered with an empty
accumulator (the Rust `walk_cons` whose loop is `walk_cons_go`). -/
def walk_cons {T : Type} (tr : Transformer T) (location : Loc) (h : Expr) (t : Expr) :
    Except T Expr :=
  walk_cons_go tr [] location h t

/-! ### Form and whole-AST walks (`walk_form`, `Transformer::transform_ast`) -/

/-- Field list of `ExternalForm::ExternalRecDecl`: each field's optional
default value is transformed if present, the rest of the field is spread
unchanged (`ExternalRecField { default_value, ..f }`). -/
def transform_external_rec_field_list {T : Type} (tr : Transformer T) :
    List ExternalRecField → Except T (List ExternalRecField)
  | [] => Except.ok []
  | f :: fs => do
    let default_value ← transform_option_expr tr f.default_value
    let fs' ← transform_external_rec_field_list tr fs
    Except.ok ({ f with default_value := default_value } :: fs')

/-- `walk_form`: the exhaustive default structural walk over top-level
forms; only function declarations (clauses) and record declarations
(field default values) are recursed into. -/
def walk_form {T : Type} (tr : Transformer T) (form : ExternalForm) :
    Except T ExternalForm :=
  match form with
  | .Module m => Except.ok (.Module m)
  | .CompileExportAll c => Except.ok (.CompileExportAll c)
  | .Export e => Except.ok (.Export e)
  | .Import i => Except.ok (.Import i)
  | .ExportType e => Except.ok (.ExportType e)
  | .FunDecl location id clauses => do
    let clauses' ← transform_clause_list tr clauses
    Except.ok (.FunDecl location id clauses')
  | .File f => Except.ok (.File f)
  | .ElpMetadata m => Except.ok (.ElpMetadata m)
  | .Behaviour b => Except.ok (.Behaviour b)
  | .EqwalizerNowarnFunction e => Except.ok (.EqwalizerNowarnFunction e)
  | .EqwalizerUnlimitedRefinement e => Except.ok (.EqwalizerUnlimitedRefinement e)
  | .TypingAttribute t => Except.ok (.TypingAttribute t)
  | .ExternalTypeDecl d => Except.ok (.ExternalTypeDecl d)
  | .ExternalOpaqueDecl d => Except.ok (.ExternalOpaqueDecl d)
  | .ExternalFunSpec s => Except.ok (.ExternalFunSpec s)
  | .ExternalCallback c => Except.ok (.ExternalCallback c)
  | .ExternalOptionalCallbacks c => Except.ok (.ExternalOptionalCallbacks c)
  | .ExternalRecDecl location name file fields => do
    let fields' ← transform_external_rec_field_list tr fields
    Except.ok (.ExternalRecDecl location name file fields')

/-- Trait entry point `transform_form`. -/
def transform_form {T : Type} (tr : Transformer T) (form : ExternalForm) :
    Except T ExternalForm :=
  match tr.o_form with
  | some f => f form
  | none => walk_form tr form

/-- First-error traversal of the form list of a module
(`ast.into_iter().map(transform_form).collect()`). -/
def transform_form_list {T : Type} (tr : Transformer T) :
    List ExternalForm → Except T (List ExternalForm)
  | [] => Except.ok []
  | f :: fs => do
    let f' ← transform_form tr f
    let fs' ← transform_form_list tr fs
    Except.ok (f' :: fs')

/-- Trait entry point `transform_ast`: the override if present, else the
trait's default body (first-error traversal of the module's forms). -/
def transform_ast {T : Type} (tr : Transformer T) (ast : AST) : Except T AST :=
  match tr.o_ast with
  | some f => f ast
  | none => transform_form_list tr ast

/-! ### Identity law for the all-default pass (guard-test family) -/

mutual

theorem transform_test_id {T : Type} (t : Test) :
    transform_test (default_transformer T) t = Except.ok t := by
  rw [transform_test]
  exact walk_test_id t
termination_by 2 * sizeOf t + 1
decreasing_by all_goals simp_wf; all_goals omega

theorem walk_test_id {T : Type} (t : Test) :
    walk_test (default_transformer T) t = Except.ok t := by
  cases t with
  | TestVar v => simp [walk_test]
  | TestAtom a => simp [walk_test]
  | TestNumber n => simp [walk_test]
  | TestTuple location elems => simp [walk_test, transform_test_list_id elems]
  | TestString s => simp [walk_test]
  | TestNil n => simp [walk_test]
  | TestCons location h t => simp [walk_test, transform_test_id h, transform_test_id t]
  | TestCall location id args => simp [walk_test, transform_test_list_id args]
  | TestRecordCreate location rec_name fields =>
    simp [walk_test, transform_test_record_field_list_id fields]
  | TestRecordSelect location rcd rec_name field_name =>
    simp [walk_test, transform_test_id rcd]
  | TestRecordIndex r => simp [walk_test]
  | TestMapCreate location kvs => simp [walk_test, transform_test_kv_list_id kvs]
  | TestMapUpdate location map kvs =>
    simp [walk_test, transform_test_id map, transform_test_kv_list_id kvs]
  | TestUnOp location op arg => simp [walk_test, transform_test_id arg]
  | TestBinOp location op arg_1 arg_2 =>
    simp [walk_test, transform_test_id arg_1, transform_test_id arg_2]
  | TestBinaryLit b => simp [walk_test]
termination_by 2 * sizeOf t
decreasing_by all_goals simp_wf; all_goals omega

theorem transform_test_record_field_id {T : Type} (f : TestRecordField) :
    transform_test_record_field (default_transformer T) f = Except.ok f := by
  rw [transform_test_record_field]
  cases f with
  | TestRecordFieldNamed name value =>
    simp [walk_test_record_field, transform_test_id value]
  | TestRecordFieldGen value =>
    simp [walk_test_record_field, transform_test_id value]
termination_by 2 * sizeOf f + 1
decreasing_by all_goals simp_wf; all_goals omega

theorem transform_test_list_id {T : Type} (l : List Test) :
    transform_test_list (default_transformer T) l = Except.ok l := by
  cases l with
  | nil => simp [transform_test_list]
  | cons t ts => simp [transform_test_list, transform_test_id t, transform_test_list_id ts]
termination_by 2 * sizeOf l
decreasing_by all_goals simp_wf; all_goals omega

theorem transform_test_kv_list_id {T : Type} (l : List (Test × Test)) :
    transform_test_kv_list (default_transformer T) l = Except.ok l := by
  cases l with
  | nil => simp [transform_test_kv_list]
  | cons kv kvs =>
    obtain ⟨k, v⟩ := kv
    simp [transform_test_kv_list, transform_test_id k, transform_test_id v,
      transform_test_kv_list_id kvs]
termination_by 2 * sizeOf l
decreasing_by all_goals simp_wf; all_goals omega

theorem transform_test_record_field_list_id {T : Type} (l : List TestRecordField) :
    transform_test_record_field_list (default_transformer T) l = Except.ok l := by
  cases l with
  | nil => simp [transform_test_record_field_list]
  | cons f fs =>
    simp [transform_test_record_field_list, transform_test_record_field_id f,
      transform_test_record_field_list_id fs]
termination_by 2 * sizeOf l
decreasing_by all_goals simp_wf; all_goals omega

end

theorem transform_guard_id {T : Type} (g : Guard) :
    transform_guard (default_transformer T) g = Except.ok g := by
  obtain ⟨tests⟩ := g
  simp [transform_guard, walk_guard, transform_test_list_id tests]

theorem transform_guard_list_id {T : Type} (l : List Guard) :
    transform_guard_list (default_transformer T) l = Except.ok l := by
  induction l with
  | nil => simp [transform_guard_list]
  | cons g gs ih => simp [transform_guard_list, transform_guard_id g, ih]

/-! ### Identity law for the all-default pass (expression / pattern family) -/

mutual

theorem transform_expr_id {T : Type} (e : Expr) :
    transform_expr (default_transformer T) e = Except.ok e := by
  rw [transform_expr]
  exact walk_expr_id e
termination_by 2 * sizeOf e + 1
decreasing_by all_goals simp_wf; all_goals omega

theorem transform_pat_id {T : Type} (p : Pat) :
    transform_pat (default_transformer T) p = Except.ok p := by
  rw [transform_pat]
  exact walk_pat_id p
termination_by 2 * sizeOf p + 1
decreasing_by all_goals simp_wf; all_goals omega

theorem transform_clause_id {T : Type} (c : Clause) :
    transform_clause (default_transformer T) c = Except.ok c := by
  rw [transform_clause]
  cases c with
  | mk location pats guards body =>
    simp [walk_clause, transform_pat_list_id pats, transform_guard_list_id guards,
      transform_body_id body]
termination_by 2 * sizeOf c + 1
decreasing_by all_goals simp_wf; all_goals omega

theorem transform_body_id {T : Type} (b : Body) :
    transform_body (default_transformer T) b = Except.ok b := by
  rw [transform_body]
  cases b with
  | mk exprs => simp [walk_body, transform_expr_list_id exprs]
termination_by 2 * sizeOf b + 1
decreasing_by all_goals simp_wf; all_goals omega

theorem transform_qualifier_id {T : Type} (q : Qualifier) :
    transform_qualifier (default_transformer T) q = Except.ok q := by
  rw [transform_qualifier]
  cases q with
  | LGenerate pat expr => simp [walk_qualifier, transform_pat_id pat, transform_expr_id expr]
  | BGenerate pat expr => simp [walk_qualifier, transform_pat_id pat, transform_expr_id expr]
  | MGenerate k_pat v_pat expr =>
    simp [walk_qualifier, transform_pat_id k_pat, transform_pat_id v_pat,
      transform_expr_id expr]
  | Filter expr => simp [walk_qualifier, transform_expr_id expr]
termination_by 2 * sizeOf q + 1
decreasing_by all_goals simp_wf; all_goals omega

theorem transform_binary_elem_id {T : Type} (elem : BinaryElem) :
    transform_binary_elem (default_transformer T) elem = Except.ok elem := by
  rw [transform_binary_elem]
  cases elem with
  | mk location specifier expr size =>
    simp [walk_binary_elem, transform_expr_id expr, transform_option_expr_id size]
termination_by 2 * sizeOf elem + 1
decreasing_by all_goals simp_wf; all_goals omega

theorem transform_pat_binary_elem_id {T : Type} (elem : PatBinaryElem) :
    transform_pat_binary_elem (default_transformer T) elem = Except.ok elem := by
  rw [transform_pat_binary_elem]
  cases elem with
  | mk location specifier pat size =>
    simp [walk_pat_binary_elem, transform_pat_id pat, transform_option_expr_id size]
termination_by 2 * sizeOf elem + 1
decreasing_by all_goals simp_wf; all_goals omega

theorem transform_record_field_id {T : Type} (field : RecordField) :
    transform_record_field (default_transformer T) field = Except.ok field := by
  rw [transform_record_field]
  cases field with
  | RecordFieldGen value => simp [walk_record_field, transform_expr_id value]
  | RecordFieldNamed name value => simp [walk_record_field, transform_expr_id value]
termination_by 2 * sizeOf field + 1
decreasing_by all_goals simp_wf; all_goals omega

theorem transform_expr_list_id {T : Type} (l : List Expr) :
    transform_expr_list (default_transformer T) l = Except.ok l := by
  cases l with
  | nil => simp [transform_expr_list]
  | cons e es => simp [transform_expr_list, transform_expr_id e, transform_expr_list_id es]
termination_by 2 * sizeOf l
decreasing_by all_goals simp_wf; all_goals omega

theorem transform_pat_list_id {T : Type} (l : List Pat) :
    transform_pat_list (default_transformer T) l = Except.ok l := by
  cases l with
  | nil => simp [transform_pat_list]
  | cons p ps => simp [transform_pat_list, transform_pat_id p, transform_pat_list_id ps]
termination_by 2 * sizeOf l
decreasing_by all_goals simp_wf; all_goals omega

theorem transform_clause_list_id {T : Type} (l : List Clause) :
    transform_clause_list (default_transformer T) l = Except.ok l := by
  cases l with
  | nil => simp [transform_clause_list]
  | cons c cs =>
    simp [transform_clause_list, transform_clause_id c, transform_clause_list_id cs]
termination_by 2 * sizeOf l
decreasing_by all_goals simp_wf; all_goals omega

theorem transform_qualifier_list_id {T : Type} (l : List Qualifier) :
    transform_qualifier_list (default_transformer T) l = Except.ok l := by
  cases l with
  | nil => simp [transform_qualifier_list]
  | cons q qs =>
    simp [transform_qualifier_list, transform_qualifier_id q, transform_qualifier_list_id qs]
termination_by 2 * sizeOf l
decreasing_by all_goals simp_wf; all_goals omega

theorem transform_binary_elem_list_id {T : Type} (l : List BinaryElem) :
    transform_binary_elem_list (default_transformer T) l = Except.ok l := by
  cases l with
  | nil => simp [transform_binary_elem_list]
  | cons e es =>
    simp [transform_binary_elem_list, transform_binary_elem_id e,
      transform_binary_elem_list_id es]
termination_by 2 * sizeOf l
decreasing_by all_goals simp_wf; all_goals omega

theorem transform_pat_binary_elem_list_id {T : Type} (l : List PatBinaryElem) :
    transform_pat_binary_elem_list (default_transformer T) l = Except.ok l := by
  cases l with
  | nil => simp [transform_pat_binary_elem_list]
  | cons e es =>
    simp [transform_pat_binary_elem_list, transform_pat_binary_elem_id e,
      transform_pat_binary_elem_list_id es]
termination_by 2 * sizeOf l
decreasing_by all_goals simp_wf; all_goals omega

theorem transform_record_field_list_id {T : Type} (l : List RecordField) :
    transform_record_field_list (default_transformer T) l = Except.ok l := by
  cases l with
  | nil => simp [transform_record_field_list]
  | cons f fs =>
    simp [transform_record_field_list, transform_record_field_id f,
      transform_record_field_list_id fs]
termination_by 2 * sizeOf l
decreasing_by all_goals simp_wf; all_goals omega

theorem transform_expr_kv_list_id {T : Type} (l : List (Expr × Expr)) :
    transform_expr_kv_list (default_transformer T) l = Except.ok l := by
  cases l with
  | nil => simp [transform_expr_kv_list]
  | cons kv kvs =>
    obtain ⟨k, v⟩ := kv
    simp [transform_expr_kv_list, transform_expr_id k, transform_expr_id v,
      transform_expr_kv_list_id kvs]
termination_by 2 * sizeOf l
decreasing_by all_goals simp_wf; all_goals omega

theorem transform_record_update_field_list_id {T : Type} (l : List RecordFieldNamed) :
    transform_record_update_field_list (default_transformer T) l = Except.ok l := by
  cases l with
  | nil => simp [transform_record_update_field_list]
  | cons f fs =>
    cases f with
    | mk name value =>
      simp [transform_record_update_field_list, transform_expr_id value,
        transform_record_update_field_list_id fs]
termination_by 2 * sizeOf l
decreasing_by all_goals simp_wf; all_goals omega

theorem transform_pat_record_field_list_id {T : Type} (l : List PatRecordFieldNamed) :
    transform_pat_record_field_list (default_transformer T) l = Except.ok l := by
  cases l with
  | nil => simp [transform_pat_record_field_list]
  | cons f fs =>
    cases f with
    | mk name pat =>
      simp [transform_pat_record_field_list, transform_pat_id pat,
        transform_pat_record_field_list_id fs]
termination_by 2 * sizeOf l
decreasing_by all_goals simp_wf; all_goals omega

theorem transform_test_pat_kv_list_id {T : Type} (l : List (Test × Pat)) :
    transform_test_pat_kv_list (default_transformer T) l = Except.ok l := by
  cases l with
  | nil => simp [transform_test_pat_kv_list]
  | cons kv kvs =>
    obtain ⟨k, v⟩ := kv
    simp [transform_test_pat_kv_list, transform_test_id k, transform_pat_id v,
      transform_test_pat_kv_list_id kvs]
termination_by 2 * sizeOf l
decreasing_by all_goals simp_wf; all_goals omega

theorem transform_option_expr_id {T : Type} (o : Option Expr) :
    transform_option_expr (default_transformer T) o = Except.ok o := by
  cases o with
  | none => simp [transform_option_expr]
  | some s => simp [transform_option_expr, transform_expr_id s]
termination_by 2 * sizeOf o
decreasing_by all_goals simp_wf; all_goals omega

theorem transform_option_body_id {T : Type} (o : Option Body) :
    transform_option_body (default_transformer T) o = Except.ok o := by
  cases o with
  | none => simp [transform_option_body]
  | some b => simp [transform_option_body, transform_body_id b]
termination_by 2 * sizeOf o
decreasing_by all_goals simp_wf; all_goals omega

theorem transform_option_pat_id {T : Type} (o : Option Pat) :
    transform_option_pat (default_transformer T) o = Except.ok o := by
  cases o with
  | none => simp [transform_option_pat]
  | some g => simp [transform_option_pat, transform_pat_id g]
termination_by 2 * sizeOf o
decreasing_by all_goals simp_wf; all_goals omega

theorem walk_cons_go_id {T : Type} (acc : List (Loc × Expr)) (location : Loc)
    (h : Expr) (t : Expr) :
    walk_cons_go (default_transformer T) acc location h t =
      Except.ok (acc.reverse.foldl (fun a p => Expr.Cons p.1 p.2 a)
        (Expr.Cons location h t)) := by
  rw [walk_cons_go]
  rw [transform_expr_id h]
  simp only [exc_bind_ok]
  rw [walk_cons_tail_id (acc ++ [(location, h)]) t]
  simp
termination_by 2 * (sizeOf h + sizeOf t) + 2
decreasing_by
  all_goals simp_wf
  all_goals try have h1 := expr_sizeOf_pos h
  all_goals try have h2 := expr_sizeOf_pos t
  all_goals omega

theorem walk_cons_tail_id {T : Type} (acc : List (Loc × Expr)) (t : Expr) :
    walk_cons_tail (default_transformer T) acc t =
      Except.ok (acc.reverse.foldl (fun a p => Expr.Cons p.1 p.2 a) t) := by
  by_cases hc : ∃ l2 h2 t2, t = Expr.Cons l2 h2 t2
  · obtain ⟨l2, h2, t2, he⟩ := hc
    rw [he, walk_cons_tail.eq_1]
    exact walk_cons_go_id acc l2 h2 t2
  · rw [walk_cons_tail.eq_2 _ _ _ (fun l2 h2 t2 hq => hc ⟨l2, h2, t2, hq⟩)]
    rw [transform_expr_id t]
    simp
termination_by 2 * sizeOf t + 2
decreasing_by
  all_goals simp_wf
  all_goals try subst he
  all_goals try simp_arith
  all_goals try omega

theorem walk_expr_id {T : Type} (e : Expr) :
    walk_expr (default_transformer T) e = Except.ok e := by
  cases e with
  | Var v => simp [walk_expr]
  | AtomLit a => simp [walk_expr]
  | IntLit i => simp [walk_expr]
  | FloatLit f => simp [walk_expr]
  | Block location body => simp [walk_expr, transform_body_id body]
  | Match location pat expr => simp [walk_expr, transform_pat_id pat, transform_expr_id expr]
  | Tuple location elems => simp [walk_expr, transform_expr_list_id elems]
  | StringLit s => simp [walk_expr]
  | NilLit n => simp [walk_expr]
  | Cons location h t => simp [walk_expr, walk_cons_go_id ([] : List (Loc × Expr)) location h t]
  | Case location expr clauses =>
    simp [walk_expr, transform_expr_id expr, transform_clause_list_id clauses]
  | If location clauses => simp [walk_expr, transform_clause_list_id clauses]
  | LocalCall location id args => simp [walk_expr, transform_expr_list_id args]
  | DynCall location f args =>
    simp [walk_expr, transform_expr_id f, transform_expr_list_id args]
  | RemoteCall location id args => simp [walk_expr, transform_expr_list_id args]
  | LocalFun f => simp [walk_expr]
  | RemoteFun f => simp [walk_expr]
  | DynRemoteFun location module name =>
    simp [walk_expr, transform_expr_id module, transform_expr_id name]
  | DynRemoteFunArity location module name arity =>
    simp [walk_expr, transform_expr_id module, transform_expr_id name,
      transform_expr_id arity]
  | Lambda location clauses name => simp [walk_expr, transform_clause_list_id clauses]
  | UnOp location op arg => simp [walk_expr, transform_expr_id arg]
  | BinOp location op arg_1 arg_2 =>
    simp [walk_expr, transform_expr_id arg_1, transform_expr_id arg_2]
  | LComprehension location template qualifiers =>
    simp [walk_expr, transform_expr_id template, transform_qualifier_list_id qualifiers]
  | BComprehension location template qualifiers =>
    simp [walk_expr, transform_expr_id template, transform_qualifier_list_id qualifiers]
  | MComprehension location k_template v_template qualifiers =>
    simp [walk_expr, transform_expr_id k_template, transform_expr_id v_template,
      transform_qualifier_list_id qualifiers]
  | Binary location elems => simp [walk_expr, transform_binary_elem_list_id elems]
  | Catch location expr => simp [walk_expr, transform_expr_id expr]
  | TryCatchExpr location try_body catch_clauses after_body =>
    simp [walk_expr, transform_body_id try_body, transform_clause_list_id catch_clauses,
      transform_option_body_id after_body]
  | TryOfCatchExpr location try_body try_clauses catch_clauses after_body =>
    simp [walk_expr, transform_body_id try_body, transform_clause_list_id try_clauses,
      transform_clause_list_id catch_clauses, transform_option_body_id after_body]
  | Receive location clauses => simp [walk_expr, transform_clause_list_id clauses]
  | ReceiveWithTimeout location clauses timeout timeout_body =>
    simp [walk_expr, transform_clause_list_id clauses, transform_expr_id timeout,
      transform_body_id timeout_body]
  | RecordCreate location rec_name fields =>
    simp [walk_expr, transform_record_field_list_id fields]
  | RecordUpdate location rec_name expr fields =>
    simp [walk_expr, transform_expr_id expr, transform_record_update_field_list_id fields]
  | RecordSelect location rec_name field_name expr => simp [walk_expr, transform_expr_id expr]
  | RecordIndex r => simp [walk_expr]
  | MapCreate location kvs => simp [walk_expr, transform_expr_kv_list_id kvs]
  | MapUpdate location map kvs =>
    simp [walk_expr, transform_expr_id map, transform_expr_kv_list_id kvs]
  | Maybe location body => simp [walk_expr, transform_body_id body]
  | MaybeElse location body else_clauses =>
    simp [walk_expr, transform_body_id body, transform_clause_list_id else_clauses]
  | MaybeMatch location pat arg =>
    simp [walk_expr, transform_pat_id pat, transform_expr_id arg]
termination_by 2 * sizeOf e
decreasing_by
  all_goals simp_wf
  all_goals try have h1 := loc_sizeOf_pos location
  all_goals omega

theorem walk_pat_id {T : Type} (p : Pat) :
    walk_pat (default_transformer T) p = Except.ok p := by
  cases p with
  | PatWild q => simp [walk_pat]
  | PatMatch location pat arg => simp [walk_pat, transform_pat_id pat, transform_pat_id arg]
  | PatTuple location elems => simp [walk_pat, transform_pat_list_id elems]
  | PatString s => simp [walk_pat]
  | PatNil n => simp [walk_pat]
  | PatCons location h t => simp [walk_pat, transform_pat_id h, transform_pat_id t]
  | PatInt i => simp [walk_pat]
  | PatNumber n => simp [walk_pat]
  | PatAtom a => simp [walk_pat]
  | PatVar v => simp [walk_pat]
  | PatRecord location rec_name fields gen =>
    simp [walk_pat, transform_pat_record_field_list_id fields, transform_option_pat_id gen]
  | PatRecordIndex r => simp [walk_pat]
  | PatUnOp location op arg => simp [walk_pat, transform_pat_id arg]
  | PatBinOp location op arg_1 arg_2 =>
    simp [walk_pat, transform_pat_id arg_1, transform_pat_id arg_2]
  | PatBinary location elems => simp [walk_pat, transform_pat_binary_elem_list_id elems]
  | PatMap location kvs => simp [walk_pat, transform_test_pat_kv_list_id kvs]
termination_by 2 * sizeOf p
decreasing_by all_goals simp_wf; all_goals omega

end

/-! ### Identity law: forms and whole ASTs -/

theorem transform_external_rec_field_list_id {T : Type} (l : List ExternalRecField) :
    transform_external_rec_field_list (default_transformer T) l = Except.ok l := by
  induction l with
  | nil => simp [transform_external_rec_field_list]
  | cons f fs ih =>
    simp [transform_external_rec_field_list, transform_option_expr_id f.default_value, ih]

theorem transform_form_id {T : Type} (form : ExternalForm) :
    transform_form (default_transformer T) form = Except.ok form := by
  rw [transform_form]
  cases form with
  | FunDecl location id clauses => simp [walk_form, transform_clause_list_id clauses]
  | ExternalRecDecl location name file fields =>
    simp [walk_form, transform_external_rec_field_list_id fields]
  | _ => simp [walk_form]

theorem transform_form_list_id {T : Type} (l : List ExternalForm) :
    transform_form_list (default_transformer T) l = Except.ok l := by
  induction l with
  | nil => simp [transform_form_list]
  | cons f fs ih => simp [transform_form_list, transform_form_id f, ih]

theorem transform_ast_id {T : Type} (ast : AST) :
    transform_ast (default_transformer T) ast = Except.ok ast := by
  rw [transform_ast]
  exact transform_form_list_id ast

/-! ### Fail-fast lemmas -/

/-- A first-error list traversal fails with the error of the first failing
element: if the prefix succeeds and the next element fails with `e`, the
whole traversal fails with `e` and the remainder is never consulted. -/
theorem transform_pat_list_first_error {T : Type} (tr : Transformer T) (pre : List Pat)
    (p : Pat) (rest : List Pat) (pre' : List Pat) (e : T)
    (hpre : transform_pat_list tr pre = Except.ok pre')
    (hp : transform_pat tr p = Except.error e) :
    transform_pat_list tr (pre ++ p :: rest) = Except.error e := by
  induction pre generalizing pre' with
  | nil => simp [transform_pat_list, hp]
  | cons q qs ih =>
    rw [List.cons_append, transform_pat_list]
    rw [transform_pat_list] at hpre
    cases hq : transform_pat tr q with
    | error err => rw [hq] at hpre; simp at hpre
    | ok q' =>
      rw [hq] at hpre
      simp only [exc_bind_ok] at hpre ⊢
      cases hqs : transform_pat_list tr qs with
      | error err => rw [hqs] at hpre; simp at hpre
      | ok qs' => rw [ih qs' hqs]; simp

/-- `walk_clause` aborts with the error of its pattern stage. -/
theorem walk_clause_pats_error {T : Type} (tr : Transformer T) (location : Loc)
    (pats : List Pat) (guards : List Guard) (body : Body) (e : T)
    (h : transform_pat_list tr pats = Except.error e) :
    walk_clause tr (Clause.mk location pats guards body) = Except.error e := by
  rw [walk_clause]
  rw [h]
  simp

/-- `walk_clause` aborts with the error of its guard stage when patterns
succeeded. -/
theorem walk_clause_guards_error {T : Type} (tr : Transformer T) (location : Loc)
    (pats : List Pat) (guards : List Guard) (body : Body) (pats' : List Pat) (e : T)
    (hp : transform_pat_list tr pats = Except.ok pats')
    (h : transform_guard_list tr guards = Except.error e) :
    walk_clause tr (Clause.mk location pats guards body) = Except.error e := by
  rw [walk_clause]
  rw [hp]
  simp only [exc_bind_ok]
  rw [h]
  simp

/-- `walk_clause` aborts with the error of its body stage when patterns
and guards succeeded. -/
theorem walk_clause_body_error {T : Type} (tr : Transformer T) (location : Loc)
    (pats : List Pat) (guards : List Guard) (body : Body) (pats' : List Pat)
    (guards' : List Guard) (e : T)
    (hp : transform_pat_list tr pats = Except.ok pats')
    (hg : transform_guard_list tr guards = Except.ok guards')
    (h : transform_body tr body = Except.error e) :
    walk_clause tr (Clause.mk location pats guards body) = Except.error e := by
  rw [walk_clause]
  rw [hp]
  simp only [exc_bind_ok]
  rw [hg]
  simp only [exc_bind_ok]
  rw [h]
  simp

/-- `walk_expr` on a tuple aborts with the error of its element
traversal. -/
theorem walk_expr_tuple_error {T : Type} (tr : Transformer T) (location : Loc)
    (elems : List Expr) (e : T)
    (h : transform_expr_list tr elems = Except.error e) :
    walk_expr tr (Expr.Tuple location elems) = Except.error e := by
  rw [walk_expr]
  rw [h]
  simp

/-! ### The naive per-element cons recursion, and its equivalence with the
iterative `walk_cons` -/

mutual

/-- The naive per-node recursion over a cons chain that `walk_cons` avoids:
transform the head, then recurse on the tail (continuing through nested
cons cells, transforming the terminal non-cons tail), preserving each cons
cell's location. -/
def naive_walk_cons {T : Type} (tr : Transformer T) (location : Loc) (h : Expr)
    (t : Expr) : Except T Expr := do
  let h' ← transform_expr tr h
  let t' ← naive_walk_cons_tail tr t
  Except.ok (.Cons location h' t')
termination_by 2 * (sizeOf h + sizeOf t) + 2
decreasing_by
  all_goals simp_wf
  all_goals try have h1 := expr_sizeOf_pos h
  all_goals try have h2 := expr_sizeOf_pos t
  all_goals omega

/-- The tail step of the naive recursion: recurse on a nested cons cell,
transform any other tail. -/
def naive_walk_cons_tail {T : Type} (tr : Transformer T) (t : Expr) : Except T Expr :=
  match t with
  | .Cons l2 h2 t2 => naive_walk_cons tr l2 h2 t2
  | exp => transform_expr tr exp
termination_by 2 * sizeOf t + 2
decreasing_by
  all_goals simp_wf
  all_goals try have h1 := expr_sizeOf_pos t
  all_goals try have h2 := expr_sizeOf_pos exp
  all_goals omega

end

mutual

/-- The iterative loop equals the naive recursion, up to refolding the
already-accumulated transformed heads onto the naive result. -/
theorem walk_cons_go_eq_naive {T : Type} (tr : Transformer T) (acc : List (Loc × Expr))
    (location : Loc) (h : Expr) (t : Expr) :
    walk_cons_go tr acc location h t =
      Except.map (fun r => acc.reverse.foldl (fun a p => Expr.Cons p.1 p.2 a) r)
        (naive_walk_cons tr location h t) := by
  rw [walk_cons_go, naive_walk_cons]
  cases hh : transform_expr tr h with
  | error err => simp [hh]
  | ok h' =>
    simp only [hh, exc_bind_ok]
    rw [walk_cons_tail_eq_naive tr (acc ++ [(location, h')]) t]
    cases hnt : naive_walk_cons_tail tr t with
    | error err => simp [hnt]
    | ok t' => simp [hnt]
termination_by 2 * (sizeOf h + sizeOf t) + 2
decreasing_by
  all_goals simp_wf
  all_goals try have h1 := expr_sizeOf_pos h
  all_goals try have h2 := expr_sizeOf_pos t
  all_goals omega

/-- The tail step of the iterative loop equals the naive tail step, up to
refolding the accumulated heads. -/
theorem walk_cons_tail_eq_naive {T : Type} (tr : Transformer T)
    (elems : List (Loc × Expr)) (t : Expr) :
    walk_cons_tail tr elems t =
      Except.map (fun r => elems.reverse.foldl (fun a p => Expr.Cons p.1 p.2 a) r)
        (naive_walk_cons_tail tr t) := by
  by_cases hc : ∃ l2 h2 t2, t = Expr.Cons l2 h2 t2
  · obtain ⟨l2, h2, t2, he⟩ := hc
    rw [he, walk_cons_tail.eq_1, naive_walk_cons_tail.eq_1]
    exact walk_cons_go_eq_naive tr elems l2 h2 t2
  · rw [walk_cons_tail.eq_2 _ _ _ (fun l2 h2 t2 hq => hc ⟨l2, h2, t2, hq⟩)]
    rw [naive_walk_cons_tail.eq_2 _ _ (fun l2 h2 t2 hq => hc ⟨l2, h2, t2, hq⟩)]
    cases ht : transform_expr tr t with
    | error err => simp [ht]
    | ok t' => simp [ht]
termination_by 2 * sizeOf t + 2
decreasing_by
  all_goals simp_wf
  all_goals try subst he
  all_goals try simp_arith
  all_goals try omega

end

/-- The entry points agree outright: the iterative `walk_cons` (and hence
the `Expr::Cons` arm of `walk_expr`) returns exactly what the naive
recursion returns, for every transformer. -/
theorem walk_cons_eq_naive {T : Type} (tr : Transformer T) (location : Loc)
    (h : Expr) (t : Expr) :
    walk_cons tr location h t = naive_walk_cons tr location h t := by
  rw [walk_cons, walk_cons_go_eq_naive]
  cases hn : naive_walk_cons tr location h t with
  | error err => simp
  | ok r => simp

/-- The `Expr::Cons` arm of `walk_expr` is the iterative `walk_cons`. -/
theorem walk_expr_cons_eq_go {T : Type} (tr : Transformer T) (location : Loc)
    (h : Expr) (t : Expr) :
    walk_expr tr (Expr.Cons location h t) = walk_cons_go tr [] location h t := by
  rw [walk_expr]

/-! ### Order- and shape-preservation lemmas -/

/-- The name of a named record field. -/
def RecordFieldNamed.name : RecordFieldNamed → String
  | .mk n _ => n

/-- The value expression of a named record field. -/
def RecordFieldNamed.value : RecordFieldNamed → Expr
  | .mk _ v => v

/-- A successful expression-list traversal transforms the list pointwise:
same length, same order, each output element the transform of the input
element at the same position. -/
theorem transform_expr_list_ok_forall2 {T : Type} (tr : Transformer T)
    (l l' : List Expr) (h : transform_expr_list tr l = Except.ok l') :
    List.Forall₂ (fun a b => transform_expr tr a = Except.ok b) l l' := by
  induction l generalizing l' with
  | nil =>
    rw [transform_expr_list] at h
    simp at h
    subst h
    constructor
  | cons e es ih =>
    rw [transform_expr_list] at h
    cases he : transform_expr tr e with
    | error err => rw [he] at h; simp at h
    | ok e' =>
      rw [he] at h
      simp only [exc_bind_ok] at h
      cases hes : transform_expr_list tr es with
      | error err => rw [hes] at h; simp at h
      | ok es' =>
        rw [hes] at h
        simp at h
        subst h
        exact List.Forall₂.cons he (ih es' hes)

/-- A successful clause-list traversal transforms the list pointwise. -/
theorem transform_clause_list_ok_forall2 {T : Type} (tr : Transformer T)
    (l l' : List Clause) (h : transform_clause_list tr l = Except.ok l') :
    List.Forall₂ (fun a b => transform_clause tr a = Except.ok b) l l' := by
  induction l generalizing l' with
  | nil =>
    rw [transform_clause_list] at h
    simp at h
    subst h
    constructor
  | cons c cs ih =>
    rw [transform_clause_list] at h
    cases hc : transform_clause tr c with
    | error err => rw [hc] at h; simp at h
    | ok c' =>
      rw [hc] at h
      simp only [exc_bind_ok] at h
      cases hcs : transform_clause_list tr cs with
      | error err => rw [hcs] at h; simp at h
      | ok cs' =>
        rw [hcs] at h
        simp at h
        subst h
        exact List.Forall₂.cons hc (ih cs' hcs)

/-- A successful qualifier-list traversal transforms the list pointwise. -/
theorem transform_qualifier_list_ok_forall2 {T : Type} (tr : Transformer T)
    (l l' : List Qualifier) (h : transform_qualifier_list tr l = Except.ok l') :
    List.Forall₂ (fun a b => transform_qualifier tr a = Except.ok b) l l' := by
  induction l generalizing l' with
  | nil =>
    rw [transform_qualifier_list] at h
    simp at h
    subst h
    constructor
  | cons q qs ih =>
    rw [transform_qualifier_list] at h
    cases hq : transform_qualifier tr q with
    | error err => rw [hq] at h; simp at h
    | ok q' =>
      rw [hq] at h
      simp only [exc_bind_ok] at h
      cases hqs : transform_qualifier_list tr qs with
      | error err => rw [hqs] at h; simp at h
      | ok qs' =>
        rw [hqs] at h
        simp at h
        subst h
        exact List.Forall₂.cons hq (ih qs' hqs)

/-- A successful key/value-list traversal transforms keys and values
pointwise, keeping each key paired with its own value. -/
theorem transform_expr_kv_list_ok_forall2 {T : Type} (tr : Transformer T)
    (l l' : List (Expr × Expr)) (h : transform_expr_kv_list tr l = Except.ok l') :
    List.Forall₂
      (fun p q => transform_expr tr p.1 = Except.ok q.1 ∧
        transform_expr tr p.2 = Except.ok q.2) l l' := by
  induction l generalizing l' with
  | nil =>
    rw [transform_expr_kv_list] at h
    simp at h
    subst h
    constructor
  | cons kv kvs ih =>
    obtain ⟨k, v⟩ := kv
    rw [transform_expr_kv_list] at h
    cases hk : transform_expr tr k with
    | error err => rw [hk] at h; simp at h
    | ok k' =>
      rw [hk] at h
      simp only [exc_bind_ok] at h
      cases hv : transform_expr tr v with
      | error err => rw [hv] at h; simp at h
      | ok v' =>
        rw [hv] at h
        simp only [exc_bind_ok] at h
        cases hkvs : transform_expr_kv_list tr kvs with
        | error err => rw [hkvs] at h; simp at h
        | ok kvs' =>
          rw [hkvs] at h
          simp at h
          subst h
          exact List.Forall₂.cons ⟨hk, hv⟩ (ih kvs' hkvs)

/-- A successful record-update field-list traversal keeps every field name
and transforms only the value of each field, in order. -/
theorem transform_record_update_field_list_ok_forall2 {T : Type} (tr : Transformer T)
    (l l' : List RecordFieldNamed)
    (h : transform_record_update_field_list tr l = Except.ok l') :
    List.Forall₂
      (fun f g => g.name = f.name ∧ transform_expr tr f.value = Except.ok g.value) l l' := by
  induction l generalizing l' with
  | nil =>
    rw [transform_record_update_field_list] at h
    simp at h
    subst h
    constructor
  | cons f fs ih =>
    obtain ⟨name, value⟩ := f
    rw [transform_record_update_field_list] at h
    cases hv : transform_expr tr value with
    | error err => rw [hv] at h; simp at h
    | ok v' =>
      rw [hv] at h
      simp only [exc_bind_ok] at h
      cases hfs : transform_record_update_field_list tr fs with
      | error err => rw [hfs] at h; simp at h
      | ok fs' =>
        rw [hfs] at h
        simp at h
        subst h
        exact List.Forall₂.cons ⟨rfl, hv⟩ (ih fs' hfs)

/-- A failing key aborts the key/value traversal with the key's error
(the key is transformed before its value and before later pairs). -/
theorem transform_expr_kv_list_key_error {T : Type} (tr : Transformer T)
    (k v : Expr) (rest : List (Expr × Expr)) (e : T)
    (h : transform_expr tr k = Except.error e) :
    transform_expr_kv_list tr ((k, v) :: rest) = Except.error e := by
  rw [transform_expr_kv_list]
  rw [h]
  simp

/-- Inversion of a successful `walk_expr` on a tuple. -/
theorem walk_expr_tuple_ok {T : Type} (tr : Transformer T) (location : Loc)
    (elems : List Expr) (r : Expr) (h : walk_expr tr (Expr.Tuple location elems) = Except.ok r) :
    ∃ elems', transform_expr_list tr elems = Except.ok elems' ∧
      r = Expr.Tuple location elems' := by
  rw [walk_expr] at h
  cases he : transform_expr_list tr elems with
  | error err => rw [he] at h; simp at h
  | ok elems' =>
    rw [he] at h
    simp at h
    exact ⟨elems', rfl, h.symm⟩

/-- Inversion of a successful `walk_expr` on a map creation. -/
theorem walk_expr_map_create_ok {T : Type} (tr : Transformer T) (location : Loc)
    (kvs : List (Expr × Expr)) (r : Expr)
    (h : walk_expr tr (Expr.MapCreate location kvs) = Except.ok r) :
    ∃ kvs', transform_expr_kv_list tr kvs = Except.ok kvs' ∧
      r = Expr.MapCreate location kvs' := by
  rw [walk_expr] at h
  cases hk : transform_expr_kv_list tr kvs with
  | error err => rw [hk] at h; simp at h
  | ok kvs' =>
    rw [hk] at h
    simp at h
    exact ⟨kvs', rfl, h.symm⟩

/-- Inversion of a successful `walk_expr` on a list comprehension. -/
theorem walk_expr_lcomprehension_ok {T : Type} (tr : Transformer T) (location : Loc)
    (template : Expr) (qualifiers : List Qualifier) (r : Expr)
    (h : walk_expr tr (Expr.LComprehension location template qualifiers) = Except.ok r) :
    ∃ template' qualifiers', transform_expr tr template = Except.ok template' ∧
      transform_qualifier_list tr qualifiers = Except.ok qualifiers' ∧
      r = Expr.LComprehension location template' qualifiers' := by
  rw [walk_expr] at h
  cases ht : transform_expr tr template with
  | error err => rw [ht] at h; simp at h
  | ok template' =>
    rw [ht] at h
    simp only [exc_bind_ok] at h
    cases hq : transform_qualifier_list tr qualifiers with
    | error err => rw [hq] at h; simp at h
    | ok qualifiers' =>
      rw [hq] at h
      simp at h
      exact ⟨template', qualifiers', rfl, rfl, h.symm⟩

/-- Inversion of a successful `walk_expr` on a case expression. -/
theorem walk_expr_case_ok {T : Type} (tr : Transformer T) (location : Loc)
    (expr : Expr) (clauses : List Clause) (r : Expr)
    (h : walk_expr tr (Expr.Case location expr clauses) = Except.ok r) :
    ∃ expr' clauses', transform_expr tr expr = Except.ok expr' ∧
      transform_clause_list tr clauses = Except.ok clauses' ∧
      r = Expr.Case location expr' clauses' := by
  rw [walk_expr] at h
  cases hx : transform_expr tr expr with
  | error err => rw [hx] at h; simp at h
  | ok expr' =>
    rw [hx] at h
    simp only [exc_bind_ok] at h
    cases hc : transform_clause_list tr clauses with
    | error err => rw [hc] at h; simp at h
    | ok clauses' =>
      rw [hc] at h
      simp at h
      exact ⟨expr', clauses', rfl, rfl, h.symm⟩

/-- Inversion of a successful `walk_expr` on a record update. -/
theorem walk_expr_record_update_ok {T : Type} (tr : Transformer T) (location : Loc)
    (rec_name : String) (expr : Expr) (fields : List RecordFieldNamed) (r : Expr)
    (h : walk_expr tr (Expr.RecordUpdate location rec_name expr fields) = Except.ok r) :
    ∃ expr' fields', transform_expr tr expr = Except.ok expr' ∧
      transform_record_update_field_list tr fields = Except.ok fields' ∧
      r = Expr.RecordUpdate location rec_name expr' fields' := by
  rw [walk_expr] at h
  cases hx : transform_expr tr expr with
  | error err => rw [hx] at h; simp at h
  | ok expr' =>
    rw [hx] at h
    simp only [exc_bind_ok] at h
    cases hf : transform_record_update_field_list tr fields with
    | error err => rw [hf] at h; simp at h
    | ok fields' =>
      rw [hf] at h
      simp at h
      exact ⟨expr', fields', rfl, rfl, h.symm⟩

/-! ### Optional-slot preservation lemmas -/

/-- A successful optional-expression transformation preserves presence and
absence of the slot. -/
theorem transform_option_expr_ok_isSome {T : Type} (tr : Transformer T)
    (o o' : Option Expr) (h : transform_option_expr tr o = Except.ok o') :
    o'.isSome = o.isSome := by
  cases o with
  | none =>
    rw [transform_option_expr] at h
    simp at h
    subst h
    rfl
  | some s =>
    rw [transform_option_expr] at h
    cases hs : transform_expr tr s with
    | error err => rw [hs] at h; simp at h
    | ok s' =>
      rw [hs] at h
      simp at h
      subst h
      rfl

/-- A successful optional-body transformation preserves presence and
absence of the slot. -/
theorem transform_option_body_ok_isSome {T : Type} (tr : Transformer T)
    (o o' : Option Body) (h : transform_option_body tr o = Except.ok o') :
    o'.isSome = o.isSome := by
  cases o with
  | none =>
    rw [transform_option_body] at h
    simp at h
    subst h
    rfl
  | some b =>
    rw [transform_option_body] at h
    cases hb : transform_body tr b with
    | error err => rw [hb] at h; simp at h
    | ok b' =>
      rw [hb] at h
      simp at h
      subst h
      rfl

/-- A successful optional-pattern transformation preserves presence and
absence of the slot. -/
theorem transform_option_pat_ok_isSome {T : Type} (tr : Transformer T)
    (o o' : Option Pat) (h : transform_option_pat tr o = Except.ok o') :
    o'.isSome = o.isSome := by
  cases o with
  | none =>
    rw [transform_option_pat] at h
    simp at h
    subst h
    rfl
  | some g =>
    rw [transform_option_pat] at h
    cases hg : transform_pat tr g with
    | error err => rw [hg] at h; simp at h
    | ok g' =>
      rw [hg] at h
      simp at h
      subst h
      rfl

/-- Inversion of a successful `walk_binary_elem`: location and specifier
are kept, the value is transformed, the optional size keeps its
presence. -/
theorem walk_binary_elem_ok {T : Type} (tr : Transformer T) (location : Loc)
    (specifier : String) (expr : Expr) (size : Option Expr) (r : BinaryElem)
    (h : walk_binary_elem tr (BinaryElem.mk location specifier expr size) = Except.ok r) :
    ∃ expr' size', transform_expr tr expr = Except.ok expr' ∧
      transform_option_expr tr size = Except.ok size' ∧
      r = BinaryElem.mk location specifier expr' size' := by
  rw [walk_binary_elem] at h
  cases hx : transform_expr tr expr with
  | error err => rw [hx] at h; simp at h
  | ok expr' =>
    rw [hx] at h
    simp only [exc_bind_ok] at h
    cases hs : transform_option_expr tr size with
    | error err => rw [hs] at h; simp at h
    | ok size' =>
      rw [hs] at h
      simp at h
      exact ⟨expr', size', rfl, rfl, h.symm⟩

/-- Inversion of a successful `walk_expr` on a try/catch expression. -/
theorem walk_expr_try_catch_ok {T : Type} (tr : Transformer T) (location : Loc)
    (try_body : Body) (catch_clauses : List Clause) (after_body : Option Body) (r : Expr)
    (h : walk_expr tr (Expr.TryCatchExpr location try_body catch_clauses after_body) =
      Except.ok r) :
    ∃ try_body' catch_clauses' after_body',
      transform_option_body tr after_body = Except.ok after_body' ∧
      r = Expr.TryCatchExpr location try_body' catch_clauses' after_body' := by
  rw [walk_expr] at h
  cases htb : transform_body tr try_body with
  | error err => rw [htb] at h; simp at h
  | ok try_body' =>
    rw [htb] at h
    simp only [exc_bind_ok] at h
    cases hcc : transform_clause_list tr catch_clauses with
    | error err => rw [hcc] at h; simp at h
    | ok catch_clauses' =>
      rw [hcc] at h
      simp only [exc_bind_ok] at h
      cases hab : transform_option_body tr after_body with
      | error err => rw [hab] at h; simp at h
      | ok after_body' =>
        rw [hab] at h
        simp at h
        exact ⟨try_body', catch_clauses', after_body', rfl, h.symm⟩

/-- Inversion of a successful `walk_pat` on a record pattern. -/
theorem walk_pat_record_ok {T : Type} (tr : Transformer T) (location : Loc)
    (rec_name : String) (fields : List PatRecordFieldNamed) (gen : Option Pat) (r : Pat)
    (h : walk_pat tr (Pat.PatRecord location rec_name fields gen) = Except.ok r) :
    ∃ fields' gen', transform_option_pat tr gen = Except.ok gen' ∧
      r = Pat.PatRecord location rec_name fields' gen' := by
  rw [walk_pat] at h
  cases hf : transform_pat_record_field_list tr fields with
  | error err => rw [hf] at h; simp at h
  | ok fields' =>
    rw [hf] at h
    simp only [exc_bind_ok] at h
    cases hg : transform_option_pat tr gen with
    | error err => rw [hg] at h; simp at h
    | ok gen' =>
      rw [hg] at h
      simp at h
      exact ⟨fields', gen', rfl, h.symm⟩

/-! ### Fail-fast: first failure in visit order, for every node

Each default walk performs, in a fixed visit order, a sequence of
recursive sub-transformations through the trait's entry points, and then
reassembles.  For every node we record the outcome of each of those
sub-transformations, in visit order, as a `List (Option T)` (`none` = the
sub-transformation succeeded, `some e` = it returned `Err(e)`), and show
that the walk's result is characterised by the first failure of that
sequence: if any sub-transformation fails, the walk returns exactly the
error of the first failing one (and nothing else — the `Except` error
carries no rebuilt node); if none fails, the walk succeeds. -/

/-- The error of a fallible computation's outcome, if any. -/
def err_of {T α : Type} : Except T α → Option T
  | Except.ok _ => none
  | Except.error e => some e

/-- The first failure of a sequence of recorded outcomes. -/
def first_error {T : Type} : List (Option T) → Option T
  | [] => none
  | none :: rest => first_error rest
  | some e :: _ => some e

@[simp] theorem first_error_nil {T : Type} :
    first_error ([] : List (Option T)) = none := rfl

@[simp] theorem first_error_cons_none {T : Type} (l : List (Option T)) :
    first_error (none :: l) = first_error l := rfl

@[simp] theorem first_error_cons_some {T : Type} (e : T) (l : List (Option T)) :
    first_error (some e :: l) = some e := rfl

@[simp] theorem err_of_ok {T α : Type} (a : α) :
    err_of (Except.ok a : Except T α) = none := rfl

@[simp] theorem err_of_error {T α : Type} (e : T) :
    err_of (Except.error e : Except T α) = some e := rfl

theorem err_of_map {T α β : Type} (g : α → β) (c : Except T α) :
    err_of (Except.map g c) = err_of c := by
  cases c <;> rfl

theorem first_error_append_some {T : Type} {l1 l2 : List (Option T)} {e : T}
    (h : first_error l1 = some e) : first_error (l1 ++ l2) = some e := by
  induction l1 with
  | nil => simp at h
  | cons o rest ih =>
    cases o with
    | none => simp only [List.cons_append, first_error_cons_none] at h ⊢; exact ih h
    | some e0 => simp only [List.cons_append, first_error_cons_some] at h ⊢; exact h

theorem first_error_append_none {T : Type} {l1 : List (Option T)} (l2 : List (Option T))
    (h : first_error l1 = none) : first_error (l1 ++ l2) = first_error l2 := by
  induction l1 with
  | nil => simp
  | cons o rest ih =>
    cases o with
    | none => simp only [List.cons_append, first_error_cons_none] at h ⊢; exact ih h
    | some e0 => simp at h

theorem first_error_of_mem {T : Type} {l : List (Option T)} {ε : T}
    (h : some ε ∈ l) : ∃ ε0, first_error l = some ε0 := by
  induction l with
  | nil => simp at h
  | cons o rest ih =>
    cases o with
    | some e0 => exact ⟨e0, rfl⟩
    | none =>
      simp only [List.mem_cons] at h
      rcases h with h | h
      · exact absurd h (by simp)
      · simpa using ih h

/-- A fallible computation is characterised by a recorded outcome
sequence: its error is the sequence's first failure, and it succeeds when
the sequence has none. -/
def ErrSpec {T α : Type} (c : Except T α) (errs : List (Option T)) : Prop :=
  (∀ e, first_error errs = some e → c = Except.error e) ∧
  (first_error errs = none → ∃ a, c = Except.ok a)

theorem err_spec_pure {T α : Type} (a : α) :
    ErrSpec (Except.ok a : Except T α) [] :=
  ⟨fun e he => by simp at he, fun _ => ⟨a, rfl⟩⟩

theorem err_spec_single {T α : Type} (c : Except T α) : ErrSpec c [err_of c] := by
  cases c with
  | ok a => exact ⟨fun e he => by simp at he, fun _ => ⟨a, rfl⟩⟩
  | error e =>
    refine ⟨fun e' he => ?_, fun hn => by simp at hn⟩
    simp at he
    rw [he]

/-- Sequencing: the outcomes of `c >>= k` are `c`'s followed by `k`'s,
when `k`'s recorded outcomes do not depend on `c`'s result (as in every
default walk, where each sub-transformation's input is a component of the
source node). -/
theorem err_spec_bind {T α β : Type} {c : Except T α} {k : α → Except T β}
    {errs1 errs2 : List (Option T)} (h1 : ErrSpec c errs1)
    (h2 : ∀ a, ErrSpec (k a) errs2) : ErrSpec (c >>= k) (errs1 ++ errs2) := by
  constructor
  · intro e he
    cases hf : first_error errs1 with
    | some e1 =>
      rw [first_error_append_some hf] at he
      simp at he
      subst he
      rw [h1.1 e1 hf]
      rfl
    | none =>
      rw [first_error_append_none errs2 hf] at he
      obtain ⟨a, ha⟩ := h1.2 hf
      rw [ha]
      simp only [exc_bind_ok]
      exact (h2 a).1 e he
  · intro hn
    cases hf : first_error errs1 with
    | some e1 => rw [first_error_append_some hf] at hn; exact absurd hn (by simp)
    | none =>
      rw [first_error_append_none errs2 hf] at hn
      obtain ⟨a, ha⟩ := h1.2 hf
      obtain ⟨b, hb⟩ := (h2 a).2 hn
      exact ⟨b, by rw [ha]; simp only [exc_bind_ok]; exact hb⟩

/-- A pure reconstruction step adds no outcome. -/
theorem err_spec_bind_pure {T α β : Type} {c : Except T α} {errs : List (Option T)}
    (h : ErrSpec c errs) (g : α → β) :
    ErrSpec (c >>= fun a => Except.ok (g a)) errs := by
  constructor
  · intro e he
    rw [h.1 e he]
    rfl
  · intro hn
    obtain ⟨a, ha⟩ := h.2 hn
    exact ⟨g a, by rw [ha]; rfl⟩

/-! Recorded outcome sequences of the default walks, per node, in the
source's visit order. -/

/-- Outcomes of an optional expression slot: one sub-transformation when
present, none when absent. -/
def option_expr_err {T : Type} (tr : Transformer T) : Option Expr → List (Option T)
  | none => []
  | some s => [err_of (transform_expr tr s)]

/-- Outcomes of an optional body slot. -/
def option_body_err {T : Type} (tr : Transformer T) : Option Body → List (Option T)
  | none => []
  | some b => [err_of (transform_body tr b)]

/-- Outcomes of an optional pattern slot. -/
def option_pat_err {T : Type} (tr : Transformer T) : Option Pat → List (Option T)
  | none => []
  | some g => [err_of (transform_pat tr g)]

/-- Outcomes of an expression key/value list: key first, then value, pair
by pair. -/
def expr_kv_sub_errors {T : Type} (tr : Transformer T) :
    List (Expr × Expr) → List (Option T)
  | [] => []
  | (k, v) :: kvs =>
    err_of (transform_expr tr k) :: err_of (transform_expr tr v) ::
      expr_kv_sub_errors tr kvs

/-- Outcomes of a guard-test key/value list. -/
def test_kv_sub_errors {T : Type} (tr : Transformer T) :
    List (Test × Test) → List (Option T)
  | [] => []
  | (k, v) :: kvs =>
    err_of (transform_test tr k) :: err_of (transform_test tr v) ::
      test_kv_sub_errors tr kvs

/-- Outcomes of a pattern-map key/value list: the test key first, then the
sub-pattern. -/
def test_pat_kv_sub_errors {T : Type} (tr : Transformer T) :
    List (Test × Pat) → List (Option T)
  | [] => []
  | (k, v) :: kvs =>
    err_of (transform_test tr k) :: err_of (transform_pat tr v) ::
      test_pat_kv_sub_errors tr kvs

/-- Outcomes of a record-update field list: only each field's value is
transformed. -/
def record_update_field_sub_errors {T : Type} (tr : Transformer T) :
    List RecordFieldNamed → List (Option T)
  | [] => []
  | RecordFieldNamed.mk _ value :: fs =>
    err_of (transform_expr tr value) :: record_update_field_sub_errors tr fs

/-- Outcomes of a record-pattern field list: only each field's sub-pattern
is transformed. -/
def pat_record_field_sub_errors {T : Type} (tr : Transformer T) :
    List PatRecordFieldNamed → List (Option T)
  | [] => []
  | PatRecordFieldNamed.mk _ pat :: fs =>
    err_of (transform_pat tr pat) :: pat_record_field_sub_errors tr fs

/-- Outcomes of an external record declaration's field list: each field
contributes its optional default value's outcomes. -/
def external_rec_field_sub_errors {T : Type} (tr : Transformer T) :
    List ExternalRecField → List (Option T)
  | [] => []
  | f :: fs => option_expr_err tr f.default_value ++ external_rec_field_sub_errors tr fs

mutual

/-- Outcomes of the iterative cons walk from a cell `(h, t)`: the head,
then the rest of the chain. -/
def cons_sub_errors {T : Type} (tr : Transformer T) (h t : Expr) : List (Option T) :=
  err_of (transform_expr tr h) :: cons_tail_sub_errors tr t
termination_by 2 * sizeOf t + 1
decreasing_by all_goals simp_wf; all_goals omega

/-- Outcomes of the iterative cons walk's tail step: a nested cons
continues the chain, any other tail is transformed last. -/
def cons_tail_sub_errors {T : Type} (tr : Transformer T) (t : Expr) : List (Option T) :=
  match t with
  | .Cons _ h2 t2 => cons_sub_errors tr h2 t2
  | exp => [err_of (transform_expr tr exp)]
termination_by 2 * sizeOf t
decreasing_by all_goals simp_wf; all_goals omega

end

/-- Outcomes of `walk_qualifier`, per variant. -/
def qualifier_sub_errors {T : Type} (tr : Transformer T) : Qualifier → List (Option T)
  | .LGenerate pat expr => [err_of (transform_pat tr pat), err_of (transform_expr tr expr)]
  | .BGenerate pat expr => [err_of (transform_pat tr pat), err_of (transform_expr tr expr)]
  | .MGenerate k_pat v_pat expr =>
    [err_of (transform_pat tr k_pat), err_of (transform_pat tr v_pat),
      err_of (transform_expr tr expr)]
  | .Filter expr => [err_of (transform_expr tr expr)]

/-- Outcomes of `walk_binary_elem`: the value, then the optional size. -/
def binary_elem_sub_errors {T : Type} (tr : Transformer T) : BinaryElem → List (Option T)
  | .mk _ _ expr size => err_of (transform_expr tr expr) :: option_expr_err tr size

/-- Outcomes of `walk_pat_binary_elem`: the sub-pattern, then the optional
size. -/
def pat_binary_elem_sub_errors {T : Type} (tr : Transformer T) :
    PatBinaryElem → List (Option T)
  | .mk _ _ pat size => err_of (transform_pat tr pat) :: option_expr_err tr size

/-- Outcomes of `walk_record_field`: the field's value. -/
def record_field_sub_errors {T : Type} (tr : Transformer T) : RecordField → List (Option T)
  | .RecordFieldGen value => [err_of (transform_expr tr value)]
  | .RecordFieldNamed _ value => [err_of (transform_expr tr value)]

/-- Outcomes of `walk_test_record_field`: the field's value. -/
def test_record_field_sub_errors {T : Type} (tr : Transformer T) :
    TestRecordField → List (Option T)
  | .TestRecordFieldNamed _ value => [err_of (transform_test tr value)]
  | .TestRecordFieldGen value => [err_of (transform_test tr value)]

/-- Outcomes of `walk_body`: the body's expressions in order. -/
def body_sub_errors {T : Type} (tr : Transformer T) : Body → List (Option T)
  | .mk exprs => exprs.map (fun x => err_of (transform_expr tr x))

/-- Outcomes of `walk_guard`: the guard's tests in order. -/
def guard_sub_errors {T : Type} (tr : Transformer T) (g : Guard) : List (Option T) :=
  g.tests.map (fun t => err_of (transform_test tr t))

/-- Outcomes of `walk_clause`: patterns, then guards, then the body. -/
def clause_sub_errors {T : Type} (tr : Transformer T) : Clause → List (Option T)
  | .mk _ pats guards body =>
    pats.map (fun p => err_of (transform_pat tr p)) ++
      (guards.map (fun g => err_of (transform_guard tr g)) ++
        [err_of (transform_body tr body)])

/-- Outcomes of `walk_expr`: every recursive sub-transformation the walk
invokes, arm for arm, in the source's visit order; leaf variants invoke
none. -/
def expr_sub_errors {T : Type} (tr : Transformer T) : Expr → List (Option T)
  | .Var _ => []
  | .AtomLit _ => []
  | .IntLit _ => []
  | .FloatLit _ => []
  | .Block _ body => [err_of (transform_body tr body)]
  | .Match _ pat expr => [err_of (transform_pat tr pat), err_of (transform_expr tr expr)]
  | .Tuple _ elems => elems.map (fun x => err_of (transform_expr tr x))
  | .StringLit _ => []
  | .NilLit _ => []
  | .Cons _ h t => cons_sub_errors tr h t
  | .Case _ expr clauses =>
    err_of (transform_expr tr expr) :: clauses.map (fun c => err_of (transform_clause tr c))
  | .If _ clauses => clauses.map (fun c => err_of (transform_clause tr c))
  | .LocalCall _ _ args => args.map (fun x => err_of (transform_expr tr x))
  | .DynCall _ f args =>
    err_of (transform_expr tr f) :: args.map (fun x => err_of (transform_expr tr x))
  | .RemoteCall _ _ args => args.map (fun x => err_of (transform_expr tr x))
  | .LocalFun _ => []
  | .RemoteFun _ => []
  | .DynRemoteFun _ module name =>
    [err_of (transform_expr tr module), err_of (transform_expr tr name)]
  | .DynRemoteFunArity _ module name arity =>
    [err_of (transform_expr tr module), err_of (transform_expr tr name),
      err_of (transform_expr tr arity)]
  | .Lambda _ clauses _ => clauses.map (fun c => err_of (transform_clause tr c))
  | .UnOp _ _ arg => [err_of (transform_expr tr arg)]
  | .BinOp _ _ arg_1 arg_2 =>
    [err_of (transform_expr tr arg_1), err_of (transform_expr tr arg_2)]
  | .LComprehension _ template qualifiers =>
    err_of (transform_expr tr template) ::
      qualifiers.map (fun q => err_of (transform_qualifier tr q))
  | .BComprehension _ template qualifiers =>
    err_of (transform_expr tr template) ::
      qualifiers.map (fun q => err_of (transform_qualifier tr q))
  | .MComprehension _ k_template v_template qualifiers =>
    err_of (transform_expr tr k_template) :: err_of (transform_expr tr v_template) ::
      qualifiers.map (fun q => err_of (transform_qualifier tr q))
  | .Binary _ elems => elems.map (fun x => err_of (transform_binary_elem tr x))
  | .Catch _ expr => [err_of (transform_expr tr expr)]
  | .TryCatchExpr _ try_body catch_clauses after_body =>
    err_of (transform_body tr try_body) ::
      (catch_clauses.map (fun c => err_of (transform_clause tr c)) ++
        option_body_err tr after_body)
  | .TryOfCatchExpr _ try_body try_clauses catch_clauses after_body =>
    err_of (transform_body tr try_body) ::
      (try_clauses.map (fun c => err_of (transform_clause tr c)) ++
        (catch_clauses.map (fun c => err_of (transform_clause tr c)) ++
          option_body_err tr after_body))
  | .Receive _ clauses => clauses.map (fun c => err_of (transform_clause tr c))
  | .ReceiveWithTimeout _ clauses timeout timeout_body =>
    clauses.map (fun c => err_of (transform_clause tr c)) ++
      (err_of (transform_expr tr timeout) :: [err_of (transform_body tr timeout_body)])
  | .RecordCreate _ _ fields => fields.map (fun f => err_of (transform_record_field tr f))
  | .RecordUpdate _ _ expr fields =>
    err_of (transform_expr tr expr) :: record_update_field_sub_errors tr fields
  | .RecordSelect _ _ _ expr => [err_of (transform_expr tr expr)]
  | .RecordIndex _ => []
  | .MapCreate _ kvs => expr_kv_sub_errors tr kvs
  | .MapUpdate _ map kvs => err_of (transform_expr tr map) :: expr_kv_sub_errors tr kvs
  | .Maybe _ body => [err_of (transform_body tr body)]
  | .MaybeElse _ body else_clauses =>
    err_of (transform_body tr body) ::
      else_clauses.map (fun c => err_of (transform_clause tr c))
  | .MaybeMatch _ pat arg => [err_of (transform_pat tr pat), err_of (transform_expr tr arg)]

/-- Outcomes of `walk_pat`, arm for arm, in the source's visit order. -/
def pat_sub_errors {T : Type} (tr : Transformer T) : Pat → List (Option T)
  | .PatWild _ => []
  | .PatMatch _ pat arg => [err_of (transform_pat tr pat), err_of (transform_pat tr arg)]
  | .PatTuple _ elems => elems.map (fun p => err_of (transform_pat tr p))
  | .PatString _ => []
  | .PatNil _ => []
  | .PatCons _ h t => [err_of (transform_pat tr h), err_of (transform_pat tr t)]
  | .PatInt _ => []
  | .PatNumber _ => []
  | .PatAtom _ => []
  | .PatVar _ => []
  | .PatRecord _ _ fields gen =>
    pat_record_field_sub_errors tr fields ++ option_pat_err tr gen
  | .PatRecordIndex _ => []
  | .PatUnOp _ _ arg => [err_of (transform_pat tr arg)]
  | .PatBinOp _ _ arg_1 arg_2 =>
    [err_of (transform_pat tr arg_1), err_of (transform_pat tr arg_2)]
  | .PatBinary _ elems => elems.map (fun e => err_of (transform_pat_binary_elem tr e))
  | .PatMap _ kvs => test_pat_kv_sub_errors tr kvs

/-- Outcomes of `walk_test`, arm for arm, in the source's visit order. -/
def test_sub_errors {T : Type} (tr : Transformer T) : Test → List (Option T)
  | .TestVar _ => []
  | .TestAtom _ => []
  | .TestNumber _ => []
  | .TestTuple _ elems => elems.map (fun t => err_of (transform_test tr t))
  | .TestString _ => []
  | .TestNil _ => []
  | .TestCons _ h t => [err_of (transform_test tr h), err_of (transform_test tr t)]
  | .TestCall _ _ args => args.map (fun t => err_of (transform_test tr t))
  | .TestRecordCreate _ _ fields =>
    fields.map (fun f => err_of (transform_test_record_field tr f))
  | .TestRecordSelect _ rcd _ _ => [err_of (transform_test tr rcd)]
  | .TestRecordIndex _ => []
  | .TestMapCreate _ kvs => test_kv_sub_errors tr kvs
  | .TestMapUpdate _ map kvs => err_of (transform_test tr map) :: test_kv_sub_errors tr kvs
  | .TestUnOp _ _ arg => [err_of (transform_test tr arg)]
  | .TestBinOp _ _ arg_1 arg_2 =>
    [err_of (transform_test tr arg_1), err_of (transform_test tr arg_2)]
  | .TestBinaryLit _ => []

/-- Outcomes of `walk_form`: function declarations visit their clauses,
record declarations their field defaults; every other form invokes no
sub-transformation. -/
def form_sub_errors {T : Type} (tr : Transformer T) : ExternalForm → List (Option T)
  | .Module _ => []
  | .CompileExportAll _ => []
  | .Export _ => []
  | .Import _ => []
  | .ExportType _ => []
  | .FunDecl _ _ clauses => clauses.map (fun c => err_of (transform_clause tr c))
  | .File _ => []
  | .ElpMetadata _ => []
  | .Behaviour _ => []
  | .EqwalizerNowarnFunction _ => []
  | .EqwalizerUnlimitedRefinement _ => []
  | .TypingAttribute _ => []
  | .ExternalTypeDecl _ => []
  | .ExternalOpaqueDecl _ => []
  | .ExternalFunSpec _ => []
  | .ExternalCallback _ => []
  | .ExternalOptionalCallbacks _ => []
  | .ExternalRecDecl _ _ _ fields => external_rec_field_sub_errors tr fields

/-- Outcomes of the default `transform_ast` body: the module's forms in
order. -/
def ast_sub_errors {T : Type} (tr : Transformer T) (ast : AST) : List (Option T) :=
  ast.map (fun f => err_of (transform_form tr f))

/-! Characterisation lemmas for the list traversals and optional slots. -/

theorem transform_expr_list_err_spec {T : Type} (tr : Transformer T) (l : List Expr) :
    ErrSpec (transform_expr_list tr l) (l.map (fun x => err_of (transform_expr tr x))) := by
  induction l with
  | nil =>
    rw [transform_expr_list]
    exact err_spec_pure []
  | cons e es ih =>
    rw [transform_expr_list]
    exact err_spec_bind (err_spec_single _) (fun a => err_spec_bind_pure ih _)

theorem transform_pat_list_err_spec {T : Type} (tr : Transformer T) (l : List Pat) :
    ErrSpec (transform_pat_list tr l) (l.map (fun p => err_of (transform_pat tr p))) := by
  induction l with
  | nil =>
    rw [transform_pat_list]
    exact err_spec_pure []
  | cons p ps ih =>
    rw [transform_pat_list]
    exact err_spec_bind (err_spec_single _) (fun a => err_spec_bind_pure ih _)

theorem transform_clause_list_err_spec {T : Type} (tr : Transformer T) (l : List Clause) :
    ErrSpec (transform_clause_list tr l)
      (l.map (fun c => err_of (transform_clause tr c))) := by
  induction l with
  | nil =>
    rw [transform_clause_list]
    exact err_spec_pure []
  | cons c cs ih =>
    rw [transform_clause_list]
    exact err_spec_bind (err_spec_single _) (fun a => err_spec_bind_pure ih _)

theorem transform_qualifier_list_err_spec {T : Type} (tr : Transformer T)
    (l : List Qualifier) :
    ErrSpec (transform_qualifier_list tr l)
      (l.map (fun q => err_of (transform_qualifier tr q))) := by
  induction l with
  | nil =>
    rw [transform_qualifier_list]
    exact err_spec_pure []
  | cons q qs ih =>
    rw [transform_qualifier_list]
    exact err_spec_bind (err_spec_single _) (fun a => err_spec_bind_pure ih _)

theorem transform_binary_elem_list_err_spec {T : Type} (tr : Transformer T)
    (l : List BinaryElem) :
    ErrSpec (transform_binary_elem_list tr l)
      (l.map (fun x => err_of (transform_binary_elem tr x))) := by
  induction l with
  | nil =>
    rw [transform_binary_elem_list]
    exact err_spec_pure []
  | cons e es ih =>
    rw [transform_binary_elem_list]
    exact err_spec_bind (err_spec_single _) (fun a => err_spec_bind_pure ih _)

theorem transform_pat_binary_elem_list_err_spec {T : Type} (tr : Transformer T)
    (l : List PatBinaryElem) :
    ErrSpec (transform_pat_binary_elem_list tr l)
      (l.map (fun x => err_of (transform_pat_binary_elem tr x))) := by
  induction l with
  | nil =>
    rw [transform_pat_binary_elem_list]
    exact err_spec_pure []
  | cons e es ih =>
    rw [transform_pat_binary_elem_list]
    exact err_spec_bind (err_spec_single _) (fun a => err_spec_bind_pure ih _)

theorem transform_record_field_list_err_spec {T : Type} (tr : Transformer T)
    (l : List RecordField) :
    ErrSpec (transform_record_field_list tr l)
      (l.map (fun f => err_of (transform_record_field tr f))) := by
  induction l with
  | nil =>
    rw [transform_record_field_list]
    exact err_spec_pure []
  | cons f fs ih =>
    rw [transform_record_field_list]
    exact err_spec_bind (err_spec_single _) (fun a => err_spec_bind_pure ih _)

theorem transform_test_list_err_spec {T : Type} (tr : Transformer T) (l : List Test) :
    ErrSpec (transform_test_list tr l) (l.map (fun t => err_of (transform_test tr t))) := by
  induction l with
  | nil =>
    rw [transform_test_list]
    exact err_spec_pure []
  | cons t ts ih =>
    rw [transform_test_list]
    exact err_spec_bind (err_spec_single _) (fun a => err_spec_bind_pure ih _)

theorem transform_test_record_field_list_err_spec {T : Type} (tr : Transformer T)
    (l : List TestRecordField) :
    ErrSpec (transform_test_record_field_list tr l)
      (l.map (fun f => err_of (transform_test_record_field tr f))) := by
  induction l with
  | nil =>
    rw [transform_test_record_field_list]
    exact err_spec_pure []
  | cons f fs ih =>
    rw [transform_test_record_field_list]
    exact err_spec_bind (err_spec_single _) (fun a => err_spec_bind_pure ih _)

theorem transform_guard_list_err_spec {T : Type} (tr : Transformer T) (l : List Guard) :
    ErrSpec (transform_guard_list tr l)
      (l.map (fun g => err_of (transform_guard tr g))) := by
  induction l with
  | nil =>
    rw [transform_guard_list]
    exact err_spec_pure []
  | cons g gs ih =>
    rw [transform_guard_list]
    exact err_spec_bind (err_spec_single _) (fun a => err_spec_bind_pure ih _)

theorem transform_form_list_err_spec {T : Type} (tr : Transformer T)
    (l : List ExternalForm) :
    ErrSpec (transform_form_list tr l)
      (l.map (fun f => err_of (transform_form tr f))) := by
  induction l with
  | nil =>
    rw [transform_form_list]
    exact err_spec_pure []
  | cons f fs ih =>
    rw [transform_form_list]
    exact err_spec_bind (err_spec_single _) (fun a => err_spec_bind_pure ih _)

theorem transform_expr_kv_list_err_spec {T : Type} (tr : Transformer T)
    (l : List (Expr × Expr)) :
    ErrSpec (transform_expr_kv_list tr l) (expr_kv_sub_errors tr l) := by
  induction l with
  | nil =>
    rw [transform_expr_kv_list, expr_kv_sub_errors]
    exact err_spec_pure []
  | cons kv kvs ih =>
    obtain ⟨k, v⟩ := kv
    rw [transform_expr_kv_list, expr_kv_sub_errors]
    exact err_spec_bind (err_spec_single _)
      (fun a => err_spec_bind (err_spec_single _) (fun b => err_spec_bind_pure ih _))

theorem transform_test_kv_list_err_spec {T : Type} (tr : Transformer T)
    (l : List (Test × Test)) :
    ErrSpec (transform_test_kv_list tr l) (test_kv_sub_errors tr l) := by
  induction l with
  | nil =>
    rw [transform_test_kv_list, test_kv_sub_errors]
    exact err_spec_pure []
  | cons kv kvs ih =>
    obtain ⟨k, v⟩ := kv
    rw [transform_test_kv_list, test_kv_sub_errors]
    exact err_spec_bind (err_spec_single _)
      (fun a => err_spec_bind (err_spec_single _) (fun b => err_spec_bind_pure ih _))

theorem transform_test_pat_kv_list_err_spec {T : Type} (tr : Transformer T)
    (l : List (Test × Pat)) :
    ErrSpec (transform_test_pat_kv_list tr l) (test_pat_kv_sub_errors tr l) := by
  induction l with
  | nil =>
    rw [transform_test_pat_kv_list, test_pat_kv_sub_errors]
    exact err_spec_pure []
  | cons kv kvs ih =>
    obtain ⟨k, v⟩ := kv
    rw [transform_test_pat_kv_list, test_pat_kv_sub_errors]
    exact err_spec_bind (err_spec_single _)
      (fun a => err_spec_bind (err_spec_single _) (fun b => err_spec_bind_pure ih _))

theorem transform_record_update_field_list_err_spec {T : Type} (tr : Transformer T)
    (l : List RecordFieldNamed) :
    ErrSpec (transform_record_update_field_list tr l)
      (record_update_field_sub_errors tr l) := by
  induction l with
  | nil =>
    rw [transform_record_update_field_list, record_update_field_sub_errors]
    exact err_spec_pure []
  | cons f fs ih =>
    obtain ⟨name, value⟩ := f
    rw [transform_record_update_field_list, record_update_field_sub_errors]
    exact err_spec_bind (err_spec_single _) (fun a => err_spec_bind_pure ih _)

theorem transform_pat_record_field_list_err_spec {T : Type} (tr : Transformer T)
    (l : List PatRecordFieldNamed) :
    ErrSpec (transform_pat_record_field_list tr l)
      (pat_record_field_sub_errors tr l) := by
  induction l with
  | nil =>
    rw [transform_pat_record_field_list, pat_record_field_sub_errors]
    exact err_spec_pure []
  | cons f fs ih =>
    obtain ⟨name, pat⟩ := f
    rw [transform_pat_record_field_list, pat_record_field_sub_errors]
    exact err_spec_bind (err_spec_single _) (fun a => err_spec_bind_pure ih _)

theorem transform_option_expr_err_spec {T : Type} (tr : Transformer T) (o : Option Expr) :
    ErrSpec (transform_option_expr tr o) (option_expr_err tr o) := by
  cases o with
  | none =>
    rw [transform_option_expr, option_expr_err]
    exact err_spec_pure none
  | some s =>
    rw [transform_option_expr, option_expr_err]
    rw [← err_of_map some (transform_expr tr s)]
    exact err_spec_single _

theorem transform_option_body_err_spec {T : Type} (tr : Transformer T) (o : Option Body) :
    ErrSpec (transform_option_body tr o) (option_body_err tr o) := by
  cases o with
  | none =>
    rw [transform_option_body, option_body_err]
    exact err_spec_pure none
  | some b =>
    rw [transform_option_body, option_body_err]
    rw [← err_of_map some (transform_body tr b)]
    exact err_spec_single _

theorem transform_option_pat_err_spec {T : Type} (tr : Transformer T) (o : Option Pat) :
    ErrSpec (transform_option_pat tr o) (option_pat_err tr o) := by
  cases o with
  | none =>
    rw [transform_option_pat, option_pat_err]
    exact err_spec_pure none
  | some g =>
    rw [transform_option_pat, option_pat_err]
    rw [← err_of_map some (transform_pat tr g)]
    exact err_spec_single _

theorem transform_external_rec_field_list_err_spec {T : Type} (tr : Transformer T)
    (l : List ExternalRecField) :
    ErrSpec (transform_external_rec_field_list tr l)
      (external_rec_field_sub_errors tr l) := by
  induction l with
  | nil =>
    rw [transform_external_rec_field_list, external_rec_field_sub_errors]
    exact err_spec_pure []
  | cons f fs ih =>
    rw [transform_external_rec_field_list, external_rec_field_sub_errors]
    exact err_spec_bind (transform_option_expr_err_spec tr f.default_value)
      (fun a => err_spec_bind_pure ih _)

/-! Characterisation of every default walk by its recorded outcome
sequence: each walk's error is the first failure among the recursive
sub-transformations it invokes, in visit order, and it succeeds exactly
when none of them fails. -/

mutual

theorem walk_cons_go_err_spec {T : Type} (tr : Transformer T) (acc : List (Loc × Expr))
    (location : Loc) (h t : Expr) :
    ErrSpec (walk_cons_go tr acc location h t) (cons_sub_errors tr h t) := by
  rw [walk_cons_go, cons_sub_errors]
  exact err_spec_bind (err_spec_single _)
    (fun a => walk_cons_tail_err_spec tr (acc ++ [(location, a)]) t)
termination_by 2 * sizeOf t + 1
decreasing_by all_goals simp_wf; all_goals omega

theorem walk_cons_tail_err_spec {T : Type} (tr : Transformer T)
    (elems : List (Loc × Expr)) (t : Expr) :
    ErrSpec (walk_cons_tail tr elems t) (cons_tail_sub_errors tr t) := by
  by_cases hc : ∃ l2 h2 t2, t = Expr.Cons l2 h2 t2
  · obtain ⟨l2, h2, t2, he⟩ := hc
    rw [he, walk_cons_tail.eq_1, cons_tail_sub_errors.eq_1]
    exact walk_cons_go_err_spec tr elems l2 h2 t2
  · have hnc : ∀ (l2 : Loc) (h2 t2 : Expr), t = Expr.Cons l2 h2 t2 → False :=
      fun l2 h2 t2 hq => hc ⟨l2, h2, t2, hq⟩
    rw [walk_cons_tail.eq_2 _ _ _ hnc, cons_tail_sub_errors.eq_2 _ _ hnc]
    exact err_spec_bind_pure (err_spec_single _) _
termination_by 2 * sizeOf t
decreasing_by
  all_goals simp_wf
  all_goals try subst he
  all_goals try simp_arith
  all_goals try omega

end

theorem walk_body_err_spec {T : Type} (tr : Transformer T) (b : Body) :
    ErrSpec (walk_body tr b) (body_sub_errors tr b) := by
  cases b with
  | mk exprs =>
    rw [walk_body, body_sub_errors]
    exact err_spec_bind_pure (transform_expr_list_err_spec tr exprs) _

theorem walk_guard_err_spec {T : Type} (tr : Transformer T) (g : Guard) :
    ErrSpec (walk_guard tr g) (guard_sub_errors tr g) := by
  obtain ⟨tests⟩ := g
  rw [walk_guard, guard_sub_errors]
  exact err_spec_bind_pure (transform_test_list_err_spec tr tests) _

theorem walk_clause_err_spec {T : Type} (tr : Transformer T) (c : Clause) :
    ErrSpec (walk_clause tr c) (clause_sub_errors tr c) := by
  cases c with
  | mk location pats guards body =>
    rw [walk_clause, clause_sub_errors]
    exact err_spec_bind (transform_pat_list_err_spec tr pats)
      (fun a => err_spec_bind (transform_guard_list_err_spec tr guards)
        (fun b => err_spec_bind_pure (err_spec_single _) _))

theorem walk_qualifier_err_spec {T : Type} (tr : Transformer T) (q : Qualifier) :
    ErrSpec (walk_qualifier tr q) (qualifier_sub_errors tr q) := by
  cases q with
  | LGenerate pat expr =>
    rw [walk_qualifier, qualifier_sub_errors]
    exact err_spec_bind (err_spec_single _)
      (fun a => err_spec_bind_pure (err_spec_single _) _)
  | BGenerate pat expr =>
    rw [walk_qualifier, qualifier_sub_errors]
    exact err_spec_bind (err_spec_single _)
      (fun a => err_spec_bind_pure (err_spec_single _) _)
  | MGenerate k_pat v_pat expr =>
    rw [walk_qualifier, qualifier_sub_errors]
    exact err_spec_bind (err_spec_single _)
      (fun a => err_spec_bind (err_spec_single _)
        (fun b => err_spec_bind_pure (err_spec_single _) _))
  | Filter expr =>
    rw [walk_qualifier, qualifier_sub_errors]
    exact err_spec_bind_pure (err_spec_single _) _

theorem walk_binary_elem_err_spec {T : Type} (tr : Transformer T) (elem : BinaryElem) :
    ErrSpec (walk_binary_elem tr elem) (binary_elem_sub_errors tr elem) := by
  cases elem with
  | mk location specifier expr size =>
    rw [walk_binary_elem, binary_elem_sub_errors]
    exact err_spec_bind (err_spec_single _)
      (fun a => err_spec_bind_pure (transform_option_expr_err_spec tr size) _)

theorem walk_pat_binary_elem_err_spec {T : Type} (tr : Transformer T)
    (elem : PatBinaryElem) :
    ErrSpec (walk_pat_binary_elem tr elem) (pat_binary_elem_sub_errors tr elem) := by
  cases elem with
  | mk location specifier pat size =>
    rw [walk_pat_binary_elem, pat_binary_elem_sub_errors]
    exact err_spec_bind (err_spec_single _)
      (fun a => err_spec_bind_pure (transform_option_expr_err_spec tr size) _)

theorem walk_record_field_err_spec {T : Type} (tr : Transformer T) (field : RecordField) :
    ErrSpec (walk_record_field tr field) (record_field_sub_errors tr field) := by
  cases field with
  | RecordFieldGen value =>
    rw [walk_record_field, record_field_sub_errors]
    exact err_spec_bind_pure (err_spec_single _) _
  | RecordFieldNamed name value =>
    rw [walk_record_field, record_field_sub_errors]
    exact err_spec_bind_pure (err_spec_single _) _

theorem walk_test_record_field_err_spec {T : Type} (tr : Transformer T)
    (f : TestRecordField) :
    ErrSpec (walk_test_record_field tr f) (test_record_field_sub_errors tr f) := by
  cases f with
  | TestRecordFieldNamed name value =>
    rw [walk_test_record_field, test_record_field_sub_errors]
    exact err_spec_bind_pure (err_spec_single _) _
  | TestRecordFieldGen value =>
    rw [walk_test_record_field, test_record_field_sub_errors]
    exact err_spec_bind_pure (err_spec_single _) _

theorem walk_expr_err_spec {T : Type} (tr : Transformer T) (e : Expr) :
    ErrSpec (walk_expr tr e) (expr_sub_errors tr e) := by
  cases e with
  | Var v =>
    rw [walk_expr, expr_sub_errors]
    exact err_spec_pure _
  | AtomLit a =>
    rw [walk_expr, expr_sub_errors]
    exact err_spec_pure _
  | IntLit i =>
    rw [walk_expr, expr_sub_errors]
    exact err_spec_pure _
  | FloatLit f =>
    rw [walk_expr, expr_sub_errors]
    exact err_spec_pure _
  | Block location body =>
    rw [walk_expr, expr_sub_errors]
    exact err_spec_bind_pure (err_spec_single _) _
  | Match location pat expr =>
    rw [walk_expr, expr_sub_errors]
    exact err_spec_bind (err_spec_single _)
      (fun a => err_spec_bind_pure (err_spec_single _) _)
  | Tuple location elems =>
    rw [walk_expr, expr_sub_errors]
    exact err_spec_bind_pure (transform_expr_list_err_spec tr elems) _
  | StringLit s =>
    rw [walk_expr, expr_sub_errors]
    exact err_spec_pure _
  | NilLit nl =>
    rw [walk_expr, expr_sub_errors]
    exact err_spec_pure _
  | Cons location hd tl =>
    rw [walk_expr, expr_sub_errors]
    exact walk_cons_go_err_spec tr [] location hd tl
  | Case location expr clauses =>
    rw [walk_expr, expr_sub_errors]
    exact err_spec_bind (err_spec_single _)
      (fun a => err_spec_bind_pure (transform_clause_list_err_spec tr clauses) _)
  | If location clauses =>
    rw [walk_expr, expr_sub_errors]
    exact err_spec_bind_pure (transform_clause_list_err_spec tr clauses) _
  | LocalCall location id args =>
    rw [walk_expr, expr_sub_errors]
    exact err_spec_bind_pure (transform_expr_list_err_spec tr args) _
  | DynCall location f args =>
    rw [walk_expr, expr_sub_errors]
    exact err_spec_bind (err_spec_single _)
      (fun a => err_spec_bind_pure (transform_expr_list_err_spec tr args) _)
  | RemoteCall location id args =>
    rw [walk_expr, expr_sub_errors]
    exact err_spec_bind_pure (transform_expr_list_err_spec tr args) _
  | LocalFun f =>
    rw [walk_expr, expr_sub_errors]
    exact err_spec_pure _
  | RemoteFun f =>
    rw [walk_expr, expr_sub_errors]
    exact err_spec_pure _
  | DynRemoteFun location module name =>
    rw [walk_expr, expr_sub_errors]
    exact err_spec_bind (err_spec_single _)
      (fun a => err_spec_bind_pure (err_spec_single _) _)
  | DynRemoteFunArity location module name arity =>
    rw [walk_expr, expr_sub_errors]
    exact err_spec_bind (err_spec_single _)
      (fun a => err_spec_bind (err_spec_single _)
        (fun b => err_spec_bind_pure (err_spec_single _) _))
  | Lambda location clauses name =>
    rw [walk_expr, expr_sub_errors]
    exact err_spec_bind_pure (transform_clause_list_err_spec tr clauses) _
  | UnOp location op arg =>
    rw [walk_expr, expr_sub_errors]
    exact err_spec_bind_pure (err_spec_single _) _
  | BinOp location op arg_1 arg_2 =>
    rw [walk_expr, expr_sub_errors]
    exact err_spec_bind (err_spec_single _)
      (fun a => err_spec_bind_pure (err_spec_single _) _)
  | LComprehension location template qualifiers =>
    rw [walk_expr, expr_sub_errors]
    exact err_spec_bind (err_spec_single _)
      (fun a => err_spec_bind_pure (transform_qualifier_list_err_spec tr qualifiers) _)
  | BComprehension location template qualifiers =>
    rw [walk_expr, expr_sub_errors]
    exact err_spec_bind (err_spec_single _)
      (fun a => err_spec_bind_pure (transform_qualifier_list_err_spec tr qualifiers) _)
  | MComprehension location k_template v_template qualifiers =>
    rw [walk_expr, expr_sub_errors]
    exact err_spec_bind (err_spec_single _)
      (fun a => err_spec_bind (err_spec_single _)
        (fun b => err_spec_bind_pure (transform_qualifier_list_err_spec tr qualifiers) _))
  | Binary location elems =>
    rw [walk_expr, expr_sub_errors]
    exact err_spec_bind_pure (transform_binary_elem_list_err_spec tr elems) _
  | Catch location expr =>
    rw [walk_expr, expr_sub_errors]
    exact err_spec_bind_pure (err_spec_single _) _
  | TryCatchExpr location try_body catch_clauses after_body =>
    rw [walk_expr, expr_sub_errors]
    exact err_spec_bind (err_spec_single _)
      (fun a => err_spec_bind (transform_clause_list_err_spec tr catch_clauses)
        (fun b => err_spec_bind_pure (transform_option_body_err_spec tr after_body) _))
  | TryOfCatchExpr location try_body try_clauses catch_clauses after_body =>
    rw [walk_expr, expr_sub_errors]
    exact err_spec_bind (err_spec_single _)
      (fun a => err_spec_bind (transform_clause_list_err_spec tr try_clauses)
        (fun b => err_spec_bind (transform_clause_list_err_spec tr catch_clauses)
          (fun c2 => err_spec_bind_pure (transform_option_body_err_spec tr after_body) _)))
  | Receive location clauses =>
    rw [walk_expr, expr_sub_errors]
    exact err_spec_bind_pure (transform_clause_list_err_spec tr clauses) _
  | ReceiveWithTimeout location clauses timeout timeout_body =>
    rw [walk_expr, expr_sub_errors]
    exact err_spec_bind (transform_clause_list_err_spec tr clauses)
      (fun a => err_spec_bind (err_spec_single _)
        (fun b => err_spec_bind_pure (err_spec_single _) _))
  | RecordCreate location rec_name fields =>
    rw [walk_expr, expr_sub_errors]
    exact err_spec_bind_pure (transform_record_field_list_err_spec tr fields) _
  | RecordUpdate location rec_name expr fields =>
    rw [walk_expr, expr_sub_errors]
    exact err_spec_bind (err_spec_single _)
      (fun a => err_spec_bind_pure (transform_record_update_field_list_err_spec tr fields) _)
  | RecordSelect location rec_name field_name expr =>
    rw [walk_expr, expr_sub_errors]
    exact err_spec_bind_pure (err_spec_single _) _
  | RecordIndex r =>
    rw [walk_expr, expr_sub_errors]
    exact err_spec_pure _
  | MapCreate location kvs =>
    rw [walk_expr, expr_sub_errors]
    exact err_spec_bind_pure (transform_expr_kv_list_err_spec tr kvs) _
  | MapUpdate location map kvs =>
    rw [walk_expr, expr_sub_errors]
    exact err_spec_bind (err_spec_single _)
      (fun a => err_spec_bind_pure (transform_expr_kv_list_err_spec tr kvs) _)
  | Maybe location body =>
    rw [walk_expr, expr_sub_errors]
    exact err_spec_bind_pure (err_spec_single _) _
  | MaybeElse location body else_clauses =>
    rw [walk_expr, expr_sub_errors]
    exact err_spec_bind (err_spec_single _)
      (fun a => err_spec_bind_pure (transform_clause_list_err_spec tr else_clauses) _)
  | MaybeMatch location pat arg =>
    rw [walk_expr, expr_sub_errors]
    exact err_spec_bind (err_spec_single _)
      (fun a => err_spec_bind_pure (err_spec_single _) _)

theorem walk_pat_err_spec {T : Type} (tr : Transformer T) (p : Pat) :
    ErrSpec (walk_pat tr p) (pat_sub_errors tr p) := by
  cases p with
  | PatWild q =>
    rw [walk_pat, pat_sub_errors]
    exact err_spec_pure _
  | PatMatch location pat arg =>
    rw [walk_pat, pat_sub_errors]
    exact err_spec_bind (err_spec_single _)
      (fun a => err_spec_bind_pure (err_spec_single _) _)
  | PatTuple location elems =>
    rw [walk_pat, pat_sub_errors]
    exact err_spec_bind_pure (transform_pat_list_err_spec tr elems) _
  | PatString s =>
    rw [walk_pat, pat_sub_errors]
    exact err_spec_pure _
  | PatNil nl =>
    rw [walk_pat, pat_sub_errors]
    exact err_spec_pure _
  | PatCons location hd tl =>
    rw [walk_pat, pat_sub_errors]
    exact err_spec_bind (err_spec_single _)
      (fun a => err_spec_bind_pure (err_spec_single _) _)
  | PatInt i =>
    rw [walk_pat, pat_sub_errors]
    exact err_spec_pure _
  | PatNumber nl =>
    rw [walk_pat, pat_sub_errors]
    exact err_spec_pure _
  | PatAtom a =>
    rw [walk_pat, pat_sub_errors]
    exact err_spec_pure _
  | PatVar v =>
    rw [walk_pat, pat_sub_errors]
    exact err_spec_pure _
  | PatRecord location rec_name fields gen =>
    rw [walk_pat, pat_sub_errors]
    exact err_spec_bind (transform_pat_record_field_list_err_spec tr fields)
      (fun a => err_spec_bind_pure (transform_option_pat_err_spec tr gen) _)
  | PatRecordIndex r =>
    rw [walk_pat, pat_sub_errors]
    exact err_spec_pure _
  | PatUnOp location op arg =>
    rw [walk_pat, pat_sub_errors]
    exact err_spec_bind_pure (err_spec_single _) _
  | PatBinOp location op arg_1 arg_2 =>
    rw [walk_pat, pat_sub_errors]
    exact err_spec_bind (err_spec_single _)
      (fun a => err_spec_bind_pure (err_spec_single _) _)
  | PatBinary location elems =>
    rw [walk_pat, pat_sub_errors]
    exact err_spec_bind_pure (transform_pat_binary_elem_list_err_spec tr elems) _
  | PatMap location kvs =>
    rw [walk_pat, pat_sub_errors]
    exact err_spec_bind_pure (transform_test_pat_kv_list_err_spec tr kvs) _

theorem walk_test_err_spec {T : Type} (tr : Transformer T) (t : Test) :
    ErrSpec (walk_test tr t) (test_sub_errors tr t) := by
  cases t with
  | TestVar v =>
    rw [walk_test, test_sub_errors]
    exact err_spec_pure _
  | TestAtom a =>
    rw [walk_test, test_sub_errors]
    exact err_spec_pure _
  | TestNumber num =>
    rw [walk_test, test_sub_errors]
    exact err_spec_pure _
  | TestTuple location elems =>
    rw [walk_test, test_sub_errors]
    exact err_spec_bind_pure (transform_test_list_err_spec tr elems) _
  | TestString s =>
    rw [walk_test, test_sub_errors]
    exact err_spec_pure _
  | TestNil num =>
    rw [walk_test, test_sub_errors]
    exact err_spec_pure _
  | TestCons location th tt =>
    rw [walk_test, test_sub_errors]
    exact err_spec_bind (err_spec_single _)
      (fun a => err_spec_bind_pure (err_spec_single _) _)
  | TestCall location id args =>
    rw [walk_test, test_sub_errors]
    exact err_spec_bind_pure (transform_test_list_err_spec tr args) _
  | TestRecordCreate location rec_name fields =>
    rw [walk_test, test_sub_errors]
    exact err_spec_bind_pure (transform_test_record_field_list_err_spec tr fields) _
  | TestRecordSelect location rcd rec_name field_name =>
    rw [walk_test, test_sub_errors]
    exact err_spec_bind_pure (err_spec_single _) _
  | TestRecordIndex r =>
    rw [walk_test, test_sub_errors]
    exact err_spec_pure _
  | TestMapCreate location kvs =>
    rw [walk_test, test_sub_errors]
    exact err_spec_bind_pure (transform_test_kv_list_err_spec tr kvs) _
  | TestMapUpdate location map kvs =>
    rw [walk_test, test_sub_errors]
    exact err_spec_bind (err_spec_single _)
      (fun a => err_spec_bind_pure (transform_test_kv_list_err_spec tr kvs) _)
  | TestUnOp location op arg =>
    rw [walk_test, test_sub_errors]
    exact err_spec_bind_pure (err_spec_single _) _
  | TestBinOp location op arg_1 arg_2 =>
    rw [walk_test, test_sub_errors]
    exact err_spec_bind (err_spec_single _)
      (fun a => err_spec_bind_pure (err_spec_single _) _)
  | TestBinaryLit b =>
    rw [walk_test, test_sub_errors]
    exact err_spec_pure _

theorem walk_form_err_spec {T : Type} (tr : Transformer T) (form : ExternalForm) :
    ErrSpec (walk_form tr form) (form_sub_errors tr form) := by
  cases form with
  | FunDecl location id clauses =>
    rw [walk_form, form_sub_errors]
    exact err_spec_bind_pure (transform_clause_list_err_spec tr clauses) _
  | ExternalRecDecl location name file fields =>
    rw [walk_form, form_sub_errors]
    exact err_spec_bind_pure (transform_external_rec_field_list_err_spec tr fields) _
  | Module m =>
    rw [walk_form, form_sub_errors]
    exact err_spec_pure _
  | CompileExportAll c =>
    rw [walk_form, form_sub_errors]
    exact err_spec_pure _
  | Export e =>
    rw [walk_form, form_sub_errors]
    exact err_spec_pure _
  | Import i =>
    rw [walk_form, form_sub_errors]
    exact err_spec_pure _
  | ExportType e =>
    rw [walk_form, form_sub_errors]
    exact err_spec_pure _
  | File f =>
    rw [walk_form, form_sub_errors]
    exact err_spec_pure _
  | ElpMetadata m =>
    rw [walk_form, form_sub_errors]
    exact err_spec_pure _
  | Behaviour b =>
    rw [walk_form, form_sub_errors]
    exact err_spec_pure _
  | EqwalizerNowarnFunction e =>
    rw [walk_form, form_sub_errors]
    exact err_spec_pure _
  | EqwalizerUnlimitedRefinement e =>
    rw [walk_form, form_sub_errors]
    exact err_spec_pure _
  | TypingAttribute t =>
    rw [walk_form, form_sub_errors]
    exact err_spec_pure _
  | ExternalTypeDecl d =>
    rw [walk_form, form_sub_errors]
    exact err_spec_pure _
  | ExternalOpaqueDecl d =>
    rw [walk_form, form_sub_errors]
    exact err_spec_pure _
  | ExternalFunSpec s =>
    rw [walk_form, form_sub_errors]
    exact err_spec_pure _
  | ExternalCallback c =>
    rw [walk_form, form_sub_errors]
    exact err_spec_pure _
  | ExternalOptionalCallbacks c =>
    rw [walk_form, form_sub_errors]
    exact err_spec_pure _

end Eqwalizer

/-- A byte-offset text range as produced by the rowan / text-size layer
(`text_edit::TextRange`): a start offset and a byte length. -/
structure TextRange where
  start : Nat
  len : Nat
deriving DecidableEq, Repr

namespace Glean

/-- The glean fact schema's source span (`Location` in `glean.rs`): a
start offset and a length. -/
structure Location where
  start : Nat
  length : Nat
deriving DecidableEq, Repr

/-- `impl From<TextRange> for Location` in `glean.rs`: the start is the
range's start offset; the length is the range's byte length, decremented
by one when positive (the guard prevents an unsigned underflow), to align
with the eqwalizer indexer. -/
def location_from_range (range : TextRange) : Location :=
  { start := range.start,
    length := if range.len > 0 then range.len - 1 else range.len }

end Glean

namespace Analyses

/-- Project identifier (`ProjectId`). -/
abbrev ProjectId := Nat

/-- Module name (`ModuleName`). -/
abbrev ModuleName := String

/-- An eqwalizer analysis diagnostic (`EqwalizerDiagnostic`); its fields
are irrelevant to the cache contract. -/
structure EqwalizerDiagnostic where
  message : String
deriving DecidableEq, Repr

/-- Modelled from the spec: the database handle of the analyses layer.
The body of the `escape_hatches` pass
(`crates/eqwalizer/src/analyses/escape_hatches.rs`) is not under `src/`;
per §4.3 an observation-only pass inspects the module's AST through the
database and appends zero or more diagnostics, and nothing else is
observable.  We therefore model the database as carrying, for each
(project, module) key, the finite list of findings the escape-hatches
pass would append. -/
structure EqwalizerAnalysesDatabase where
  escape_hatch_findings : ProjectId → ModuleName → List EqwalizerDiagnostic

/-- Modelled from the spec: `escape_hatches(db, &mut diagnostics,
project_id, module)` appends the pass's findings for the key to the
caller-supplied diagnostic sequence (§4.3: "append zero or more
Diagnostics; ... Side effect: diagnostics are appended, nothing else is
observable"). -/
def escape_hatches (db : EqwalizerAnalysesDatabase)
    (diagnostics : List EqwalizerDiagnostic) (project_id : ProjectId)
    (module : ModuleName) : List EqwalizerDiagnostic :=
  diagnostics ++ db.escape_hatch_findings project_id module

/-- `compute_eqwalizer_stats` from `analyses/mod.rs`: start from an empty
vector, run the escape-hatches pass over it, and wrap the result in a
shared read-only handle (`Arc::new`; the reference-counted handle is
modelled as the list value itself).  The function's type is total: it
returns a diagnostic sequence for every key and has no error outcome. -/
def compute_eqwalizer_stats (db : EqwalizerAnalysesDatabase)
    (project_id : ProjectId) (module : ModuleName) : List EqwalizerDiagnostic :=
  escape_hatches db [] project_id module

end Analyses

namespace UndefinedFunction

/-- Diagnostic severity (`Severity` in the ide diagnostics layer). -/
inductive Severity where
  | Error
  | Warning
  | Information
  | Hint
deriving DecidableEq, Repr

/-- The diagnostic code of this pass (`DiagnosticCode::UndefinedFunction`). -/
inductive DiagnosticCode where
  | UndefinedFunction
deriving DecidableEq, Repr

/-- An ide diagnostic at the boundary (§6): code, message, severity, and
the source span it points at. -/
structure Diagnostic where
  code : DiagnosticCode
  message : String
  severity : Severity
  range : TextRange
deriving DecidableEq, Repr

/-- A call target as classified by the HIR layer (`hir::CallTarget`):
fully qualified remote calls carry the target module and function name;
local calls only the name. -/
inductive CallTarget where
  | Remote (module : String) (name : String)
  | Local (name : String)
deriving DecidableEq, Repr

/-- One call site inside a function body: its target, the number of
arguments at the site, and its source span. -/
structure CallSite where
  target : CallTarget
  arity : Nat
  range : TextRange
deriving DecidableEq, Repr

/-- Modelled from the spec: a function definition (`hir::FunctionDef`) as
seen by `find_call_in_function` (not under `src/`): the ordered list of
call sites occurring in its body. -/
structure FunctionDef where
  calls : List CallSite
deriving DecidableEq, Repr

/-- Modelled from the spec: the semantic database (`hir::Semantic`, not
under `src/`), reduced to what `check_function` consults:
`target.resolve_call(arity, ..)` — whether `module:name/arity` has a
known definition. -/
structure Semantic where
  resolves : String → String → Nat → Bool

/-- `target.label(arity, ..)`: the `module:name/arity` rendering of a
remote reference. -/
def label (module : String) (name : String) (arity : Nat) : String :=
  module ++ ":" ++ name ++ "/" ++ toString arity

/-- `make_diagnostic` from `undefined_function.rs`: an undefined-function
warning whose location span is exactly the range passed in. -/
def make_diagnostic (range : TextRange) (function_name : String) : Diagnostic :=
  { code := DiagnosticCode.UndefinedFunction,
    message := "Function " ++ function_name ++ " is undefined.",
    severity := Severity.Warning,
    range := range }

/-- The per-call check closure of `check_function`: remote targets that do
not resolve yield a diagnostic located at the call's span; resolving
remote targets and all local targets (already covered by the Erlang
linter's L1227) yield nothing. -/
def check_call (sema : Semantic) (c : CallSite) : Option Diagnostic :=
  match c.target with
  | CallTarget.Remote module name =>
    if sema.resolves module name c.arity then none
    else some (make_diagnostic c.range (label module name c.arity))
  | CallTarget.Local _ => none

/-- `check_function`: run the check over every call site of the function
in source order (`find_call_in_function`, modelled from the spec as the
ordered traversal of the function's call sites), appending the produced
diagnostics to the caller-supplied sequence. -/
def check_function (diags : List Diagnostic) (sema : Semantic)
    (fdef : FunctionDef) : List Diagnostic :=
  diags ++ fdef.calls.filterMap (check_call sema)

/-- `undefined_function`: run `check_function` over every function of the
module. -/
def undefined_function (diagnostics : List Diagnostic) (sema : Semantic)
    (fns : List FunctionDef) : List Diagnostic :=
  fns.foldl (fun acc d => check_function acc sema d) diagnostics

end UndefinedFunction

namespace Eqwalizer

/-- C1: Identity law: running the transformation with a `Transformer` whose
every method is the default (no overrides) returns `Ok` of a tree
structurally equal to the input — for whole ASTs and for every node of
every syntactic category the trait walks. -/
theorem C1_identity_law (T : Type) :
    (∀ ast : AST, transform_ast (default_transformer T) ast = Except.ok ast) ∧
    (∀ form : ExternalForm, transform_form (default_transformer T) form = Except.ok form) ∧
    (∀ e : Expr, transform_expr (default_transformer T) e = Except.ok e) ∧
    (∀ p : Pat, transform_pat (default_transformer T) p = Except.ok p) ∧
    (∀ t : Test, transform_test (default_transformer T) t = Except.ok t) ∧
    (∀ c : Clause, transform_clause (default_transformer T) c = Except.ok c) ∧
    (∀ b : Body, transform_body (default_transformer T) b = Except.ok b) ∧
    (∀ g : Guard, transform_guard (default_transformer T) g = Except.ok g) ∧
    (∀ q : Qualifier, transform_qualifier (default_transformer T) q = Except.ok q) ∧
    (∀ elem : BinaryElem, transform_binary_elem (default_transformer T) elem = Except.ok elem) ∧
    (∀ elem : PatBinaryElem,
      transform_pat_binary_elem (default_transformer T) elem = Except.ok elem) ∧
    (∀ f : RecordField, transform_record_field (default_transformer T) f = Except.ok f) ∧
    (∀ f : TestRecordField,
      transform_test_record_field (default_transformer T) f = Except.ok f) :=
  ⟨transform_ast_id, transform_form_id, transform_expr_id, transform_pat_id,
    transform_test_id, transform_clause_id, transform_body_id, transform_guard_id,
    transform_qualifier_id, transform_binary_elem_id, transform_pat_binary_elem_id,
    transform_record_field_id, transform_test_record_field_id⟩

/-- C2: Fail-fast error propagation: for every node of every syntactic
category and every transformer, if any recursive sub-transformation
invoked by the default walk returns an error, the enclosing walk returns
exactly the error of the first failing sub-transformation in visit order
(`first_error` over the node's recorded outcome sequence `*_sub_errors`,
which lists the outcome of each sub-transformation the walk invokes, in
the source's visit order) — and, the result being a bare `Except.error`,
no rebuilt node of any kind is returned alongside it.  Stated for all
thirteen default walks; the second conjunct spells out the "any failing
sub-transformation" form for `walk_expr`. -/
theorem C2_fail_fast {T : Type} (tr : Transformer T) :
    (∀ (e : Expr) (ε : T), first_error (expr_sub_errors tr e) = some ε →
      walk_expr tr e = Except.error ε) ∧
    (∀ (e : Expr) (ε : T), some ε ∈ expr_sub_errors tr e →
      ∃ ε0, first_error (expr_sub_errors tr e) = some ε0 ∧
        walk_expr tr e = Except.error ε0) ∧
    (∀ (p : Pat) (ε : T), first_error (pat_sub_errors tr p) = some ε →
      walk_pat tr p = Except.error ε) ∧
    (∀ (t : Test) (ε : T), first_error (test_sub_errors tr t) = some ε →
      walk_test tr t = Except.error ε) ∧
    (∀ (form : ExternalForm) (ε : T), first_error (form_sub_errors tr form) = some ε →
      walk_form tr form = Except.error ε) ∧
    (∀ (c : Clause) (ε : T), first_error (clause_sub_errors tr c) = some ε →
      walk_clause tr c = Except.error ε) ∧
    (∀ (b : Body) (ε : T), first_error (body_sub_errors tr b) = some ε →
      walk_body tr b = Except.error ε) ∧
    (∀ (g : Guard) (ε : T), first_error (guard_sub_errors tr g) = some ε →
      walk_guard tr g = Except.error ε) ∧
    (∀ (q : Qualifier) (ε : T), first_error (qualifier_sub_errors tr q) = some ε →
      walk_qualifier tr q = Except.error ε) ∧
    (∀ (elem : BinaryElem) (ε : T),
      first_error (binary_elem_sub_errors tr elem) = some ε →
      walk_binary_elem tr elem = Except.error ε) ∧
    (∀ (elem : PatBinaryElem) (ε : T),
      first_error (pat_binary_elem_sub_errors tr elem) = some ε →
      walk_pat_binary_elem tr elem = Except.error ε) ∧
    (∀ (f : RecordField) (ε : T),
      first_error (record_field_sub_errors tr f) = some ε →
      walk_record_field tr f = Except.error ε) ∧
    (∀ (f : TestRecordField) (ε : T),
      first_error (test_record_field_sub_errors tr f) = some ε →
      walk_test_record_field tr f = Except.error ε) ∧
    (∀ (ast : AST) (ε : T), first_error (ast_sub_errors tr ast) = some ε →
      transform_form_list tr ast = Except.error ε) := by
  refine ⟨?_, ?_, ?_, ?_, ?_, ?_, ?_, ?_, ?_, ?_, ?_, ?_, ?_, ?_⟩
  · intro e ε hf
    exact (walk_expr_err_spec tr e).1 ε hf
  · intro e ε hm
    obtain ⟨ε0, h0⟩ := first_error_of_mem hm
    exact ⟨ε0, h0, (walk_expr_err_spec tr e).1 ε0 h0⟩
  · intro p ε hf
    exact (walk_pat_err_spec tr p).1 ε hf
  · intro t ε hf
    exact (walk_test_err_spec tr t).1 ε hf
  · intro form ε hf
    exact (walk_form_err_spec tr form).1 ε hf
  · intro c ε hf
    exact (walk_clause_err_spec tr c).1 ε hf
  · intro b ε hf
    exact (walk_body_err_spec tr b).1 ε hf
  · intro g ε hf
    exact (walk_guard_err_spec tr g).1 ε hf
  · intro q ε hf
    exact (walk_qualifier_err_spec tr q).1 ε hf
  · intro elem ε hf
    exact (walk_binary_elem_err_spec tr elem).1 ε hf
  · intro elem ε hf
    exact (walk_pat_binary_elem_err_spec tr elem).1 ε hf
  · intro f ε hf
    exact (walk_record_field_err_spec tr f).1 ε hf
  · intro f ε hf
    exact (walk_test_record_field_err_spec tr f).1 ε hf
  · intro ast ε hf
    exact (transform_form_list_err_spec tr ast).1 ε hf

/-- A pass whose `transform_pat` override always fails, used to witness
the fail-fast law. -/
def pat_error_pass : Transformer Nat :=
  { default_transformer Nat with o_pat := some (fun _ => Except.error 7) }

theorem C2_fail_fast_witness :
    walk_expr pat_error_pass (Expr.Match ⟨0, 0⟩ (Pat.PatVar "X") (Expr.Var "y")) =
      Except.error 7 :=
  (C2_fail_fast pat_error_pass).1 (Expr.Match ⟨0, 0⟩ (Pat.PatVar "X") (Expr.Var "y")) 7
    (by simp [expr_sub_errors, transform_pat, pat_error_pass])

/-- C3: Iterative cons walk equivalence: for every cons chain and every
transformer, the iterative `walk_cons` — flatten the chain into its head
elements plus the terminal non-cons tail, transform heads left-to-right
then the tail, refold right-to-left — returns exactly the result of the
naive per-node recursion that transforms the head then recurses on the
tail, preserving each cons cell's location; the same value on success and
the same error on failure.  The `Expr::Cons` arm of `walk_expr` agrees as
well. -/
theorem C3_cons_walk_equivalence {T : Type} (tr : Transformer T) (location : Loc)
    (h t : Expr) :
    walk_cons tr location h t = naive_walk_cons tr location h t ∧
    walk_expr tr (Expr.Cons location h t) = naive_walk_cons tr location h t :=
  ⟨walk_cons_eq_naive tr location h t,
    by rw [walk_expr_cons_eq_go]; exact walk_cons_eq_naive tr location h t⟩

/-- C5: Order preservation: a successful default walk of a list-bearing
node returns a list of the same length and relative order, each output
element being the transform of the input element at the same position:
tuple element lists, map-creation key/value pair lists (key transformed
first, then value, both fallibly, each key kept paired with its own
value — a failing key aborts with its error), comprehension qualifier
lists, and clause lists. -/
theorem C5_order_preservation {T : Type} (tr : Transformer T) :
    (∀ (location : Loc) (elems : List Expr) (r : Expr),
      walk_expr tr (Expr.Tuple location elems) = Except.ok r →
      ∃ elems', r = Expr.Tuple location elems' ∧ elems'.length = elems.length ∧
        List.Forall₂ (fun a b => transform_expr tr a = Except.ok b) elems elems') ∧
    (∀ (location : Loc) (kvs : List (Expr × Expr)) (r : Expr),
      walk_expr tr (Expr.MapCreate location kvs) = Except.ok r →
      ∃ kvs', r = Expr.MapCreate location kvs' ∧ kvs'.length = kvs.length ∧
        List.Forall₂ (fun p q => transform_expr tr p.1 = Except.ok q.1 ∧
          transform_expr tr p.2 = Except.ok q.2) kvs kvs') ∧
    (∀ (k v : Expr) (rest : List (Expr × Expr)) (e : T),
      transform_expr tr k = Except.error e →
      transform_expr_kv_list tr ((k, v) :: rest) = Except.error e) ∧
    (∀ (location : Loc) (template : Expr) (qualifiers : List Qualifier) (r : Expr),
      walk_expr tr (Expr.LComprehension location template qualifiers) = Except.ok r →
      ∃ template' qualifiers', r = Expr.LComprehension location template' qualifiers' ∧
        qualifiers'.length = qualifiers.length ∧
        List.Forall₂ (fun a b => transform_qualifier tr a = Except.ok b)
          qualifiers qualifiers') ∧
    (∀ (location : Loc) (expr : Expr) (clauses : List Clause) (r : Expr),
      walk_expr tr (Expr.Case location expr clauses) = Except.ok r →
      ∃ expr' clauses', r = Expr.Case location expr' clauses' ∧
        clauses'.length = clauses.length ∧
        List.Forall₂ (fun a b => transform_clause tr a = Except.ok b) clauses clauses') := by
  refine ⟨?_, ?_, ?_, ?_, ?_⟩
  · intro location elems r h
    obtain ⟨elems', he, hr⟩ := walk_expr_tuple_ok tr location elems r h
    have hf := transform_expr_list_ok_forall2 tr elems elems' he
    exact ⟨elems', hr, hf.length_eq.symm, hf⟩
  · intro location kvs r h
    obtain ⟨kvs', hk, hr⟩ := walk_expr_map_create_ok tr location kvs r h
    have hf := transform_expr_kv_list_ok_forall2 tr kvs kvs' hk
    exact ⟨kvs', hr, hf.length_eq.symm, hf⟩
  · intro k v rest e h
    exact transform_expr_kv_list_key_error tr k v rest e h
  · intro location template qualifiers r h
    obtain ⟨template', qualifiers', ht, hq, hr⟩ :=
      walk_expr_lcomprehension_ok tr location template qualifiers r h
    have hf := transform_qualifier_list_ok_forall2 tr qualifiers qualifiers' hq
    exact ⟨template', qualifiers', hr, hf.length_eq.symm, hf⟩
  · intro location expr clauses r h
    obtain ⟨expr', clauses', hx, hc, hr⟩ := walk_expr_case_ok tr location expr clauses r h
    have hf := transform_clause_list_ok_forall2 tr clauses clauses' hc
    exact ⟨expr', clauses', hr, hf.length_eq.symm, hf⟩

theorem C5_order_preservation_witness :
    ∃ elems', Expr.Tuple ⟨0, 0⟩ [Expr.Var "x"] = Expr.Tuple ⟨0, 0⟩ elems' ∧
      elems'.length = [Expr.Var "x"].length ∧
      List.Forall₂ (fun a b => transform_expr (default_transformer Nat) a = Except.ok b)
        [Expr.Var "x"] elems' :=
  (C5_order_preservation (default_transformer Nat)).1 ⟨0, 0⟩ [Expr.Var "x"]
    (Expr.Tuple ⟨0, 0⟩ [Expr.Var "x"]) (walk_expr_id (Expr.Tuple ⟨0, 0⟩ [Expr.Var "x"]))

/-- C6: Optional-slot preservation: a successful default walk returns
`some` exactly when the input's optional slot was `some` and `none`
exactly when it was `none` — for the optional size expression of a binary
element, the optional after body of a try expression, and the optional
generic fallback sub-pattern of a record pattern. -/
theorem C6_optional_slot_preservation {T : Type} (tr : Transformer T) :
    (∀ (location : Loc) (specifier : String) (expr : Expr) (size : Option Expr)
        (r : BinaryElem),
      walk_binary_elem tr (BinaryElem.mk location specifier expr size) = Except.ok r →
      ∃ expr' size', r = BinaryElem.mk location specifier expr' size' ∧
        size'.isSome = size.isSome) ∧
    (∀ (location : Loc) (try_body : Body) (catch_clauses : List Clause)
        (after_body : Option Body) (r : Expr),
      walk_expr tr (Expr.TryCatchExpr location try_body catch_clauses after_body) =
        Except.ok r →
      ∃ try_body' catch_clauses' after_body',
        r = Expr.TryCatchExpr location try_body' catch_clauses' after_body' ∧
        after_body'.isSome = after_body.isSome) ∧
    (∀ (location : Loc) (rec_name : String) (fields : List PatRecordFieldNamed)
        (gen : Option Pat) (r : Pat),
      walk_pat tr (Pat.PatRecord location rec_name fields gen) = Except.ok r →
      ∃ fields' gen', r = Pat.PatRecord location rec_name fields' gen' ∧
        gen'.isSome = gen.isSome) := by
  refine ⟨?_, ?_, ?_⟩
  · intro location specifier expr size r h
    obtain ⟨expr', size', hx, hs, hr⟩ :=
      walk_binary_elem_ok tr location specifier expr size r h
    exact ⟨expr', size', hr, transform_option_expr_ok_isSome tr size size' hs⟩
  · intro location try_body catch_clauses after_body r h
    obtain ⟨try_body', catch_clauses', after_body', hab, hr⟩ :=
      walk_expr_try_catch_ok tr location try_body catch_clauses after_body r h
    exact ⟨try_body', catch_clauses', after_body', hr,
      transform_option_body_ok_isSome tr after_body after_body' hab⟩
  · intro location rec_name fields gen r h
    obtain ⟨fields', gen', hg, hr⟩ := walk_pat_record_ok tr location rec_name fields gen r h
    exact ⟨fields', gen', hr, transform_option_pat_ok_isSome tr gen gen' hg⟩

theorem C6_optional_slot_preservation_witness :
    ∃ expr' size', BinaryElem.mk ⟨0, 0⟩ "unsigned" (Expr.Var "x") none =
        BinaryElem.mk ⟨0, 0⟩ "unsigned" expr' size' ∧
      size'.isSome = (none : Option Expr).isSome :=
  (C6_optional_slot_preservation (default_transformer Nat)).1 ⟨0, 0⟩ "unsigned"
    (Expr.Var "x") none (BinaryElem.mk ⟨0, 0⟩ "unsigned" (Expr.Var "x") none)
    (by
      have h := transform_binary_elem_id (T := Nat)
        (BinaryElem.mk ⟨0, 0⟩ "unsigned" (Expr.Var "x") none)
      rw [transform_binary_elem] at h
      simpa using h)

/-- C7: Record-update frame property: a successful default walk of a
`RecordUpdate` expression transforms the base expression and only the
value of each field in the update list; the record name, the location,
every field's name, the field count, and the field order are returned
unchanged. -/
theorem C7_record_update_frame {T : Type} (tr : Transformer T) (location : Loc)
    (rec_name : String) (expr : Expr) (fields : List RecordFieldNamed) (r : Expr)
    (h : walk_expr tr (Expr.RecordUpdate location rec_name expr fields) = Except.ok r) :
    ∃ expr' fields', r = Expr.RecordUpdate location rec_name expr' fields' ∧
      transform_expr tr expr = Except.ok expr' ∧
      fields'.length = fields.length ∧
      List.Forall₂
        (fun f g => g.name = f.name ∧ transform_expr tr f.value = Except.ok g.value)
        fields fields' := by
  obtain ⟨expr', fields', hx, hf, hr⟩ :=
    walk_expr_record_update_ok tr location rec_name expr fields r h
  have hfa := transform_record_update_field_list_ok_forall2 tr fields fields' hf
  exact ⟨expr', fields', hr, hx, hfa.length_eq.symm, hfa⟩

theorem C7_record_update_frame_witness :
    ∃ expr' fields',
      Expr.RecordUpdate ⟨0, 0⟩ "r" (Expr.Var "x") [RecordFieldNamed.mk "a" (Expr.Var "v")] =
        Expr.RecordUpdate ⟨0, 0⟩ "r" expr' fields' ∧
      transform_expr (default_transformer Nat) (Expr.Var "x") = Except.ok expr' ∧
      fields'.length = [RecordFieldNamed.mk "a" (Expr.Var "v")].length ∧
      List.Forall₂
        (fun f g => g.name = f.name ∧
          transform_expr (default_transformer Nat) f.value = Except.ok g.value)
        [RecordFieldNamed.mk "a" (Expr.Var "v")] fields' :=
  C7_record_update_frame (default_transformer Nat) ⟨0, 0⟩ "r" (Expr.Var "x")
    [RecordFieldNamed.mk "a" (Expr.Var "v")] _
    (walk_expr_id (Expr.RecordUpdate ⟨0, 0⟩ "r" (Expr.Var "x")
      [RecordFieldNamed.mk "a" (Expr.Var "v")]))

end Eqwalizer

namespace Analyses

/-- C4: Cache totality and shape: for every (project, module) key,
`compute_eqwalizer_stats` returns the diagnostic sequence produced by the
registered passes — a value, never an error (its type has no error
outcome) — and when the passes produce no findings it returns the empty
sequence, not an absent value. -/
theorem C4_cache_totality (db : EqwalizerAnalysesDatabase) (project_id : ProjectId)
    (module : ModuleName) :
    compute_eqwalizer_stats db project_id module =
      db.escape_hatch_findings project_id module ∧
    (db.escape_hatch_findings project_id module = [] →
      compute_eqwalizer_stats db project_id module = []) := by
  constructor
  · simp [compute_eqwalizer_stats, escape_hatches]
  · intro h
    simp [compute_eqwalizer_stats, escape_hatches, h]

theorem C4_cache_totality_witness :
    compute_eqwalizer_stats ⟨fun _ _ => []⟩ 0 "main" = [] :=
  (C4_cache_totality ⟨fun _ _ => []⟩ 0 "main").2 rfl

end Analyses

namespace UndefinedFunction

/-- C9: Undefined-reference scenario: for a module containing one function
whose body makes a single remote call to a function with no known
definition, running the undefined-function pass appends exactly one
diagnostic, and that diagnostic's location span equals the source span of
the call. -/
theorem C9_undefined_reference_scenario (sema : Semantic) (f : FunctionDef)
    (c : CallSite) (module name : String)
    (hcalls : f.calls = [c])
    (htarget : c.target = CallTarget.Remote module name)
    (hres : sema.resolves module name c.arity = false) :
    undefined_function [] sema [f] =
      [make_diagnostic c.range (label module name c.arity)] ∧
    ∀ d ∈ undefined_function [] sema [f], d.range = c.range := by
  have h1 : undefined_function [] sema [f] =
      [make_diagnostic c.range (label module name c.arity)] := by
    simp [undefined_function, check_function, hcalls, check_call, htarget, hres]
  refine ⟨h1, ?_⟩
  intro d hd
  rw [h1] at hd
  simp at hd
  subst hd
  rfl

theorem C9_undefined_reference_scenario_witness :
    undefined_function []
        ⟨fun _ _ _ => false⟩
        [⟨[⟨CallTarget.Remote "dependency" "not_exists", 0, ⟨42, 23⟩⟩]⟩] =
      [make_diagnostic ⟨42, 23⟩ (label "dependency" "not_exists" 0)] ∧
    ∀ d ∈ undefined_function []
        ⟨fun _ _ _ => false⟩
        [⟨[⟨CallTarget.Remote "dependency" "not_exists", 0, ⟨42, 23⟩⟩]⟩],
      d.range = (⟨42, 23⟩ : TextRange) :=
  C9_undefined_reference_scenario ⟨fun _ _ _ => false⟩
    ⟨[⟨CallTarget.Remote "dependency" "not_exists", 0, ⟨42, 23⟩⟩]⟩
    ⟨CallTarget.Remote "dependency" "not_exists", 0, ⟨42, 23⟩⟩
    "dependency" "not_exists" rfl rfl rfl

end UndefinedFunction

namespace Glean

/-- C10: Glean location conversion: for every text range, the indexer's
conversion yields a start equal to the range's start offset and a length
equal to the range's byte length minus one when that length is positive,
and zero when the range is empty — expressed by truncated natural
subtraction, so the conversion is total and never underflows. -/
theorem C10_location_conversion (start len : Nat) :
    location_from_range ⟨start, len⟩ = ⟨start, len - 1⟩ := by
  cases len with
  | zero => simp [location_from_range]
  | succ n => simp [location_from_range]

end Glean

namespace Eqwalizer

/-! ### Termination: fuel-indexed evaluators

To make the termination of the default walks a theorem rather than a
by-construction fact, we re-run every walk under an explicit recursion
budget: each function call consumes one unit of fuel, `none` meaning the
budget was exhausted.  Termination of the real walks is then the statement
that a budget bounded by the tree's size always suffices and reproduces
the walk's result — the recursion is structurally bounded by the tree, and
no unbounded loop is available to a pass. -/

/-- The result of a budgeted computation: `none` when the recursion budget
ran out, otherwise the walk's fallible result. -/
def FuelRes (T α : Type) : Type := Option (Except T α)

instance instMonadFuelRes {T : Type} : Monad (FuelRes T) where
  pure a := some (Except.ok a)
  bind x f :=
    match x with
    | none => none
    | some (Except.error e) => some (Except.error e)
    | some (Except.ok a) => f a

@[simp] theorem fuel_bind_none {T α β : Type} (f : α → FuelRes T β) :
    @Bind.bind (FuelRes T) _ α β none f = (none : FuelRes T β) := rfl

@[simp] theorem fuel_bind_error {T α β : Type} (e : T) (f : α → FuelRes T β) :
    @Bind.bind (FuelRes T) _ α β (some (Except.error e)) f =
      (some (Except.error e) : FuelRes T β) := rfl

@[simp] theorem fuel_bind_ok {T α β : Type} (a : α) (f : α → FuelRes T β) :
    @Bind.bind (FuelRes T) _ α β (some (Except.ok a)) f = f a := rfl

@[simp] theorem fuel_pure {T α : Type} (a : α) :
    @Pure.pure (FuelRes T) _ α a = some (Except.ok a) := rfl

/-- Budgeted bind agrees with `Except` bind once the first component is
known to be within budget and the continuations agree on success. -/
theorem fuel_bind_congr {T α β : Type} (x : Except T α) (k : α → FuelRes T β)
    (k' : α → Except T β) (hk : ∀ a, x = Except.ok a → k a = some (k' a)) :
    @Bind.bind (FuelRes T) _ α β (some x) k = some (x >>= k') := by
  cases x with
  | error e => rfl
  | ok a => exact hk a rfl

mutual

/-- Budgeted `transform_test`. -/
def transform_testF {T : Type} (tr : Transformer T) : Nat → Test → FuelRes T Test
  | 0, _ => none
  | n + 1, t =>
    match tr.o_test with
    | some f => some (f t)
    | none => walk_testF tr n t

/-- Budgeted `transform_test_record_field`. -/
def transform_test_record_fieldF {T : Type} (tr : Transformer T) :
    Nat → TestRecordField → FuelRes T TestRecordField
  | 0, _ => none
  | n + 1, f =>
    match tr.o_test_record_field with
    | some g => some (g f)
    | none => walk_test_record_fieldF tr n f

/-- Budgeted `transform_test_list`. -/
def transform_test_listF {T : Type} (tr : Transformer T) :
    Nat → List Test → FuelRes T (List Test)
  | 0, _ => none
  | _ + 1, [] => pure []
  | n + 1, t :: ts => do
    let t' ← transform_testF tr n t
    let ts' ← transform_test_listF tr n ts
    pure (t' :: ts')

/-- Budgeted `transform_test_kv_list`. -/
def transform_test_kv_listF {T : Type} (tr : Transformer T) :
    Nat → List (Test × Test) → FuelRes T (List (Test × Test))
  | 0, _ => none
  | _ + 1, [] => pure []
  | n + 1, (k, v) :: kvs => do
    let k_trans ← transform_testF tr n k
    let v_trans ← transform_testF tr n v
    let kvs' ← transform_test_kv_listF tr n kvs
    pure ((k_trans, v_trans) :: kvs')

/-- Budgeted `transform_test_record_field_list`. -/
def transform_test_record_field_listF {T : Type} (tr : Transformer T) :
    Nat → List TestRecordField → FuelRes T (List TestRecordField)
  | 0, _ => none
  | _ + 1, [] => pure []
  | n + 1, f :: fs => do
    let f' ← transform_test_record_fieldF tr n f
    let fs' ← transform_test_record_field_listF tr n fs
    pure (f' :: fs')

/-- Budgeted `walk_test`. -/
def walk_testF {T : Type} (tr : Transformer T) : Nat → Test → FuelRes T Test
  | 0, _ => none
  | n + 1, t =>
    match t with
    | .TestVar v => pure (.TestVar v)
    | .TestAtom a => pure (.TestAtom a)
    | .TestNumber m => pure (.TestNumber m)
    | .TestTuple location elems => do
      let elems' ← transform_test_listF tr n elems
      pure (.TestTuple location elems')
    | .TestString s => pure (.TestString s)
    | .TestNil m => pure (.TestNil m)
    | .TestCons location h t => do
      let h' ← transform_testF tr n h
      let t' ← transform_testF tr n t
      pure (.TestCons location h' t')
    | .TestCall location id args => do
      let args' ← transform_test_listF tr n args
      pure (.TestCall location id args')
    | .TestRecordCreate location rec_name fields => do
      let fields' ← transform_test_record_field_listF tr n fields
      pure (.TestRecordCreate location rec_name fields')
    | .TestRecordSelect location rcd rec_name field_name => do
      let rcd' ← transform_testF tr n rcd
      pure (.TestRecordSelect location rcd' rec_name field_name)
    | .TestRecordIndex r => pure (.TestRecordIndex r)
    | .TestMapCreate location kvs => do
      let kvs' ← transform_test_kv_listF tr n kvs
      pure (.TestMapCreate location kvs')
    | .TestMapUpdate location map kvs => do
      let map' ← transform_testF tr n map
      let kvs' ← transform_test_kv_listF tr n kvs
      pure (.TestMapUpdate location map' kvs')
    | .TestUnOp location op arg => do
      let arg' ← transform_testF tr n arg
      pure (.TestUnOp location op arg')
    | .TestBinOp location op arg_1 arg_2 => do
      let a1 ← transform_testF tr n arg_1
      let a2 ← transform_testF tr n arg_2
      pure (.TestBinOp location op a1 a2)
    | .TestBinaryLit b => pure (.TestBinaryLit b)

/-- Budgeted `walk_test_record_field`. -/
def walk_test_record_fieldF {T : Type} (tr : Transformer T) :
    Nat → TestRecordField → FuelRes T TestRecordField
  | 0, _ => none
  | n + 1, f =>
    match f with
    | .TestRecordFieldNamed name value => do
      let value' ← transform_testF tr n value
      pure (.TestRecordFieldNamed name value')
    | .TestRecordFieldGen value => do
      let value' ← transform_testF tr n value
      pure (.TestRecordFieldGen value')

end

/-- Budgeted `walk_guard`. -/
def walk_guardF {T : Type} (tr : Transformer T) : Nat → Guard → FuelRes T Guard
  | 0, _ => none
  | n + 1, g => do
    let tests' ← transform_test_listF tr n g.tests
    pure ⟨tests'⟩

/-- Budgeted `transform_guard`. -/
def transform_guardF {T : Type} (tr : Transformer T) : Nat → Guard → FuelRes T Guard
  | 0, _ => none
  | n + 1, g =>
    match tr.o_guard with
    | some f => some (f g)
    | none => walk_guardF tr n g

/-- Budgeted `transform_guard_list`. -/
def transform_guard_listF {T : Type} (tr : Transformer T) :
    Nat → List Guard → FuelRes T (List Guard)
  | 0, _ => none
  | _ + 1, [] => pure []
  | n + 1, g :: gs => do
    let g' ← transform_guardF tr n g
    let gs' ← transform_guard_listF tr n gs
    pure (g' :: gs')

/-! ### Adequacy of the budgeted guard-test walks: a budget bounded by the
node's size always suffices and reproduces the walk's result. -/

mutual

theorem transform_testF_adequate {T : Type} (tr : Transformer T) (n : Nat) (t : Test)
    (h : 2 * sizeOf t + 1 < n) :
    transform_testF tr n t = some (transform_test tr t) := by
  match n with
  | 0 => exact absurd h (by omega)
  | m + 1 =>
    rw [transform_testF, transform_test]
    cases ho : tr.o_test with
    | some f => simp [ho]
    | none =>
      simp only [ho]
      exact walk_testF_adequate tr m t (by omega)
termination_by n
decreasing_by all_goals simp_wf; all_goals omega

theorem walk_testF_adequate {T : Type} (tr : Transformer T) (n : Nat) (t : Test)
    (h : 2 * sizeOf t < n) :
    walk_testF tr n t = some (walk_test tr t) := by
  match n with
  | 0 => exact absurd h (by omega)
  | m + 1 =>
    cases t with
    | TestVar v => simp [walk_testF, walk_test]
    | TestAtom a => simp [walk_testF, walk_test]
    | TestNumber num => simp [walk_testF, walk_test]
    | TestTuple location elems =>
      simp only [walk_testF, walk_test]
      rw [transform_test_listF_adequate tr m elems (by simp at h; omega)]
      exact fuel_bind_congr _ _ _ (fun a ha => rfl)
    | TestString s => simp [walk_testF, walk_test]
    | TestNil num => simp [walk_testF, walk_test]
    | TestCons location th tt =>
      simp only [walk_testF, walk_test]
      rw [transform_testF_adequate tr m th (by simp at h; omega)]
      refine fuel_bind_congr _ _ _ (fun a ha => ?_)
      rw [transform_testF_adequate tr m tt (by simp at h; omega)]
      exact fuel_bind_congr _ _ _ (fun b hb => rfl)
    | TestCall location id args =>
      simp only [walk_testF, walk_test]
      rw [transform_test_listF_adequate tr m args (by simp at h; omega)]
      exact fuel_bind_congr _ _ _ (fun a ha => rfl)
    | TestRecordCreate location rec_name fields =>
      simp only [walk_testF, walk_test]
      rw [transform_test_record_field_listF_adequate tr m fields (by simp at h; omega)]
      exact fuel_bind_congr _ _ _ (fun a ha => rfl)
    | TestRecordSelect location rcd rec_name field_name =>
      simp only [walk_testF, walk_test]
      rw [transform_testF_adequate tr m rcd (by simp at h; omega)]
      exact fuel_bind_congr _ _ _ (fun a ha => rfl)
    | TestRecordIndex r => simp [walk_testF, walk_test]
    | TestMapCreate location kvs =>
      simp only [walk_testF, walk_test]
      rw [transform_test_kv_listF_adequate tr m kvs (by simp at h; omega)]
      exact fuel_bind_congr _ _ _ (fun a ha => rfl)
    | TestMapUpdate location map kvs =>
      simp only [walk_testF, walk_test]
      rw [transform_testF_adequate tr m map (by simp at h; omega)]
      refine fuel_bind_congr _ _ _ (fun a ha => ?_)
      rw [transform_test_kv_listF_adequate tr m kvs (by simp at h; omega)]
      exact fuel_bind_congr _ _ _ (fun b hb => rfl)
    | TestUnOp location op arg =>
      simp only [walk_testF, walk_test]
      rw [transform_testF_adequate tr m arg (by simp at h; omega)]
      exact fuel_bind_congr _ _ _ (fun a ha => rfl)
    | TestBinOp location op arg_1 arg_2 =>
      simp only [walk_testF, walk_test]
      rw [transform_testF_adequate tr m arg_1 (by simp at h; omega)]
      refine fuel_bind_congr _ _ _ (fun a ha => ?_)
      rw [transform_testF_adequate tr m arg_2 (by simp at h; omega)]
      exact fuel_bind_congr _ _ _ (fun b hb => rfl)
    | TestBinaryLit b => simp [walk_testF, walk_test]
termination_by n
decreasing_by all_goals simp_wf; all_goals omega

theorem transform_test_record_fieldF_adequate {T : Type} (tr : Transformer T) (n : Nat)
    (f : TestRecordField) (h : 2 * sizeOf f + 1 < n) :
    transform_test_record_fieldF tr n f = some (transform_test_record_field tr f) := by
  match n with
  | 0 => exact absurd h (by omega)
  | m + 1 =>
    rw [transform_test_record_fieldF, transform_test_record_field]
    cases ho : tr.o_test_record_field with
    | some g => simp [ho]
    | none =>
      simp only [ho]
      exact walk_test_record_fieldF_adequate tr m f (by omega)
termination_by n
decreasing_by all_goals simp_wf; all_goals omega

theorem walk_test_record_fieldF_adequate {T : Type} (tr : Transformer T) (n : Nat)
    (f : TestRecordField) (h : 2 * sizeOf f < n) :
    walk_test_record_fieldF tr n f = some (walk_test_record_field tr f) := by
  match n with
  | 0 => exact absurd h (by omega)
  | m + 1 =>
    cases f with
    | TestRecordFieldNamed name value =>
      simp only [walk_test_record_fieldF, walk_test_record_field]
      rw [transform_testF_adequate tr m value (by simp at h; omega)]
      exact fuel_bind_congr _ _ _ (fun a ha => rfl)
    | TestRecordFieldGen value =>
      simp only [walk_test_record_fieldF, walk_test_record_field]
      rw [transform_testF_adequate tr m value (by simp at h; omega)]
      exact fuel_bind_congr _ _ _ (fun a ha => rfl)
termination_by n
decreasing_by all_goals simp_wf; all_goals omega

theorem transform_test_listF_adequate {T : Type} (tr : Transformer T) (n : Nat)
    (l : List Test) (h : 2 * sizeOf l < n) :
    transform_test_listF tr n l = some (transform_test_list tr l) := by
  match n with
  | 0 => exact absurd h (by omega)
  | m + 1 =>
    cases l with
    | nil => simp [transform_test_listF, transform_test_list]
    | cons t ts =>
      simp only [transform_test_listF, transform_test_list]
      rw [transform_testF_adequate tr m t (by simp at h; omega)]
      refine fuel_bind_congr _ _ _ (fun a ha => ?_)
      rw [transform_test_listF_adequate tr m ts (by simp at h; omega)]
      exact fuel_bind_congr _ _ _ (fun b hb => rfl)
termination_by n
decreasing_by all_goals simp_wf; all_goals omega

theorem transform_test_kv_listF_adequate {T : Type} (tr : Transformer T) (n : Nat)
    (l : List (Test × Test)) (h : 2 * sizeOf l < n) :
    transform_test_kv_listF tr n l = some (transform_test_kv_list tr l) := by
  match n with
  | 0 => exact absurd h (by omega)
  | m + 1 =>
    cases l with
    | nil => simp [transform_test_kv_listF, transform_test_kv_list]
    | cons kv kvs =>
      obtain ⟨k, v⟩ := kv
      simp only [transform_test_kv_listF, transform_test_kv_list]
      rw [transform_testF_adequate tr m k (by simp at h; omega)]
      refine fuel_bind_congr _ _ _ (fun a ha => ?_)
      rw [transform_testF_adequate tr m v (by simp at h; omega)]
      refine fuel_bind_congr _ _ _ (fun b hb => ?_)
      rw [transform_test_kv_listF_adequate tr m kvs (by simp at h; omega)]
      exact fuel_bind_congr _ _ _ (fun c hc => rfl)
termination_by n
decreasing_by all_goals simp_wf; all_goals omega

theorem transform_test_record_field_listF_adequate {T : Type} (tr : Transformer T) (n : Nat)
    (l : List TestRecordField) (h : 2 * sizeOf l < n) :
    transform_test_record_field_listF tr n l =
      some (transform_test_record_field_list tr l) := by
  match n with
  | 0 => exact absurd h (by omega)
  | m + 1 =>
    cases l with
    | nil => simp [transform_test_record_field_listF, transform_test_record_field_list]
    | cons f fs =>
      simp only [transform_test_record_field_listF, transform_test_record_field_list]
      rw [transform_test_record_fieldF_adequate tr m f (by simp at h; omega)]
      refine fuel_bind_congr _ _ _ (fun a ha => ?_)
      rw [transform_test_record_field_listF_adequate tr m fs (by simp at h; omega)]
      exact fuel_bind_congr _ _ _ (fun b hb => rfl)
termination_by n
decreasing_by all_goals simp_wf; all_goals omega

end

theorem walk_guardF_adequate {T : Type} (tr : Transformer T) (n : Nat) (g : Guard)
    (h : 2 * sizeOf g < n) :
    walk_guardF tr n g = some (walk_guard tr g) := by
  match n with
  | 0 => exact absurd h (by omega)
  | m + 1 =>
    obtain ⟨tests⟩ := g
    simp only [walk_guardF, walk_guard]
    rw [transform_test_listF_adequate tr m tests (by simp at h; omega)]
    exact fuel_bind_congr _ _ _ (fun a ha => rfl)

theorem transform_guardF_adequate {T : Type} (tr : Transformer T) (n : Nat) (g : Guard)
    (h : 2 * sizeOf g + 1 < n) :
    transform_guardF tr n g = some (transform_guard tr g) := by
  match n with
  | 0 => exact absurd h (by omega)
  | m + 1 =>
    rw [transform_guardF, transform_guard]
    cases ho : tr.o_guard with
    | some f => simp [ho]
    | none =>
      simp only [ho]
      exact walk_guardF_adequate tr m g (by omega)

theorem transform_guard_listF_adequate {T : Type} (tr : Transformer T) (n : Nat)
    (l : List Guard) (h : 2 * sizeOf l < n) :
    transform_guard_listF tr n l = some (transform_guard_list tr l) := by
  match n with
  | 0 => exact absurd h (by omega)
  | m + 1 =>
    cases l with
    | nil => simp [transform_guard_listF, transform_guard_list]
    | cons g gs =>
      simp only [transform_guard_listF, transform_guard_list]
      rw [transform_guardF_adequate tr m g (by simp at h; omega)]
      refine fuel_bind_congr _ _ _ (fun a ha => ?_)
      rw [transform_guard_listF_adequate tr m gs (by simp at h; omega)]
      exact fuel_bind_congr _ _ _ (fun b hb => rfl)
termination_by n
decreasing_by all_goals simp_wf; all_goals omega

/-! ### Budgeted expression / pattern walks -/

mutual

/-- Budgeted `transform_expr`. -/
def transform_exprF {T : Type} (tr : Transformer T) : Nat → Expr → FuelRes T Expr
  | 0, _ => none
  | n + 1, e =>
    match tr.o_expr with
    | some f => some (f e)
    | none => walk_exprF tr n e

/-- Budgeted `transform_pat`. -/
def transform_patF {T : Type} (tr : Transformer T) : Nat → Pat → FuelRes T Pat
  | 0, _ => none
  | n + 1, p =>
    match tr.o_pat with
    | some f => some (f p)
    | none => walk_patF tr n p

/-- Budgeted `transform_clause`. -/
def transform_clauseF {T : Type} (tr : Transformer T) : Nat → Clause → FuelRes T Clause
  | 0, _ => none
  | n + 1, c =>
    match tr.o_clause with
    | some f => some (f c)
    | none => walk_clauseF tr n c

/-- Budgeted `transform_body`. -/
def transform_bodyF {T : Type} (tr : Transformer T) : Nat → Body → FuelRes T Body
  | 0, _ => none
  | n + 1, b =>
    match tr.o_body with
    | some f => some (f b)
    | none => walk_bodyF tr n b

/-- Budgeted `transform_qualifier`. -/
def transform_qualifierF {T : Type} (tr : Transformer T) :
    Nat → Qualifier → FuelRes T Qualifier
  | 0, _ => none
  | n + 1, q =>
    match tr.o_qualifier with
    | some f => some (f q)
    | none => walk_qualifierF tr n q

/-- Budgeted `transform_binary_elem`. -/
def transform_binary_elemF {T : Type} (tr : Transformer T) :
    Nat → BinaryElem → FuelRes T BinaryElem
  | 0, _ => none
  | n + 1, elem =>
    match tr.o_binary_elem with
    | some f => some (f elem)
    | none => walk_binary_elemF tr n elem

/-- Budgeted `transform_pat_binary_elem`. -/
def transform_pat_binary_elemF {T : Type} (tr : Transformer T) :
    Nat → PatBinaryElem → FuelRes T PatBinaryElem
  | 0, _ => none
  | n + 1, elem =>
    match tr.o_pat_binary_elem with
    | some f => some (f elem)
    | none => walk_pat_binary_elemF tr n elem

/-- Budgeted `transform_record_field`. -/
def transform_record_fieldF {T : Type} (tr : Transformer T) :
    Nat → RecordField → FuelRes T RecordField
  | 0, _ => none
  | n + 1, field =>
    match tr.o_record_field with
    | some f => some (f field)
    | none => walk_record_fieldF tr n field

/-- Budgeted `transform_expr_list`. -/
def transform_expr_listF {T : Type} (tr : Transformer T) :
    Nat → List Expr → FuelRes T (List Expr)
  | 0, _ => none
  | _ + 1, [] => pure []
  | n + 1, e :: es => do
    let e' ← transform_exprF tr n e
    let es' ← transform_expr_listF tr n es
    pure (e' :: es')

/-- Budgeted `transform_pat_list`. -/
def transform_pat_listF {T : Type} (tr : Transformer T) :
    Nat → List Pat → FuelRes T (List Pat)
  | 0, _ => none
  | _ + 1, [] => pure []
  | n + 1, p :: ps => do
    let p' ← transform_patF tr n p
    let ps' ← transform_pat_listF tr n ps
    pure (p' :: ps')

/-- Budgeted `transform_clause_list`. -/
def transform_clause_listF {T : Type} (tr : Transformer T) :
    Nat → List Clause → FuelRes T (List Clause)
  | 0, _ => none
  | _ + 1, [] => pure []
  | n + 1, c :: cs => do
    let c' ← transform_clauseF tr n c
    let cs' ← transform_clause_listF tr n cs
    pure (c' :: cs')

/-- Budgeted `transform_qualifier_list`. -/
def transform_qualifier_listF {T : Type} (tr : Transformer T) :
    Nat → List Qualifier → FuelRes T (List Qualifier)
  | 0, _ => none
  | _ + 1, [] => pure []
  | n + 1, q :: qs => do
    let q' ← transform_qualifierF tr n q
    let qs' ← transform_qualifier_listF tr n qs
    pure (q' :: qs')

/-- Budgeted `transform_binary_elem_list`. -/
def transform_binary_elem_listF {T : Type} (tr : Transformer T) :
    Nat → List BinaryElem → FuelRes T (List BinaryElem)
  | 0, _ => none
  | _ + 1, [] => pure []
  | n + 1, e :: es => do
    let e' ← transform_binary_elemF tr n e
    let es' ← transform_binary_elem_listF tr n es
    pure (e' :: es')

/-- Budgeted `transform_pat_binary_elem_list`. -/
def transform_pat_binary_elem_listF {T : Type} (tr : Transformer T) :
    Nat → List PatBinaryElem → FuelRes T (List PatBinaryElem)
  | 0, _ => none
  | _ + 1, [] => pure []
  | n + 1, e :: es => do
    let e' ← transform_pat_binary_elemF tr n e
    let es' ← transform_pat_binary_elem_listF tr n es
    pure (e' :: es')

/-- Budgeted `transform_record_field_list`. -/
def transform_record_field_listF {T : Type} (tr : Transformer T) :
    Nat → List RecordField → FuelRes T (List RecordField)
  | 0, _ => none
  | _ + 1, [] => pure []
  | n + 1, f :: fs => do
    let f' ← transform_record_fieldF tr n f
    let fs' ← transform_record_field_listF tr n fs
    pure (f' :: fs')

/-- Budgeted `transform_expr_kv_list`. -/
def transform_expr_kv_listF {T : Type} (tr : Transformer T) :
    Nat → List (Expr × Expr) → FuelRes T (List (Expr × Expr))
  | 0, _ => none
  | _ + 1, [] => pure []
  | n + 1, (k, v) :: kvs => do
    let k_trans ← transform_exprF tr n k
    let v_trans ← transform_exprF tr n v
    let kvs' ← transform_expr_kv_listF tr n kvs
    pure ((k_trans, v_trans) :: kvs')

/-- Budgeted `transform_record_update_field_list`. -/
def transform_record_update_field_listF {T : Type} (tr : Transformer T) :
    Nat → List RecordFieldNamed → FuelRes T (List RecordFieldNamed)
  | 0, _ => none
  | _ + 1, [] => pure []
  | n + 1, .mk name value :: fs => do
    let value' ← transform_exprF tr n value
    let fs' ← transform_record_update_field_listF tr n fs
    pure (.mk name value' :: fs')

/-- Budgeted `transform_pat_record_field_list`. -/
def transform_pat_record_field_listF {T : Type} (tr : Transformer T) :
    Nat → List PatRecordFieldNamed → FuelRes T (List PatRecordFieldNamed)
  | 0, _ => none
  | _ + 1, [] => pure []
  | n + 1, .mk name pat :: fs => do
    let pat' ← transform_patF tr n pat
    let fs' ← transform_pat_record_field_listF tr n fs
    pure (.mk name pat' :: fs')

/-- Budgeted `transform_test_pat_kv_list`. -/
def transform_test_pat_kv_listF {T : Type} (tr : Transformer T) :
    Nat → List (Test × Pat) → FuelRes T (List (Test × Pat))
  | 0, _ => none
  | _ + 1, [] => pure []
  | n + 1, (k, v) :: kvs => do
    let k_trans ← transform_testF tr n k
    let v_trans ← transform_patF tr n v
    let kvs' ← transform_test_pat_kv_listF tr n kvs
    pure ((k_trans, v_trans) :: kvs')

/-- Budgeted `transform_option_expr`. -/
def transform_option_exprF {T : Type} (tr : Transformer T) :
    Nat → Option Expr → FuelRes T (Option Expr)
  | 0, _ => none
  | _ + 1, none => pure none
  | n + 1, some s => do
    let s' ← transform_exprF tr n s
    pure (some s')

/-- Budgeted `transform_option_body`. -/
def transform_option_bodyF {T : Type} (tr : Transformer T) :
    Nat → Option Body → FuelRes T (Option Body)
  | 0, _ => none
  | _ + 1, none => pure none
  | n + 1, some b => do
    let b' ← transform_bodyF tr n b
    pure (some b')

/-- Budgeted `transform_option_pat`. -/
def transform_option_patF {T : Type} (tr : Transformer T) :
    Nat → Option Pat → FuelRes T (Option Pat)
  | 0, _ => none
  | _ + 1, none => pure none
  | n + 1, some g => do
    let g' ← transform_patF tr n g
    pure (some g')

/-- Budgeted `walk_body`. -/
def walk_bodyF {T : Type} (tr : Transformer T) : Nat → Body → FuelRes T Body
  | 0, _ => none
  | n + 1, .mk exprs => do
    let exprs' ← transform_expr_listF tr n exprs
    pure (.mk exprs')

/-- Budgeted `walk_clause`. -/
def walk_clauseF {T : Type} (tr : Transformer T) : Nat → Clause → FuelRes T Clause
  | 0, _ => none
  | n + 1, .mk location pats guards body => do
    let pats' ← transform_pat_listF tr n pats
    let guards' ← transform_guard_listF tr n guards
    let body' ← transform_bodyF tr n body
    pure (.mk location pats' guards' body')

/-- Budgeted `walk_qualifier`. -/
def walk_qualifierF {T : Type} (tr : Transformer T) : Nat → Qualifier → FuelRes T Qualifier
  | 0, _ => none
  | n + 1, q =>
    match q with
    | .LGenerate pat expr => do
      let pat' ← transform_patF tr n pat
      let expr' ← transform_exprF tr n expr
      pure (.LGenerate pat' expr')
    | .BGenerate pat expr => do
      let pat' ← transform_patF tr n pat
      let expr' ← transform_exprF tr n expr
      pure (.BGenerate pat' expr')
    | .MGenerate k_pat v_pat expr => do
      let k_pat' ← transform_patF tr n k_pat
      let v_pat' ← transform_patF tr n v_pat
      let expr' ← transform_exprF tr n expr
      pure (.MGenerate k_pat' v_pat' expr')
    | .Filter expr => do
      let expr' ← transform_exprF tr n expr
      pure (.Filter expr')

/-- Budgeted `walk_binary_elem`. -/
def walk_binary_elemF {T : Type} (tr : Transformer T) :
    Nat → BinaryElem → FuelRes T BinaryElem
  | 0, _ => none
  | n + 1, .mk location specifier expr size => do
    let expr' ← transform_exprF tr n expr
    let size' ← transform_option_exprF tr n size
    pure (.mk location specifier expr' size')

/-- Budgeted `walk_record_field`. -/
def walk_record_fieldF {T : Type} (tr : Transformer T) :
    Nat → RecordField → FuelRes T RecordField
  | 0, _ => none
  | n + 1, field =>
    match field with
    | .RecordFieldGen value => do
      let value' ← transform_exprF tr n value
      pure (.RecordFieldGen value')
    | .RecordFieldNamed name value => do
      let value' ← transform_exprF tr n value
      pure (.RecordFieldNamed name value')

/-- Budgeted `walk_cons_go`. -/
def walk_cons_goF {T : Type} (tr : Transformer T) :
    Nat → List (Loc × Expr) → Loc → Expr → Expr → FuelRes T Expr
  | 0, _, _, _, _ => none
  | n + 1, transformed_elems, location, h, t => do
    let h' ← transform_exprF tr n h
    walk_cons_tailF tr n (transformed_elems ++ [(location, h')]) t

/-- Budgeted `walk_cons_tail`. -/
def walk_cons_tailF {T : Type} (tr : Transformer T) :
    Nat → List (Loc × Expr) → Expr → FuelRes T Expr
  | 0, _, _ => none
  | n + 1, transformed_elems, t =>
    match t with
    | .Cons l2 h2 t2 => walk_cons_goF tr n transformed_elems l2 h2 t2
    | exp => do
      let transformed_t ← transform_exprF tr n exp
      pure (transformed_elems.reverse.foldl
        (fun acc p => Expr.Cons p.1 p.2 acc) transformed_t)

/-- Budgeted `walk_expr`. -/
def walk_exprF {T : Type} (tr : Transformer T) : Nat → Expr → FuelRes T Expr
  | 0, _ => none
  | n + 1, e =>
    match e with
    | .Var v => pure (.Var v)
    | .AtomLit a => pure (.AtomLit a)
    | .IntLit i => pure (.IntLit i)
    | .FloatLit f => pure (.FloatLit f)
    | .Block location body => do
      let body' ← transform_bodyF tr n body
      pure (.Block location body')
    | .Match location pat expr => do
      let pat' ← transform_patF tr n pat
      let expr' ← transform_exprF tr n expr
      pure (.Match location pat' expr')
    | .Tuple location elems => do
      let elems' ← transform_expr_listF tr n elems
      pure (.Tuple location elems')
    | .StringLit s => pure (.StringLit s)
    | .NilLit nl => pure (.NilLit nl)
    | .Cons location h t => walk_cons_goF tr n [] location h t
    | .Case location expr clauses => do
      let expr' ← transform_exprF tr n expr
      let clauses' ← transform_clause_listF tr n clauses
      pure (.Case location expr' clauses')
    | .If location clauses => do
      let clauses' ← transform_clause_listF tr n clauses
      pure (.If location clauses')
    | .LocalCall location id args => do
      let args' ← transform_expr_listF tr n args
      pure (.LocalCall location id args')
    | .DynCall location f args => do
      let f' ← transform_exprF tr n f
      let args' ← transform_expr_listF tr n args
      pure (.DynCall location f' args')
    | .RemoteCall location id args => do
      let args' ← transform_expr_listF tr n args
      pure (.RemoteCall location id args')
    | .LocalFun f => pure (.LocalFun f)
    | .RemoteFun f => pure (.RemoteFun f)
    | .DynRemoteFun location module name => do
      let module' ← transform_exprF tr n module
      let name' ← transform_exprF tr n name
      pure (.DynRemoteFun location module' name')
    | .DynRemoteFunArity location module name arity => do
      let module' ← transform_exprF tr n module
      let name' ← transform_exprF tr n name
      let arity' ← transform_exprF tr n arity
      pure (.DynRemoteFunArity location module' name' arity')
    | .Lambda location clauses name => do
      let clauses' ← transform_clause_listF tr n clauses
      pure (.Lambda location clauses' name)
    | .UnOp location op arg => do
      let arg' ← transform_exprF tr n arg
      pure (.UnOp location op arg')
    | .BinOp location op arg_1 arg_2 => do
      let a1 ← transform_exprF tr n arg_1
      let a2 ← transform_exprF tr n arg_2
      pure (.BinOp location op a1 a2)
    | .LComprehension location template qualifiers => do
      let template' ← transform_exprF tr n template
      let qualifiers' ← transform_qualifier_listF tr n qualifiers
      pure (.LComprehension location template' qualifiers')
    | .BComprehension location template qualifiers => do
      let template' ← transform_exprF tr n template
      let qualifiers' ← transform_qualifier_listF tr n qualifiers
      pure (.BComprehension location template' qualifiers')
    | .MComprehension location k_template v_template qualifiers => do
      let k_template' ← transform_exprF tr n k_template
      let v_template' ← transform_exprF tr n v_template
      let qualifiers' ← transform_qualifier_listF tr n qualifiers
      pure (.MComprehension location k_template' v_template' qualifiers')
    | .Binary location elems => do
      let elems' ← transform_binary_elem_listF tr n elems
      pure (.Binary location elems')
    | .Catch location expr => do
      let expr' ← transform_exprF tr n expr
      pure (.Catch location expr')
    | .TryCatchExpr location try_body catch_clauses after_body => do
      let try_body' ← transform_bodyF tr n try_body
      let catch_clauses' ← transform_clause_listF tr n catch_clauses
      let after_body' ← transform_option_bodyF tr n after_body
      pure (.TryCatchExpr location try_body' catch_clauses' after_body')
    | .TryOfCatchExpr location try_body try_clauses catch_clauses after_body => do
      let try_body' ← transform_bodyF tr n try_body
      let try_clauses' ← transform_clause_listF tr n try_clauses
      let catch_clauses' ← transform_clause_listF tr n catch_clauses
      let after_body' ← transform_option_bodyF tr n after_body
      pure (.TryOfCatchExpr location try_body' try_clauses' catch_clauses' after_body')
    | .Receive location clauses => do
      let clauses' ← transform_clause_listF tr n clauses
      pure (.Receive location clauses')
    | .ReceiveWithTimeout location clauses timeout timeout_body => do
      let clauses' ← transform_clause_listF tr n clauses
      let timeout' ← transform_exprF tr n timeout
      let timeout_body' ← transform_bodyF tr n timeout_body
      pure (.ReceiveWithTimeout location clauses' timeout' timeout_body')
    | .RecordCreate location rec_name fields => do
      let fields' ← transform_record_field_listF tr n fields
      pure (.RecordCreate location rec_name fields')
    | .RecordUpdate location rec_name expr fields => do
      let expr' ← transform_exprF tr n expr
      let fields' ← transform_record_update_field_listF tr n fields
      pure (.RecordUpdate location rec_name expr' fields')
    | .RecordSelect location rec_name field_name expr => do
      let expr' ← transform_exprF tr n expr
      pure (.RecordSelect location rec_name field_name expr')
    | .RecordIndex r => pure (.RecordIndex r)
    | .MapCreate location kvs => do
      let kvs' ← transform_expr_kv_listF tr n kvs
      pure (.MapCreate location kvs')
    | .MapUpdate location map kvs => do
      let map' ← transform_exprF tr n map
      let kvs' ← transform_expr_kv_listF tr n kvs
      pure (.MapUpdate location map' kvs')
    | .Maybe location body => do
      let body' ← transform_bodyF tr n body
      pure (.Maybe location body')
    | .MaybeElse location body else_clauses => do
      let body' ← transform_bodyF tr n body
      let else_clauses' ← transform_clause_listF tr n else_clauses
      pure (.MaybeElse location body' else_clauses')
    | .MaybeMatch location pat arg => do
      let pat' ← transform_patF tr n pat
      let arg' ← transform_exprF tr n arg
      pure (.MaybeMatch location pat' arg')

/-- Budgeted `walk_pat_binary_elem`. -/
def walk_pat_binary_elemF {T : Type} (tr : Transformer T) :
    Nat → PatBinaryElem → FuelRes T PatBinaryElem
  | 0, _ => none
  | n + 1, .mk location specifier pat size => do
    let pat' ← transform_patF tr n pat
    let size' ← transform_option_exprF tr n size
    pure (.mk location specifier pat' size')

/-- Budgeted `walk_pat`. -/
def walk_patF {T : Type} (tr : Transformer T) : Nat → Pat → FuelRes T Pat
  | 0, _ => none
  | n + 1, p =>
    match p with
    | .PatWild q => pure (.PatWild q)
    | .PatMatch location pat arg => do
      let pat' ← transform_patF tr n pat
      let arg' ← transform_patF tr n arg
      pure (.PatMatch location pat' arg')
    | .PatTuple location elems => do
      let elems' ← transform_pat_listF tr n elems
      pure (.PatTuple location elems')
    | .PatString s => pure (.PatString s)
    | .PatNil nl => pure (.PatNil nl)
    | .PatCons location h t => do
      let h' ← transform_patF tr n h
      let t' ← transform_patF tr n t
      pure (.PatCons location h' t')
    | .PatInt i => pure (.PatInt i)
    | .PatNumber nl => pure (.PatNumber nl)
    | .PatAtom a => pure (.PatAtom a)
    | .PatVar v => pure (.PatVar v)
    | .PatRecord location rec_name fields gen => do
      let fields' ← transform_pat_record_field_listF tr n fields
      let gen' ← transform_option_patF tr n gen
      pure (.PatRecord location rec_name fields' gen')
    | .PatRecordIndex r => pure (.PatRecordIndex r)
    | .PatUnOp location op arg => do
      let arg' ← transform_patF tr n arg
      pure (.PatUnOp location op arg')
    | .PatBinOp location op arg_1 arg_2 => do
      let a1 ← transform_patF tr n arg_1
      let a2 ← transform_patF tr n arg_2
      pure (.PatBinOp location op a1 a2)
    | .PatBinary location elems => do
      let elems' ← transform_pat_binary_elem_listF tr n elems
      pure (.PatBinary location elems')
    | .PatMap location kvs => do
      let kvs' ← transform_test_pat_kv_listF tr n kvs
      pure (.PatMap location kvs')

end

/-- Budgeted `transform_external_rec_field_list`. -/
def transform_external_rec_field_listF {T : Type} (tr : Transformer T) :
    Nat → List ExternalRecField → FuelRes T (List ExternalRecField)
  | 0, _ => none
  | _ + 1, [] => pure []
  | n + 1, f :: fs => do
    let default_value ← transform_option_exprF tr n f.default_value
    let fs' ← transform_external_rec_field_listF tr n fs
    pure ({ f with default_value := default_value } :: fs')

/-- Budgeted `walk_form`. -/
def walk_formF {T : Type} (tr : Transformer T) : Nat → ExternalForm → FuelRes T ExternalForm
  | 0, _ => none
  | n + 1, form =>
    match form with
    | .FunDecl location id clauses => do
      let clauses' ← transform_clause_listF tr n clauses
      pure (.FunDecl location id clauses')
    | .ExternalRecDecl location name file fields => do
      let fields' ← transform_external_rec_field_listF tr n fields
      pure (.ExternalRecDecl location name file fields')
    | other => pure other

/-- Budgeted `transform_form`. -/
def transform_formF {T : Type} (tr : Transformer T) :
    Nat → ExternalForm → FuelRes T ExternalForm
  | 0, _ => none
  | n + 1, form =>
    match tr.o_form with
    | some f => some (f form)
    | none => walk_formF tr n form

/-- Budgeted `transform_form_list`. -/
def transform_form_listF {T : Type} (tr : Transformer T) :
    Nat → List ExternalForm → FuelRes T (List ExternalForm)
  | 0, _ => none
  | _ + 1, [] => pure []
  | n + 1, f :: fs => do
    let f' ← transform_formF tr n f
    let fs' ← transform_form_listF tr n fs
    pure (f' :: fs')

/-- Budgeted `transform_ast`. -/
def transform_astF {T : Type} (tr : Transformer T) : Nat → AST → FuelRes T AST
  | 0, _ => none
  | n + 1, ast =>
    match tr.o_ast with
    | some f => some (f ast)
    | none => transform_form_listF tr n ast

/-! ### Adequacy of the budgeted expression / pattern walks -/

set_option maxHeartbeats 12800000

mutual

theorem transform_exprF_adequate {T : Type} (tr : Transformer T) (n : Nat) (e : Expr)
    (h : 2 * sizeOf e + 1 < n) :
    transform_exprF tr n e = some (transform_expr tr e) := by
  match n with
  | 0 => exact absurd h (by omega)
  | m + 1 =>
    rw [transform_exprF, transform_expr]
    cases ho : tr.o_expr with
    | some f => simp [ho]
    | none =>
      simp only [ho]
      exact walk_exprF_adequate tr m e (by omega)
termination_by n
decreasing_by all_goals simp_wf; all_goals omega

theorem transform_patF_adequate {T : Type} (tr : Transformer T) (n : Nat) (p : Pat)
    (h : 2 * sizeOf p + 1 < n) :
    transform_patF tr n p = some (transform_pat tr p) := by
  match n with
  | 0 => exact absurd h (by omega)
  | m + 1 =>
    rw [transform_patF, transform_pat]
    cases ho : tr.o_pat with
    | some f => simp [ho]
    | none =>
      simp only [ho]
      exact walk_patF_adequate tr m p (by omega)
termination_by n
decreasing_by all_goals simp_wf; all_goals omega

theorem transform_clauseF_adequate {T : Type} (tr : Transformer T) (n : Nat) (c : Clause)
    (h : 2 * sizeOf c + 1 < n) :
    transform_clauseF tr n c = some (transform_clause tr c) := by
  match n with
  | 0 => exact absurd h (by omega)
  | m + 1 =>
    rw [transform_clauseF, transform_clause]
    cases ho : tr.o_clause with
    | some f => simp [ho]
    | none =>
      simp only [ho]
      exact walk_clauseF_adequate tr m c (by omega)
termination_by n
decreasing_by all_goals simp_wf; all_goals omega

theorem transform_bodyF_adequate {T : Type} (tr : Transformer T) (n : Nat) (b : Body)
    (h : 2 * sizeOf b + 1 < n) :
    transform_bodyF tr n b = some (transform_body tr b) := by
  match n with
  | 0 => exact absurd h (by omega)
  | m + 1 =>
    rw [transform_bodyF, transform_body]
    cases ho : tr.o_body with
    | some f => simp [ho]
    | none =>
      simp only [ho]
      exact walk_bodyF_adequate tr m b (by omega)
termination_by n
decreasing_by all_goals simp_wf; all_goals omega

theorem transform_qualifierF_adequate {T : Type} (tr : Transformer T) (n : Nat)
    (q : Qualifier) (h : 2 * sizeOf q + 1 < n) :
    transform_qualifierF tr n q = some (transform_qualifier tr q) := by
  match n with
  | 0 => exact absurd h (by omega)
  | m + 1 =>
    rw [transform_qualifierF, transform_qualifier]
    cases ho : tr.o_qualifier with
    | some f => simp [ho]
    | none =>
      simp only [ho]
      exact walk_qualifierF_adequate tr m q (by omega)
termination_by n
decreasing_by all_goals simp_wf; all_goals omega

theorem transform_binary_elemF_adequate {T : Type} (tr : Transformer T) (n : Nat)
    (elem : BinaryElem) (h : 2 * sizeOf elem + 1 < n) :
    transform_binary_elemF tr n elem = some (transform_binary_elem tr elem) := by
  match n with
  | 0 => exact absurd h (by omega)
  | m + 1 =>
    rw [transform_binary_elemF, transform_binary_elem]
    cases ho : tr.o_binary_elem with
    | some f => simp [ho]
    | none =>
      simp only [ho]
      exact walk_binary_elemF_adequate tr m elem (by omega)
termination_by n
decreasing_by all_goals simp_wf; all_goals omega

theorem transform_pat_binary_elemF_adequate {T : Type} (tr : Transformer T) (n : Nat)
    (elem : PatBinaryElem) (h : 2 * sizeOf elem + 1 < n) :
    transform_pat_binary_elemF tr n elem = some (transform_pat_binary_elem tr elem) := by
  match n with
  | 0 => exact absurd h (by omega)
  | m + 1 =>
    rw [transform_pat_binary_elemF, transform_pat_binary_elem]
    cases ho : tr.o_pat_binary_elem with
    | some f => simp [ho]
    | none =>
      simp only [ho]
      exact walk_pat_binary_elemF_adequate tr m elem (by omega)
termination_by n
decreasing_by all_goals simp_wf; all_goals omega

theorem transform_record_fieldF_adequate {T : Type} (tr : Transformer T) (n : Nat)
    (field : RecordField) (h : 2 * sizeOf field + 1 < n) :
    transform_record_fieldF tr n field = some (transform_record_field tr field) := by
  match n with
  | 0 => exact absurd h (by omega)
  | m + 1 =>
    rw [transform_record_fieldF, transform_record_field]
    cases ho : tr.o_record_field with
    | some f => simp [ho]
    | none =>
      simp only [ho]
      exact walk_record_fieldF_adequate tr m field (by omega)
termination_by n
decreasing_by all_goals simp_wf; all_goals omega

theorem transform_expr_listF_adequate {T : Type} (tr : Transformer T) (n : Nat)
    (l : List Expr) (h : 2 * sizeOf l < n) :
    transform_expr_listF tr n l = some (transform_expr_list tr l) := by
  match n with
  | 0 => exact absurd h (by omega)
  | m + 1 =>
    cases l with
    | nil => simp [transform_expr_listF, transform_expr_list]
    | cons e es =>
      simp only [transform_expr_listF, transform_expr_list]
      rw [transform_exprF_adequate tr m e (by simp at h; omega)]
      refine fuel_bind_congr _ _ _ (fun a ha => ?_)
      rw [transform_expr_listF_adequate tr m es (by simp at h; omega)]
      exact fuel_bind_congr _ _ _ (fun b hb => rfl)
termination_by n
decreasing_by all_goals simp_wf; all_goals omega

theorem transform_pat_listF_adequate {T : Type} (tr : Transformer T) (n : Nat)
    (l : List Pat) (h : 2 * sizeOf l < n) :
    transform_pat_listF tr n l = some (transform_pat_list tr l) := by
  match n with
  | 0 => exact absurd h (by omega)
  | m + 1 =>
    cases l with
    | nil => simp [transform_pat_listF, transform_pat_list]
    | cons p ps =>
      simp only [transform_pat_listF, transform_pat_list]
      rw [transform_patF_adequate tr m p (by simp at h; omega)]
      refine fuel_bind_congr _ _ _ (fun a ha => ?_)
      rw [transform_pat_listF_adequate tr m ps (by simp at h; omega)]
      exact fuel_bind_congr _ _ _ (fun b hb => rfl)
termination_by n
decreasing_by all_goals simp_wf; all_goals omega

theorem transform_clause_listF_adequate {T : Type} (tr : Transformer T) (n : Nat)
    (l : List Clause) (h : 2 * sizeOf l < n) :
    transform_clause_listF tr n l = some (transform_clause_list tr l) := by
  match n with
  | 0 => exact absurd h (by omega)
  | m + 1 =>
    cases l with
    | nil => simp [transform_clause_listF, transform_clause_list]
    | cons c cs =>
      simp only [transform_clause_listF, transform_clause_list]
      rw [transform_clauseF_adequate tr m c (by simp at h; omega)]
      refine fuel_bind_congr _ _ _ (fun a ha => ?_)
      rw [transform_clause_listF_adequate tr m cs (by simp at h; omega)]
      exact fuel_bind_congr _ _ _ (fun b hb => rfl)
termination_by n
decreasing_by all_goals simp_wf; all_goals omega

theorem transform_qualifier_listF_adequate {T : Type} (tr : Transformer T) (n : Nat)
    (l : List Qualifier) (h : 2 * sizeOf l < n) :
    transform_qualifier_listF tr n l = some (transform_qualifier_list tr l) := by
  match n with
  | 0 => exact absurd h (by omega)
  | m + 1 =>
    cases l with
    | nil => simp [transform_qualifier_listF, transform_qualifier_list]
    | cons q qs =>
      simp only [transform_qualifier_listF, transform_qualifier_list]
      rw [transform_qualifierF_adequate tr m q (by simp at h; omega)]
      refine fuel_bind_congr _ _ _ (fun a ha => ?_)
      rw [transform_qualifier_listF_adequate tr m qs (by simp at h; omega)]
      exact fuel_bind_congr _ _ _ (fun b hb => rfl)
termination_by n
decreasing_by all_goals simp_wf; all_goals omega

theorem transform_binary_elem_listF_adequate {T : Type} (tr : Transformer T) (n : Nat)
    (l : List BinaryElem) (h : 2 * sizeOf l < n) :
    transform_binary_elem_listF tr n l = some (transform_binary_elem_list tr l) := by
  match n with
  | 0 => exact absurd h (by omega)
  | m + 1 =>
    cases l with
    | nil => simp [transform_binary_elem_listF, transform_binary_elem_list]
    | cons e es =>
      simp only [transform_binary_elem_listF, transform_binary_elem_list]
      rw [transform_binary_elemF_adequate tr m e (by simp at h; omega)]
      refine fuel_bind_congr _ _ _ (fun a ha => ?_)
      rw [transform_binary_elem_listF_adequate tr m es (by simp at h; omega)]
      exact fuel_bind_congr _ _ _ (fun b hb => rfl)
termination_by n
decreasing_by all_goals simp_wf; all_goals omega

theorem transform_pat_binary_elem_listF_adequate {T : Type} (tr : Transformer T) (n : Nat)
    (l : List PatBinaryElem) (h : 2 * sizeOf l < n) :
    transform_pat_binary_elem_listF tr n l =
      some (transform_pat_binary_elem_list tr l) := by
  match n with
  | 0 => exact absurd h (by omega)
  | m + 1 =>
    cases l with
    | nil => simp [transform_pat_binary_elem_listF, transform_pat_binary_elem_list]
    | cons e es =>
      simp only [transform_pat_binary_elem_listF, transform_pat_binary_elem_list]
      rw [transform_pat_binary_elemF_adequate tr m e (by simp at h; omega)]
      refine fuel_bind_congr _ _ _ (fun a ha => ?_)
      rw [transform_pat_binary_elem_listF_adequate tr m es (by simp at h; omega)]
      exact fuel_bind_congr _ _ _ (fun b hb => rfl)
termination_by n
decreasing_by all_goals simp_wf; all_goals omega

theorem transform_record_field_listF_adequate {T : Type} (tr : Transformer T) (n : Nat)
    (l : List RecordField) (h : 2 * sizeOf l < n) :
    transform_record_field_listF tr n l = some (transform_record_field_list tr l) := by
  match n with
  | 0 => exact absurd h (by omega)
  | m + 1 =>
    cases l with
    | nil => simp [transform_record_field_listF, transform_record_field_list]
    | cons f fs =>
      simp only [transform_record_field_listF, transform_record_field_list]
      rw [transform_record_fieldF_adequate tr m f (by simp at h; omega)]
      refine fuel_bind_congr _ _ _ (fun a ha => ?_)
      rw [transform_record_field_listF_adequate tr m fs (by simp at h; omega)]
      exact fuel_bind_congr _ _ _ (fun b hb => rfl)
termination_by n
decreasing_by all_goals simp_wf; all_goals omega

theorem transform_expr_kv_listF_adequate {T : Type} (tr : Transformer T) (n : Nat)
    (l : List (Expr × Expr)) (h : 2 * sizeOf l < n) :
    transform_expr_kv_listF tr n l = some (transform_expr_kv_list tr l) := by
  match n with
  | 0 => exact absurd h (by omega)
  | m + 1 =>
    cases l with
    | nil => simp [transform_expr_kv_listF, transform_expr_kv_list]
    | cons kv kvs =>
      obtain ⟨k, v⟩ := kv
      simp only [transform_expr_kv_listF, transform_expr_kv_list]
      rw [transform_exprF_adequate tr m k (by simp at h; omega)]
      refine fuel_bind_congr _ _ _ (fun a ha => ?_)
      rw [transform_exprF_adequate tr m v (by simp at h; omega)]
      refine fuel_bind_congr _ _ _ (fun b hb => ?_)
      rw [transform_expr_kv_listF_adequate tr m kvs (by simp at h; omega)]
      exact fuel_bind_congr _ _ _ (fun c2 hc2 => rfl)
termination_by n
decreasing_by all_goals simp_wf; all_goals omega

theorem transform_record_update_field_listF_adequate {T : Type} (tr : Transformer T)
    (n : Nat) (l : List RecordFieldNamed) (h : 2 * sizeOf l < n) :
    transform_record_update_field_listF tr n l =
      some (transform_record_update_field_list tr l) := by
  match n with
  | 0 => exact absurd h (by omega)
  | m + 1 =>
    cases l with
    | nil => simp [transform_record_update_field_listF, transform_record_update_field_list]
    | cons f fs =>
      obtain ⟨name, value⟩ := f
      simp only [transform_record_update_field_listF, transform_record_update_field_list]
      rw [transform_exprF_adequate tr m value (by simp at h; omega)]
      refine fuel_bind_congr _ _ _ (fun a ha => ?_)
      rw [transform_record_update_field_listF_adequate tr m fs (by simp at h; omega)]
      exact fuel_bind_congr _ _ _ (fun b hb => rfl)
termination_by n
decreasing_by all_goals simp_wf; all_goals omega

theorem transform_pat_record_field_listF_adequate {T : Type} (tr : Transformer T)
    (n : Nat) (l : List PatRecordFieldNamed) (h : 2 * sizeOf l < n) :
    transform_pat_record_field_listF tr n l =
      some (transform_pat_record_field_list tr l) := by
  match n with
  | 0 => exact absurd h (by omega)
  | m + 1 =>
    cases l with
    | nil => simp [transform_pat_record_field_listF, transform_pat_record_field_list]
    | cons f fs =>
      obtain ⟨name, pat⟩ := f
      simp only [transform_pat_record_field_listF, transform_pat_record_field_list]
      rw [transform_patF_adequate tr m pat (by simp at h; omega)]
      refine fuel_bind_congr _ _ _ (fun a ha => ?_)
      rw [transform_pat_record_field_listF_adequate tr m fs (by simp at h; omega)]
      exact fuel_bind_congr _ _ _ (fun b hb => rfl)
termination_by n
decreasing_by all_goals simp_wf; all_goals omega

theorem transform_test_pat_kv_listF_adequate {T : Type} (tr : Transformer T) (n : Nat)
    (l : List (Test × Pat)) (h : 2 * sizeOf l < n) :
    transform_test_pat_kv_listF tr n l = some (transform_test_pat_kv_list tr l) := by
  match n with
  | 0 => exact absurd h (by omega)
  | m + 1 =>
    cases l with
    | nil => simp [transform_test_pat_kv_listF, transform_test_pat_kv_list]
    | cons kv kvs =>
      obtain ⟨k, v⟩ := kv
      simp only [transform_test_pat_kv_listF, transform_test_pat_kv_list]
      rw [transform_testF_adequate tr m k (by simp at h; omega)]
      refine fuel_bind_congr _ _ _ (fun a ha => ?_)
      rw [transform_patF_adequate tr m v (by simp at h; omega)]
      refine fuel_bind_congr _ _ _ (fun b hb => ?_)
      rw [transform_test_pat_kv_listF_adequate tr m kvs (by simp at h; omega)]
      exact fuel_bind_congr _ _ _ (fun c2 hc2 => rfl)
termination_by n
decreasing_by all_goals simp_wf; all_goals omega

theorem transform_option_exprF_adequate {T : Type} (tr : Transformer T) (n : Nat)
    (o : Option Expr) (h : 2 * sizeOf o < n) :
    transform_option_exprF tr n o = some (transform_option_expr tr o) := by
  match n with
  | 0 => exact absurd h (by omega)
  | m + 1 =>
    cases o with
    | none => simp [transform_option_exprF, transform_option_expr]
    | some s =>
      simp only [transform_option_exprF, transform_option_expr]
      rw [transform_exprF_adequate tr m s (by simp at h; omega)]
      cases hx : transform_expr tr s with
      | error e => simp [hx]
      | ok s' => simp [hx]
termination_by n
decreasing_by all_goals simp_wf; all_goals omega

theorem transform_option_bodyF_adequate {T : Type} (tr : Transformer T) (n : Nat)
    (o : Option Body) (h : 2 * sizeOf o < n) :
    transform_option_bodyF tr n o = some (transform_option_body tr o) := by
  match n with
  | 0 => exact absurd h (by omega)
  | m + 1 =>
    cases o with
    | none => simp [transform_option_bodyF, transform_option_body]
    | some b =>
      simp only [transform_option_bodyF, transform_option_body]
      rw [transform_bodyF_adequate tr m b (by simp at h; omega)]
      cases hx : transform_body tr b with
      | error e => simp [hx]
      | ok b' => simp [hx]
termination_by n
decreasing_by all_goals simp_wf; all_goals omega

theorem transform_option_patF_adequate {T : Type} (tr : Transformer T) (n : Nat)
    (o : Option Pat) (h : 2 * sizeOf o < n) :
    transform_option_patF tr n o = some (transform_option_pat tr o) := by
  match n with
  | 0 => exact absurd h (by omega)
  | m + 1 =>
    cases o with
    | none => simp [transform_option_patF, transform_option_pat]
    | some g =>
      simp only [transform_option_patF, transform_option_pat]
      rw [transform_patF_adequate tr m g (by simp at h; omega)]
      cases hx : transform_pat tr g with
      | error e => simp [hx]
      | ok g' => simp [hx]
termination_by n
decreasing_by all_goals simp_wf; all_goals omega

theorem walk_bodyF_adequate {T : Type} (tr : Transformer T) (n : Nat) (b : Body)
    (h : 2 * sizeOf b < n) :
    walk_bodyF tr n b = some (walk_body tr b) := by
  match n with
  | 0 => exact absurd h (by omega)
  | m + 1 =>
    cases b with
    | mk exprs =>
      simp only [walk_bodyF, walk_body]
      rw [transform_expr_listF_adequate tr m exprs (by simp at h; omega)]
      exact fuel_bind_congr _ _ _ (fun a ha => rfl)
termination_by n
decreasing_by all_goals simp_wf; all_goals omega

theorem walk_clauseF_adequate {T : Type} (tr : Transformer T) (n : Nat) (c : Clause)
    (h : 2 * sizeOf c < n) :
    walk_clauseF tr n c = some (walk_clause tr c) := by
  match n with
  | 0 => exact absurd h (by omega)
  | m + 1 =>
    cases c with
    | mk location pats guards body =>
      simp only [walk_clauseF, walk_clause]
      rw [transform_pat_listF_adequate tr m pats (by simp at h; omega)]
      refine fuel_bind_congr _ _ _ (fun a ha => ?_)
      rw [transform_guard_listF_adequate tr m guards (by simp at h; omega)]
      refine fuel_bind_congr _ _ _ (fun b hb => ?_)
      rw [transform_bodyF_adequate tr m body (by simp at h; omega)]
      exact fuel_bind_congr _ _ _ (fun c2 hc2 => rfl)
termination_by n
decreasing_by all_goals simp_wf; all_goals omega

theorem walk_qualifierF_adequate {T : Type} (tr : Transformer T) (n : Nat) (q : Qualifier)
    (h : 2 * sizeOf q < n) :
    walk_qualifierF tr n q = some (walk_qualifier tr q) := by
  match n with
  | 0 => exact absurd h (by omega)
  | m + 1 =>
    cases q with
    | LGenerate pat expr =>
      simp only [walk_qualifierF, walk_qualifier]
      rw [transform_patF_adequate tr m pat (by simp at h; omega)]
      refine fuel_bind_congr _ _ _ (fun a ha => ?_)
      rw [transform_exprF_adequate tr m expr (by simp at h; omega)]
      exact fuel_bind_congr _ _ _ (fun b hb => rfl)
    | BGenerate pat expr =>
      simp only [walk_qualifierF, walk_qualifier]
      rw [transform_patF_adequate tr m pat (by simp at h; omega)]
      refine fuel_bind_congr _ _ _ (fun a ha => ?_)
      rw [transform_exprF_adequate tr m expr (by simp at h; omega)]
      exact fuel_bind_congr _ _ _ (fun b hb => rfl)
    | MGenerate k_pat v_pat expr =>
      simp only [walk_qualifierF, walk_qualifier]
      rw [transform_patF_adequate tr m k_pat (by simp at h; omega)]
      refine fuel_bind_congr _ _ _ (fun a ha => ?_)
      rw [transform_patF_adequate tr m v_pat (by simp at h; omega)]
      refine fuel_bind_congr _ _ _ (fun b hb => ?_)
      rw [transform_exprF_adequate tr m expr (by simp at h; omega)]
      exact fuel_bind_congr _ _ _ (fun c2 hc2 => rfl)
    | Filter expr =>
      simp only [walk_qualifierF, walk_qualifier]
      rw [transform_exprF_adequate tr m expr (by simp at h; omega)]
      exact fuel_bind_congr _ _ _ (fun a ha => rfl)
termination_by n
decreasing_by all_goals simp_wf; all_goals omega

theorem walk_binary_elemF_adequate {T : Type} (tr : Transformer T) (n : Nat)
    (elem : BinaryElem) (h : 2 * sizeOf elem < n) :
    walk_binary_elemF tr n elem = some (walk_binary_elem tr elem) := by
  match n with
  | 0 => exact absurd h (by omega)
  | m + 1 =>
    cases elem with
    | mk location specifier expr size =>
      simp only [walk_binary_elemF, walk_binary_elem]
      rw [transform_exprF_adequate tr m expr (by simp at h; omega)]
      refine fuel_bind_congr _ _ _ (fun a ha => ?_)
      rw [transform_option_exprF_adequate tr m size (by simp at h; omega)]
      exact fuel_bind_congr _ _ _ (fun b hb => rfl)
termination_by n
decreasing_by all_goals simp_wf; all_goals omega

theorem walk_record_fieldF_adequate {T : Type} (tr : Transformer T) (n : Nat)
    (field : RecordField) (h : 2 * sizeOf field < n) :
    walk_record_fieldF tr n field = some (walk_record_field tr field) := by
  match n with
  | 0 => exact absurd h (by omega)
  | m + 1 =>
    cases field with
    | RecordFieldGen value =>
      simp only [walk_record_fieldF, walk_record_field]
      rw [transform_exprF_adequate tr m value (by simp at h; omega)]
      exact fuel_bind_congr _ _ _ (fun a ha => rfl)
    | RecordFieldNamed name value =>
      simp only [walk_record_fieldF, walk_record_field]
      rw [transform_exprF_adequate tr m value (by simp at h; omega)]
      exact fuel_bind_congr _ _ _ (fun a ha => rfl)
termination_by n
decreasing_by all_goals simp_wf; all_goals omega

theorem walk_cons_goF_adequate {T : Type} (tr : Transformer T) (n : Nat)
    (transformed_elems : List (Loc × Expr)) (location : Loc) (hd : Expr) (tl : Expr)
    (h : 2 * (sizeOf hd + sizeOf tl) + 2 < n) :
    walk_cons_goF tr n transformed_elems location hd tl =
      some (walk_cons_go tr transformed_elems location hd tl) := by
  match n with
  | 0 => exact absurd h (by omega)
  | m + 1 =>
    simp only [walk_cons_goF]
    rw [walk_cons_go]
    rw [transform_exprF_adequate tr m hd (by omega)]
    refine fuel_bind_congr _ _ _ (fun a ha => ?_)
    exact walk_cons_tailF_adequate tr m (transformed_elems ++ [(location, a)]) tl
      (by have h2 := expr_sizeOf_pos hd; omega)
termination_by n
decreasing_by all_goals simp_wf; all_goals omega

theorem walk_cons_tailF_adequate {T : Type} (tr : Transformer T) (n : Nat)
    (transformed_elems : List (Loc × Expr)) (t : Expr)
    (h : 2 * sizeOf t + 2 < n) :
    walk_cons_tailF tr n transformed_elems t =
      some (walk_cons_tail tr transformed_elems t) := by
  match n with
  | 0 => exact absurd h (by omega)
  | m + 1 =>
    by_cases hc : ∃ l2 h2 t2, t = Expr.Cons l2 h2 t2
    · obtain ⟨l2, h2, t2, he⟩ := hc
      subst he
      rw [walk_cons_tailF.eq_2, walk_cons_tail.eq_1]
      exact walk_cons_goF_adequate tr m transformed_elems l2 h2 t2 (by simp at h; omega)
    · have hnc : ∀ (l2 : Loc) (h2 t2 : Expr), t = Expr.Cons l2 h2 t2 → False :=
        fun l2 h2 t2 hq => hc ⟨l2, h2, t2, hq⟩
      rw [walk_cons_tailF.eq_3 _ _ _ _ hnc, walk_cons_tail.eq_2 _ _ _ hnc]
      rw [transform_exprF_adequate tr m t (by omega)]
      exact fuel_bind_congr _ _ _ (fun a ha => rfl)
termination_by n
decreasing_by all_goals simp_wf; all_goals omega

theorem walk_exprF_adequate {T : Type} (tr : Transformer T) (n : Nat) (e : Expr)
    (h : 2 * sizeOf e < n) :
    walk_exprF tr n e = some (walk_expr tr e) := by
  match n with
  | 0 => exact absurd h (by omega)
  | m + 1 =>
    cases e with
    | Var v => simp [walk_exprF, walk_expr]
    | AtomLit a => simp [walk_exprF, walk_expr]
    | IntLit i => simp [walk_exprF, walk_expr]
    | FloatLit f => simp [walk_exprF, walk_expr]
    | Block location body =>
      simp only [walk_exprF, walk_expr]
      rw [transform_bodyF_adequate tr m body (by simp at h; omega)]
      exact fuel_bind_congr _ _ _ (fun a ha => rfl)
    | Match location pat expr =>
      simp only [walk_exprF, walk_expr]
      rw [transform_patF_adequate tr m pat (by simp at h; omega)]
      refine fuel_bind_congr _ _ _ (fun a ha => ?_)
      rw [transform_exprF_adequate tr m expr (by simp at h; omega)]
      exact fuel_bind_congr _ _ _ (fun b hb => rfl)
    | Tuple location elems =>
      simp only [walk_exprF, walk_expr]
      rw [transform_expr_listF_adequate tr m elems (by simp at h; omega)]
      exact fuel_bind_congr _ _ _ (fun a ha => rfl)
    | StringLit s => simp [walk_exprF, walk_expr]
    | NilLit nl => simp [walk_exprF, walk_expr]
    | Cons location hd tl =>
      simp only [walk_exprF]
      rw [walk_expr]
      exact walk_cons_goF_adequate tr m [] location hd tl
        (by have h2 := loc_sizeOf_pos location; simp at h; omega)
    | Case location expr clauses =>
      simp only [walk_exprF, walk_expr]
      rw [transform_exprF_adequate tr m expr (by simp at h; omega)]
      refine fuel_bind_congr _ _ _ (fun a ha => ?_)
      rw [transform_clause_listF_adequate tr m clauses (by simp at h; omega)]
      exact fuel_bind_congr _ _ _ (fun b hb => rfl)
    | If location clauses =>
      simp only [walk_exprF, walk_expr]
      rw [transform_clause_listF_adequate tr m clauses (by simp at h; omega)]
      exact fuel_bind_congr _ _ _ (fun a ha => rfl)
    | LocalCall location id args =>
      simp only [walk_exprF, walk_expr]
      rw [transform_expr_listF_adequate tr m args (by simp at h; omega)]
      exact fuel_bind_congr _ _ _ (fun a ha => rfl)
    | DynCall location f args =>
      simp only [walk_exprF, walk_expr]
      rw [transform_exprF_adequate tr m f (by simp at h; omega)]
      refine fuel_bind_congr _ _ _ (fun a ha => ?_)
      rw [transform_expr_listF_adequate tr m args (by simp at h; omega)]
      exact fuel_bind_congr _ _ _ (fun b hb => rfl)
    | RemoteCall location id args =>
      simp only [walk_exprF, walk_expr]
      rw [transform_expr_listF_adequate tr m args (by simp at h; omega)]
      exact fuel_bind_congr _ _ _ (fun a ha => rfl)
    | LocalFun f => simp [walk_exprF, walk_expr]
    | RemoteFun f => simp [walk_exprF, walk_expr]
    | DynRemoteFun location module name =>
      simp only [walk_exprF, walk_expr]
      rw [transform_exprF_adequate tr m module (by simp at h; omega)]
      refine fuel_bind_congr _ _ _ (fun a ha => ?_)
      rw [transform_exprF_adequate tr m name (by simp at h; omega)]
      exact fuel_bind_congr _ _ _ (fun b hb => rfl)
    | DynRemoteFunArity location module name arity =>
      simp only [walk_exprF, walk_expr]
      rw [transform_exprF_adequate tr m module (by simp at h; omega)]
      refine fuel_bind_congr _ _ _ (fun a ha => ?_)
      rw [transform_exprF_adequate tr m name (by simp at h; omega)]
      refine fuel_bind_congr _ _ _ (fun b hb => ?_)
      rw [transform_exprF_adequate tr m arity (by simp at h; omega)]
      exact fuel_bind_congr _ _ _ (fun c2 hc2 => rfl)
    | Lambda location clauses name =>
      simp only [walk_exprF, walk_expr]
      rw [transform_clause_listF_adequate tr m clauses (by simp at h; omega)]
      exact fuel_bind_congr _ _ _ (fun a ha => rfl)
    | UnOp location op arg =>
      simp only [walk_exprF, walk_expr]
      rw [transform_exprF_adequate tr m arg (by simp at h; omega)]
      exact fuel_bind_congr _ _ _ (fun a ha => rfl)
    | BinOp location op arg_1 arg_2 =>
      simp only [walk_exprF, walk_expr]
      rw [transform_exprF_adequate tr m arg_1 (by simp at h; omega)]
      refine fuel_bind_congr _ _ _ (fun a ha => ?_)
      rw [transform_exprF_adequate tr m arg_2 (by simp at h; omega)]
      exact fuel_bind_congr _ _ _ (fun b hb => rfl)
    | LComprehension location template qualifiers =>
      simp only [walk_exprF, walk_expr]
      rw [transform_exprF_adequate tr m template (by simp at h; omega)]
      refine fuel_bind_congr _ _ _ (fun a ha => ?_)
      rw [transform_qualifier_listF_adequate tr m qualifiers (by simp at h; omega)]
      exact fuel_bind_congr _ _ _ (fun b hb => rfl)
    | BComprehension location template qualifiers =>
      simp only [walk_exprF, walk_expr]
      rw [transform_exprF_adequate tr m template (by simp at h; omega)]
      refine fuel_bind_congr _ _ _ (fun a ha => ?_)
      rw [transform_qualifier_listF_adequate tr m qualifiers (by simp at h; omega)]
      exact fuel_bind_congr _ _ _ (fun b hb => rfl)
    | MComprehension location k_template v_template qualifiers =>
      simp only [walk_exprF, walk_expr]
      rw [transform_exprF_adequate tr m k_template (by simp at h; omega)]
      refine fuel_bind_congr _ _ _ (fun a ha => ?_)
      rw [transform_exprF_adequate tr m v_template (by simp at h; omega)]
      refine fuel_bind_congr _ _ _ (fun b hb => ?_)
      rw [transform_qualifier_listF_adequate tr m qualifiers (by simp at h; omega)]
      exact fuel_bind_congr _ _ _ (fun c2 hc2 => rfl)
    | Binary location elems =>
      simp only [walk_exprF, walk_expr]
      rw [transform_binary_elem_listF_adequate tr m elems (by simp at h; omega)]
      exact fuel_bind_congr _ _ _ (fun a ha => rfl)
    | Catch location expr =>
      simp only [walk_exprF, walk_expr]
      rw [transform_exprF_adequate tr m expr (by simp at h; omega)]
      exact fuel_bind_congr _ _ _ (fun a ha => rfl)
    | TryCatchExpr location try_body catch_clauses after_body =>
      simp only [walk_exprF, walk_expr]
      rw [transform_bodyF_adequate tr m try_body (by simp at h; omega)]
      refine fuel_bind_congr _ _ _ (fun a ha => ?_)
      rw [transform_clause_listF_adequate tr m catch_clauses (by simp at h; omega)]
      refine fuel_bind_congr _ _ _ (fun b hb => ?_)
      rw [transform_option_bodyF_adequate tr m after_body (by simp at h; omega)]
      exact fuel_bind_congr _ _ _ (fun c2 hc2 => rfl)
    | TryOfCatchExpr location try_body try_clauses catch_clauses after_body =>
      simp only [walk_exprF, walk_expr]
      rw [transform_bodyF_adequate tr m try_body (by simp at h; omega)]
      refine fuel_bind_congr _ _ _ (fun a ha => ?_)
      rw [transform_clause_listF_adequate tr m try_clauses (by simp at h; omega)]
      refine fuel_bind_congr _ _ _ (fun b hb => ?_)
      rw [transform_clause_listF_adequate tr m catch_clauses (by simp at h; omega)]
      refine fuel_bind_congr _ _ _ (fun c2 hc2 => ?_)
      rw [transform_option_bodyF_adequate tr m after_body (by simp at h; omega)]
      exact fuel_bind_congr _ _ _ (fun d2 hd2 => rfl)
    | Receive location clauses =>
      simp only [walk_exprF, walk_expr]
      rw [transform_clause_listF_adequate tr m clauses (by simp at h; omega)]
      exact fuel_bind_congr _ _ _ (fun a ha => rfl)
    | ReceiveWithTimeout location clauses timeout timeout_body =>
      simp only [walk_exprF, walk_expr]
      rw [transform_clause_listF_adequate tr m clauses (by simp at h; omega)]
      refine fuel_bind_congr _ _ _ (fun a ha => ?_)
      rw [transform_exprF_adequate tr m timeout (by simp at h; omega)]
      refine fuel_bind_congr _ _ _ (fun b hb => ?_)
      rw [transform_bodyF_adequate tr m timeout_body (by simp at h; omega)]
      exact fuel_bind_congr _ _ _ (fun c2 hc2 => rfl)
    | RecordCreate location rec_name fields =>
      simp only [walk_exprF, walk_expr]
      rw [transform_record_field_listF_adequate tr m fields (by simp at h; omega)]
      exact fuel_bind_congr _ _ _ (fun a ha => rfl)
    | RecordUpdate location rec_name expr fields =>
      simp only [walk_exprF, walk_expr]
      rw [transform_exprF_adequate tr m expr (by simp at h; omega)]
      refine fuel_bind_congr _ _ _ (fun a ha => ?_)
      rw [transform_record_update_field_listF_adequate tr m fields (by simp at h; omega)]
      exact fuel_bind_congr _ _ _ (fun b hb => rfl)
    | RecordSelect location rec_name field_name expr =>
      simp only [walk_exprF, walk_expr]
      rw [transform_exprF_adequate tr m expr (by simp at h; omega)]
      exact fuel_bind_congr _ _ _ (fun a ha => rfl)
    | RecordIndex r => simp [walk_exprF, walk_expr]
    | MapCreate location kvs =>
      simp only [walk_exprF, walk_expr]
      rw [transform_expr_kv_listF_adequate tr m kvs (by simp at h; omega)]
      exact fuel_bind_congr _ _ _ (fun a ha => rfl)
    | MapUpdate location map kvs =>
      simp only [walk_exprF, walk_expr]
      rw [transform_exprF_adequate tr m map (by simp at h; omega)]
      refine fuel_bind_congr _ _ _ (fun a ha => ?_)
      rw [transform_expr_kv_listF_adequate tr m kvs (by simp at h; omega)]
      exact fuel_bind_congr _ _ _ (fun b hb => rfl)
    | Maybe location body =>
      simp only [walk_exprF, walk_expr]
      rw [transform_bodyF_adequate tr m body (by simp at h; omega)]
      exact fuel_bind_congr _ _ _ (fun a ha => rfl)
    | MaybeElse location body else_clauses =>
      simp only [walk_exprF, walk_expr]
      rw [transform_bodyF_adequate tr m body (by simp at h; omega)]
      refine fuel_bind_congr _ _ _ (fun a ha => ?_)
      rw [transform_clause_listF_adequate tr m else_clauses (by simp at h; omega)]
      exact fuel_bind_congr _ _ _ (fun b hb => rfl)
    | MaybeMatch location pat arg =>
      simp only [walk_exprF, walk_expr]
      rw [transform_patF_adequate tr m pat (by simp at h; omega)]
      refine fuel_bind_congr _ _ _ (fun a ha => ?_)
      rw [transform_exprF_adequate tr m arg (by simp at h; omega)]
      exact fuel_bind_congr _ _ _ (fun b hb => rfl)
termination_by n
decreasing_by all_goals simp_wf; all_goals omega

theorem walk_pat_binary_elemF_adequate {T : Type} (tr : Transformer T) (n : Nat)
    (elem : PatBinaryElem) (h : 2 * sizeOf elem < n) :
    walk_pat_binary_elemF tr n elem = some (walk_pat_binary_elem tr elem) := by
  match n with
  | 0 => exact absurd h (by omega)
  | m + 1 =>
    cases elem with
    | mk location specifier pat size =>
      simp only [walk_pat_binary_elemF, walk_pat_binary_elem]
      rw [transform_patF_adequate tr m pat (by simp at h; omega)]
      refine fuel_bind_congr _ _ _ (fun a ha => ?_)
      rw [transform_option_exprF_adequate tr m size (by simp at h; omega)]
      exact fuel_bind_congr _ _ _ (fun b hb => rfl)
termination_by n
decreasing_by all_goals simp_wf; all_goals omega

theorem walk_patF_adequate {T : Type} (tr : Transformer T) (n : Nat) (p : Pat)
    (h : 2 * sizeOf p < n) :
    walk_patF tr n p = some (walk_pat tr p) := by
  match n with
  | 0 => exact absurd h (by omega)
  | m + 1 =>
    cases p with
    | PatWild q => simp [walk_patF, walk_pat]
    | PatMatch location pat arg =>
      simp only [walk_patF, walk_pat]
      rw [transform_patF_adequate tr m pat (by simp at h; omega)]
      refine fuel_bind_congr _ _ _ (fun a ha => ?_)
      rw [transform_patF_adequate tr m arg (by simp at h; omega)]
      exact fuel_bind_congr _ _ _ (fun b hb => rfl)
    | PatTuple location elems =>
      simp only [walk_patF, walk_pat]
      rw [transform_pat_listF_adequate tr m elems (by simp at h; omega)]
      exact fuel_bind_congr _ _ _ (fun a ha => rfl)
    | PatString s => simp [walk_patF, walk_pat]
    | PatNil nl => simp [walk_patF, walk_pat]
    | PatCons location hd tl =>
      simp only [walk_patF, walk_pat]
      rw [transform_patF_adequate tr m hd (by simp at h; omega)]
      refine fuel_bind_congr _ _ _ (fun a ha => ?_)
      rw [transform_patF_adequate tr m tl (by simp at h; omega)]
      exact fuel_bind_congr _ _ _ (fun b hb => rfl)
    | PatInt i => simp [walk_patF, walk_pat]
    | PatNumber nl => simp [walk_patF, walk_pat]
    | PatAtom a => simp [walk_patF, walk_pat]
    | PatVar v => simp [walk_patF, walk_pat]
    | PatRecord location rec_name fields gen =>
      simp only [walk_patF, walk_pat]
      rw [transform_pat_record_field_listF_adequate tr m fields (by simp at h; omega)]
      refine fuel_bind_congr _ _ _ (fun a ha => ?_)
      rw [transform_option_patF_adequate tr m gen (by simp at h; omega)]
      exact fuel_bind_congr _ _ _ (fun b hb => rfl)
    | PatRecordIndex r => simp [walk_patF, walk_pat]
    | PatUnOp location op arg =>
      simp only [walk_patF, walk_pat]
      rw [transform_patF_adequate tr m arg (by simp at h; omega)]
      exact fuel_bind_congr _ _ _ (fun a ha => rfl)
    | PatBinOp location op arg_1 arg_2 =>
      simp only [walk_patF, walk_pat]
      rw [transform_patF_adequate tr m arg_1 (by simp at h; omega)]
      refine fuel_bind_congr _ _ _ (fun a ha => ?_)
      rw [transform_patF_adequate tr m arg_2 (by simp at h; omega)]
      exact fuel_bind_congr _ _ _ (fun b hb => rfl)
    | PatBinary location elems =>
      simp only [walk_patF, walk_pat]
      rw [transform_pat_binary_elem_listF_adequate tr m elems (by simp at h; omega)]
      exact fuel_bind_congr _ _ _ (fun a ha => rfl)
    | PatMap location kvs =>
      simp only [walk_patF, walk_pat]
      rw [transform_test_pat_kv_listF_adequate tr m kvs (by simp at h; omega)]
      exact fuel_bind_congr _ _ _ (fun a ha => rfl)
termination_by n
decreasing_by all_goals simp_wf; all_goals omega

end

set_option maxHeartbeats 1600000

/-! ### Adequacy of the budgeted form and whole-AST walks -/

theorem transform_external_rec_field_listF_adequate {T : Type} (tr : Transformer T)
    (n : Nat) (l : List ExternalRecField) (h : 2 * sizeOf l < n) :
    transform_external_rec_field_listF tr n l =
      some (transform_external_rec_field_list tr l) := by
  match n with
  | 0 => exact absurd h (by omega)
  | m + 1 =>
    cases l with
    | nil => simp [transform_external_rec_field_listF, transform_external_rec_field_list]
    | cons f fs =>
      obtain ⟨name, tp, dv⟩ := f
      simp only [transform_external_rec_field_listF, transform_external_rec_field_list]
      rw [transform_option_exprF_adequate tr m dv (by simp at h; omega)]
      refine fuel_bind_congr _ _ _ (fun a ha => ?_)
      rw [transform_external_rec_field_listF_adequate tr m fs (by simp at h; omega)]
      exact fuel_bind_congr _ _ _ (fun b hb => rfl)
termination_by n
decreasing_by all_goals simp_wf; all_goals omega

theorem walk_formF_adequate {T : Type} (tr : Transformer T) (n : Nat)
    (form : ExternalForm) (h : 2 * sizeOf form < n) :
    walk_formF tr n form = some (walk_form tr form) := by
  match n with
  | 0 => exact absurd h (by omega)
  | m + 1 =>
    cases form with
    | FunDecl location id clauses =>
      simp only [walk_formF, walk_form]
      rw [transform_clause_listF_adequate tr m clauses (by simp at h; omega)]
      exact fuel_bind_congr _ _ _ (fun a ha => rfl)
    | ExternalRecDecl location name file fields =>
      simp only [walk_formF, walk_form]
      rw [transform_external_rec_field_listF_adequate tr m fields (by simp at h; omega)]
      exact fuel_bind_congr _ _ _ (fun a ha => rfl)
    | _ => simp [walk_formF, walk_form]

theorem transform_formF_adequate {T : Type} (tr : Transformer T) (n : Nat)
    (form : ExternalForm) (h : 2 * sizeOf form + 1 < n) :
    transform_formF tr n form = some (transform_form tr form) := by
  match n with
  | 0 => exact absurd h (by omega)
  | m + 1 =>
    rw [transform_formF, transform_form]
    cases ho : tr.o_form with
    | some f => simp [ho]
    | none =>
      simp only [ho]
      exact walk_formF_adequate tr m form (by omega)

theorem transform_form_listF_adequate {T : Type} (tr : Transformer T) (n : Nat)
    (l : List ExternalForm) (h : 2 * sizeOf l < n) :
    transform_form_listF tr n l = some (transform_form_list tr l) := by
  match n with
  | 0 => exact absurd h (by omega)
  | m + 1 =>
    cases l with
    | nil => simp [transform_form_listF, transform_form_list]
    | cons f fs =>
      simp only [transform_form_listF, transform_form_list]
      rw [transform_formF_adequate tr m f (by simp at h; omega)]
      refine fuel_bind_congr _ _ _ (fun a ha => ?_)
      rw [transform_form_listF_adequate tr m fs (by simp at h; omega)]
      exact fuel_bind_congr _ _ _ (fun b hb => rfl)
termination_by n
decreasing_by all_goals simp_wf; all_goals omega

theorem transform_astF_adequate {T : Type} (tr : Transformer T) (n : Nat) (ast : AST)
    (h : 2 * sizeOf ast + 1 < n) :
    transform_astF tr n ast = some (transform_ast tr ast) := by
  match n with
  | 0 => exact absurd h (by omega)
  | m + 1 =>
    rw [transform_astF, transform_ast]
    cases ho : tr.o_ast with
    | some f => simp [ho]
    | none =>
      simp only [ho]
      exact transform_form_listF_adequate tr m ast (by omega)

/-- C8: Termination: every default-walk entry point, re-run under an
explicit recursion budget that every call consumes, completes — returning
exactly the walk's result — whenever the budget exceeds a bound linear in
the size of the input tree.  The recursion of the default walks is thus
structurally bounded by the finite tree for every transformer: no
unbounded loop is available to a pass (overrides, being functions of the
embedding, terminate by assumption). -/
theorem C8_termination {T : Type} (tr : Transformer T) :
    (∀ (n : Nat) (ast : AST), 2 * sizeOf ast + 1 < n →
      transform_astF tr n ast = some (transform_ast tr ast)) ∧
    (∀ (n : Nat) (form : ExternalForm), 2 * sizeOf form + 1 < n →
      transform_formF tr n form = some (transform_form tr form)) ∧
    (∀ (n : Nat) (e : Expr), 2 * sizeOf e + 1 < n →
      transform_exprF tr n e = some (transform_expr tr e)) ∧
    (∀ (n : Nat) (p : Pat), 2 * sizeOf p + 1 < n →
      transform_patF tr n p = some (transform_pat tr p)) ∧
    (∀ (n : Nat) (t : Test), 2 * sizeOf t + 1 < n →
      transform_testF tr n t = some (transform_test tr t)) ∧
    (∀ (n : Nat) (c : Clause), 2 * sizeOf c + 1 < n →
      transform_clauseF tr n c = some (transform_clause tr c)) ∧
    (∀ (n : Nat) (b : Body), 2 * sizeOf b + 1 < n →
      transform_bodyF tr n b = some (transform_body tr b)) ∧
    (∀ (n : Nat) (g : Guard), 2 * sizeOf g + 1 < n →
      transform_guardF tr n g = some (transform_guard tr g)) ∧
    (∀ (n : Nat) (q : Qualifier), 2 * sizeOf q + 1 < n →
      transform_qualifierF tr n q = some (transform_qualifier tr q)) ∧
    (∀ (n : Nat) (elem : BinaryElem), 2 * sizeOf elem + 1 < n →
      transform_binary_elemF tr n elem = some (transform_binary_elem tr elem)) ∧
    (∀ (n : Nat) (elem : PatBinaryElem), 2 * sizeOf elem + 1 < n →
      transform_pat_binary_elemF tr n elem = some (transform_pat_binary_elem tr elem)) ∧
    (∀ (n : Nat) (f : RecordField), 2 * sizeOf f + 1 < n →
      transform_record_fieldF tr n f = some (transform_record_field tr f)) ∧
    (∀ (n : Nat) (f : TestRecordField), 2 * sizeOf f + 1 < n →
      transform_test_record_fieldF tr n f = some (transform_test_record_field tr f)) :=
  ⟨fun n ast h => transform_astF_adequate tr n ast h,
    fun n form h => transform_formF_adequate tr n form h,
    fun n e h => transform_exprF_adequate tr n e h,
    fun n p h => transform_patF_adequate tr n p h,
    fun n t h => transform_testF_adequate tr n t h,
    fun n c h => transform_clauseF_adequate tr n c h,
    fun n b h => transform_bodyF_adequate tr n b h,
    fun n g h => transform_guardF_adequate tr n g h,
    fun n q h => transform_qualifierF_adequate tr n q h,
    fun n elem h => transform_binary_elemF_adequate tr n elem h,
    fun n elem h => transform_pat_binary_elemF_adequate tr n elem h,
    fun n f h => transform_record_fieldF_adequate tr n f h,
    fun n f h => transform_test_record_fieldF_adequate tr n f h⟩

theorem C8_termination_witness :
    transform_exprF (default_transformer Nat) 1000 (Expr.Var "x") =
      some (transform_expr (default_transformer Nat) (Expr.Var "x")) :=
  (C8_termination (default_transformer Nat)).2.2.1 1000 (Expr.Var "x") (by decide)

end Eqwalizer
